import Mathlib

/-!
# paopao-ce: the loose servant (`internal/servants/web/loose.go`)

A shallow embedding of the read-through cache layer of the loose servant:
cache-key construction, the cached list handlers (`Timeline`, `GetUserTweets`,
`TweetComments`) and the visibility decision of `TweetDetail`.

Conventions of the embedding.
* Go `int`/`int64` values are `Int`; the one arithmetic expression of the file,
  `(page-1)*pageSize`, wraps to 64 bits (`pageOffset`).
* A Go pointer that the handlers test against `nil` is an `Option`; a pointer that
  is dereferenced unconditionally is the value it points to.
* The data source, the search service and the helpers of `base.DaoServant` are
  fields of `DaoServant`: pure functions of a fixed data-source state, returning
  `Except` for Go's `(value, error)`.
* In-place mutation of a formatted post or reply is explicit value passing.
* A handler returns a `Reply`: the Go result pair `(res, err)` together with the
  ordered log of the cache and data-source operations it performed.
* A string is its sequence of characters; the separator `:`, the sign and the digits
  of a key are single characters of that sequence.
-/

namespace Paopao

/-! ## `fmt.Sprintf` for the verbs used by the servant -/

/-- Decimal digits of `n`, least significant first (the digit loop of
`strconv.FormatInt`); `fuel` bounds the number of digits. -/
def decDigitsRev : Nat → Nat → List Char
  | 0, _ => []
  | fuel + 1, n =>
    Nat.digitChar (n % 10) :: (if n / 10 = 0 then [] else decDigitsRev fuel (n / 10))

/-- Decimal rendering of a natural number. -/
def formatNat (n : Nat) : List Char := (decDigitsRev (n + 1) n).reverse

/-- Rendering of the verb `%d` for a signed integer. -/
def formatInt : Int → List Char
  | Int.ofNat n => formatNat n
  | Int.negSucc n => '-' :: formatNat (n + 1)

/-- An operand of `fmt.Sprintf`: a string (or the `String()` rendering of a
`fmt.Stringer`) for `%s`, an integer for `%d`. -/
inductive FmtArg where
  | s (v : String)
  | d (v : Int)
  deriving DecidableEq, Repr

/-- The interpreter of a format string over its operands. Only `%s` applied to a
string operand and `%d` applied to an integer operand occur in the servant; any
other character is copied. -/
def sprintfAux : List Char → List FmtArg → List Char
  | [], _ => []
  | [c], _ => [c]
  | c :: v :: fmt, args =>
    if c = '%' ∧ v = 's' then
      match args with
      | FmtArg.s x :: rest => x.data ++ sprintfAux fmt rest
      | _ => c :: sprintfAux (v :: fmt) args
    else if c = '%' ∧ v = 'd' then
      match args with
      | FmtArg.d x :: rest => formatInt x ++ sprintfAux fmt rest
      | _ => c :: sprintfAux (v :: fmt) args
    else c :: sprintfAux (v :: fmt) args

/-- The embedding of `fmt.Sprintf`. -/
def Sprintf (fmt : String) (args : List FmtArg) : String :=
  String.mk (sprintfAux fmt.data args)

/-! ## Data model -/

/-- Modelled from the spec: `core.PostVisit*` (type `PostVisibleT`) is declared outside
the sources at hand. The tiers are public, friend-only, following-only and
private; `other` stands for any unlisted value. -/
inductive PostVisibleT where
  | PostVisitPublic
  | PostVisitPrivate
  | PostVisitFriend
  | PostVisitFollowing
  | other (code : Nat)
  deriving DecidableEq, Repr

/-- Modelled from the spec: `cs.RelationTyp` is declared outside the sources at hand.
The relations named by the servant are self, admin, friend, following and guest;
`RelationOther` stands for any other value of the type. -/
inductive RelationTyp where
  | RelationSelf
  | RelationAdmin
  | RelationFriend
  | RelationFollowing
  | RelationGuest
  | RelationOther (code : Nat)
  deriving DecidableEq, Repr

/-- Modelled from the spec: the method `String` of `cs.RelationTyp`, with which `%s`
renders `user.RelTyp` in the key of `userTweetsFromCache`, is declared outside the
sources at hand. The relation tag of a tier is the name the spec gives the tier:
self, admin, friend, following, guest. The spec names no tag for another value of
the type; all of them get the one tag "unknown". -/
def RelationTyp.String : RelationTyp → String
  | RelationTyp.RelationSelf => "self"
  | RelationTyp.RelationAdmin => "admin"
  | RelationTyp.RelationFriend => "friend"
  | RelationTyp.RelationFollowing => "following"
  | RelationTyp.RelationGuest => "guest"
  | RelationTyp.RelationOther _ => "unknown"

/-- Modelled from the spec: the query variants `cs.StyleUserTweets*` named by
`getUserPostTweets`. -/
inductive StyleUserTweets where
  | StyleUserTweetsGuest
  | StyleUserTweetsAdmin
  | StyleUserTweetsSelf
  | StyleUserTweetsFriend
  | StyleUserTweetsFollowing
  deriving DecidableEq, Repr

/-- Modelled from the spec: the index style discriminator "newest". -/
def StyleTweetsNewest : String := "newest"
/-- Modelled from the spec: the index style discriminator "hots". -/
def StyleTweetsHots : String := "hots"
/-- Modelled from the spec: the index style discriminator "following". -/
def StyleTweetsFollowing : String := "following"
/-- Modelled from the spec: the user-tweets style discriminator "post". -/
def UserPostsStylePost : String := "post"
/-- Modelled from the spec: the user-tweets style discriminator "comment". -/
def UserPostsStyleComment : String := "comment"
/-- Modelled from the spec: the user-tweets style discriminator "highlight". -/
def UserPostsStyleHighlight : String := "highlight"
/-- Modelled from the spec: the user-tweets style discriminator "media". -/
def UserPostsStyleMedia : String := "media"
/-- Modelled from the spec: the user-tweets style discriminator "star". -/
def UserPostsStyleStar : String := "star"

/-- The authenticated viewer (`ms.User`). -/
structure User where
  ID : Int
  Username : String
  IsAdmin : Bool
  deriving DecidableEq, Repr

/-- The author view (`ms.UserFormated`) with its per-viewer relationship flags. -/
structure UserFormated where
  ID : Int
  Username : String
  IsAdmin : Bool
  IsFriend : Bool
  IsFollowing : Bool
  deriving DecidableEq, Repr

/-- A raw post row (`ms.Post`). -/
structure Post where
  ID : Int
  UserID : Int
  Visibility : PostVisibleT
  deriving DecidableEq, Repr

/-- A raw content fragment of a post (`ms.PostContent`). -/
structure PostContent where
  ID : Int
  PostID : Int
  Content : String
  deriving DecidableEq, Repr

/-- A formatted content fragment (`ms.PostContentFormated`). -/
structure PostContentFormated where
  ID : Int
  PostID : Int
  Content : String
  deriving DecidableEq, Repr

/-- A formatted post (`ms.PostFormated`). -/
structure PostFormated where
  ID : Int
  UserID : Int
  User : UserFormated
  Contents : List PostContentFormated
  Visibility : PostVisibleT
  deriving DecidableEq, Repr

/-- A star row; its post may be absent (`star.Post != nil`). -/
structure PostStar where
  ID : Int
  Post : Option Post
  deriving DecidableEq, Repr

/-- A raw top-level comment row (`ms.Comment`). -/
structure Comment where
  ID : Int
  PostID : Int
  UserID : Int
  deriving DecidableEq, Repr

/-- A content fragment of a comment (`ms.CommentContent`). -/
structure CommentContent where
  ID : Int
  CommentID : Int
  Content : String
  deriving DecidableEq, Repr

/-- A formatted reply (`dbr.CommentReplyFormated`) with the viewer's reaction flags. -/
structure CommentReplyFormated where
  ID : Int
  CommentID : Int
  UserID : Int
  IsThumbsUp : Int
  IsThumbsDown : Int
  deriving DecidableEq, Repr

/-- A formatted comment (`ms.CommentFormated`). -/
structure CommentFormated where
  ID : Int
  PostID : Int
  UserID : Int
  User : UserFormated
  Contents : List CommentContent
  Replies : List CommentReplyFormated
  IsThumbsUp : Int
  IsThumbsDown : Int
  deriving DecidableEq, Repr

/-- A viewer's reaction to one comment or reply (`cs.CommentThumbs`). -/
structure CommentThumbs where
  IsThumbsUp : Int
  IsThumbsDown : Int
  deriving DecidableEq, Repr

/-- The map `cs.CommentThumbsMap`, from a comment or reply id to the reaction,
as an association list read with `List.lookup`. -/
abbrev CommentThumbsMap := List (Int × CommentThumbs)

/-- The target user of a user-tweets request with the viewer's relation to it
(`cs.VistUser`). -/
structure VistUser where
  Username : String
  UserId : Int
  RelTyp : RelationTyp
  deriving DecidableEq, Repr

/-- The `any`-typed item list of a page. -/
inductive PageItems where
  | tweets (l : List PostFormated)
  | comments (l : List CommentFormated)
  deriving DecidableEq, Repr

/-- The pager block of an envelope. -/
structure Pager where
  Page : Int
  PageSize : Int
  TotalRows : Int
  deriving DecidableEq, Repr

/-- The page envelope (`joint.PageResp`). -/
structure PageResp where
  List : PageItems
  Pager : Pager
  deriving DecidableEq, Repr

/-- Modelled from the spec: `joint.PageRespFrom` is declared outside the sources at hand;
`build(items, page, pageSize, totalRows)` is the envelope of exactly these four
values. -/
def PageRespFrom (list : PageItems) (page pageSize totalRows : Int) : PageResp :=
  { List := list, Pager := { Page := page, PageSize := pageSize, TotalRows := totalRows } }

/-- The response body shared by the list handlers (`joint.CachePageResp`): `Data` is
set on the miss path, `JsonResp` on a cache hit. The serialised payload is
represented by the envelope it encodes. -/
structure CachePageResp where
  Data : Option PageResp
  JsonResp : Option PageResp
  deriving DecidableEq, Repr

abbrev TimelineResp := CachePageResp
abbrev GetUserTweetsResp := CachePageResp
abbrev TweetCommentsResp := CachePageResp
abbrev TweetDetailResp := PostFormated

/-- The fixed error values of package `web` returned by the servant. -/
inductive WebErr where
  | ErrGetPostsFailed
  | ErrGetPostFailed
  | ErrGetPostsUnknowStyle
  | ErrGetStarsFailed
  | ErrGetCommentsFailed
  | ErrNoPermission
  deriving DecidableEq, Repr

/-- An internal error of the data source, with its text. -/
abbrev DsErr := String

/-- The request of `Timeline`. -/
structure TimelineReq where
  User : Option User
  Query : String
  Type_ : String
  Style : String
  Page : Int
  PageSize : Int
  deriving DecidableEq, Repr

/-- The request of `GetUserTweets`. -/
structure GetUserTweetsReq where
  User : Option User
  Username : String
  Style : String
  Page : Int
  PageSize : Int
  deriving DecidableEq, Repr

/-- The request of `TweetComments`. -/
structure TweetCommentsReq where
  Uid : Int
  TweetId : Int
  Style : String
  Page : Int
  PageSize : Int
  deriving DecidableEq, Repr

/-- The request of `TweetDetail`. -/
structure TweetDetailReq where
  User : Option User
  TweetId : Int
  deriving DecidableEq, Repr

/-- The search query handed to the search service (`core.QueryReq`). -/
structure QueryReq where
  Query : String
  Type_ : String
  deriving DecidableEq, Repr

/-- The search result (`core.QueryResp`). -/
structure QueryResp where
  Items : List PostFormated
  Total : Int
  deriving DecidableEq, Repr

/-- A call into the data source, the search service or a helper of `base.DaoServant`. -/
inductive DsCall where
  | Search (q : QueryReq) (offset limit : Int)
  | RevampPosts
  | PrepareTweets (userId : Int)
  | PrepareTweet
  | ListFollowingTweets (userId limit offset : Int)
  | ListIndexNewestTweets (limit offset : Int)
  | ListIndexHotsTweets (limit offset : Int)
  | MergePosts
  | RelationTypFrom
  | ListUserStarTweets (limit offset : Int)
  | ListUserCommentTweets (limit offset : Int)
  | ListUserMediaTweets (limit offset : Int)
  | ListUserTweets (userId : Int) (style : StyleUserTweets) (isHighlight : Bool) (limit offset : Int)
  | GetComments (tweetId : Int) (limit offset : Int)
  | GetUsersByIDs (ids : List Int)
  | GetCommentContentsByIDs (ids : List Int)
  | GetCommentRepliesByID (ids : List Int)
  | GetCommentThumbsMap (uid tweetId : Int)
  | GetPostByID (id : Int)
  | GetPostContentsByIDs (ids : List Int)
  deriving DecidableEq, Repr

/-- An observable operation of a handler: a cache read, a cache store request
(`base.OnCacheRespEvent`) or a data-source call. -/
inductive Event where
  | cacheGet (key : String)
  | cacheSet (key : String) (data : Option PageResp) (expire : Int)
  | ds (call : DsCall)
  deriving DecidableEq, Repr

/-- The result of a handler: Go's `(res, err)` and the operations performed. -/
structure Reply (α : Type) where
  res : Option α
  err : Option WebErr
  log : List Event
  deriving DecidableEq, Repr

/-- The application cache (`core.AppCache`): `Get` yields the stored payload, or
`none` when it reports an error (absent or expired entry). -/
structure AppCache where
  Get : String → Option PageResp

/-- The collaborators embedded in the servant (`base.DaoServant`): data source `Ds`,
search service `Ts`, the prepare helpers, and the `Format`, `ToInnerValue` and
`String` methods of the model types, all declared outside the sources at hand. -/
structure DaoServant where
  Search : Option User → QueryReq → Int → Int → Except DsErr QueryResp
  RevampPosts : List PostFormated → Except DsErr (List PostFormated)
  PrepareTweets : Int → List PostFormated → Except DsErr (List PostFormated)
  PrepareTweet : Option User → PostFormated → Except DsErr PostFormated
  RelationTypFrom : Option User → String → Except DsErr VistUser
  ListFollowingTweets : Int → Int → Int → Except DsErr (List Post × Int)
  ListIndexNewestTweets : Int → Int → Except DsErr (List Post × Int)
  ListIndexHotsTweets : Int → Int → Except DsErr (List Post × Int)
  MergePosts : List Post → Except DsErr (List PostFormated)
  ListUserStarTweets : VistUser → Int → Int → Except DsErr (List PostStar × Int)
  ListUserCommentTweets : VistUser → Int → Int → Except DsErr (List Post × Int)
  ListUserMediaTweets : VistUser → Int → Int → Except DsErr (List Post × Int)
  ListUserTweets : Int → StyleUserTweets → Bool → Int → Int → Except DsErr (List Post × Int)
  GetComments : Int → String → Int → Int → Except DsErr (List Comment × Int)
  GetUsersByIDs : List Int → Except DsErr (List User)
  GetCommentContentsByIDs : List Int → Except DsErr (List CommentContent)
  GetCommentRepliesByID : List Int → Except DsErr (List CommentReplyFormated)
  GetCommentThumbsMap : Int → Int → Except DsErr (CommentThumbsMap × CommentThumbsMap)
  GetPostByID : Int → Except DsErr Post
  GetPostContentsByIDs : List Int → Except DsErr (List PostContent)
  postFormat : Post → PostFormated
  userFormat : User → UserFormated
  postContentFormat : PostContent → PostContentFormated
  commentFormat : Comment → CommentFormated
  styleToInnerValue : String → String
  relationString : RelationTyp → String

/-- The servant `looseSrv`. -/
structure looseSrv extends DaoServant where
  ac : AppCache
  userTweetsExpire : Int
  idxTweetsExpire : Int
  tweetCommentsExpire : Int
  prefixUserTweets : String
  prefixIdxTweetsNewest : String
  prefixIdxTweetsHots : String
  prefixIdxTweetsFollowing : String
  prefixTweetComment : String

/-- Reduction of an integer to the signed 64-bit range (Go `int` arithmetic). -/
def wrapInt (x : Int) : Int :=
  (x + 9223372036854775808) % 18446744073709551616 - 9223372036854775808

/-- The expression `(page-1)*pageSize`. -/
def pageOffset (page pageSize : Int) : Int :=
  wrapInt (wrapInt (page - 1) * pageSize)

/-- The viewer id handed to the prepare helpers: `-1` without a viewer. -/
def viewerId (u : Option User) : Int :=
  match u with
  | some u => u.ID
  | none => -1

/-! ## Cache lookups and key construction -/

/-- The function `looseSrv.indexTweetsFromCache`: result `(res, key, ok)` and the cache reads. -/
def indexTweetsFromCache (s : looseSrv) (req : TimelineReq) (limit offset : Int) :
    Option TimelineResp × String × Bool × List Event :=
  let username : String :=
    match req.User with
    | some u => u.Username
    | none => "_"
  let key : Option String :=
    if req.Style = StyleTweetsFollowing then
      some (Sprintf "%s%s:%d:%d"
        [FmtArg.s s.prefixIdxTweetsFollowing, FmtArg.s username, FmtArg.d offset, FmtArg.d limit])
    else if req.Style = StyleTweetsNewest then
      some (Sprintf "%s%s:%d:%d"
        [FmtArg.s s.prefixIdxTweetsNewest, FmtArg.s username, FmtArg.d offset, FmtArg.d limit])
    else if req.Style = StyleTweetsHots then
      some (Sprintf "%s%s:%d:%d"
        [FmtArg.s s.prefixIdxTweetsHots, FmtArg.s username, FmtArg.d offset, FmtArg.d limit])
    else none
  match key with
  | none => (none, "", false, [])
  | some key =>
    match s.ac.Get key with
    | some data => (some { Data := none, JsonResp := some data }, key, true, [Event.cacheGet key])
    | none => (none, key, false, [Event.cacheGet key])

/-- The function `looseSrv.tweetCommentsFromCache`. -/
def tweetCommentsFromCache (s : looseSrv) (req : TweetCommentsReq) (limit offset : Int) :
    Option TweetCommentsResp × String × Bool × List Event :=
  let key := Sprintf "%s%d:%s:%d:%d"
    [FmtArg.s s.prefixTweetComment, FmtArg.d req.TweetId, FmtArg.s req.Style,
     FmtArg.d limit, FmtArg.d offset]
  match s.ac.Get key with
  | some data => (some { Data := none, JsonResp := some data }, key, true, [Event.cacheGet key])
  | none => (none, key, false, [Event.cacheGet key])

/-- The function `looseSrv.userTweetsFromCache`. The outer `none` is the nil dereference of
`req.User.Username` for a non-guest relation without a viewer. -/
def userTweetsFromCache (s : looseSrv) (req : GetUserTweetsReq) (user : VistUser) :
    Option (Option GetUserTweetsResp × String × Bool × List Event) :=
  let key : Option String :=
    if req.Style = UserPostsStylePost ∨ req.Style = UserPostsStyleHighlight
        ∨ req.Style = UserPostsStyleMedia then
      some (Sprintf "%s%d:%s:%s:%d:%d"
        [FmtArg.s s.prefixUserTweets, FmtArg.d user.UserId, FmtArg.s req.Style,
         FmtArg.s (s.relationString user.RelTyp), FmtArg.d req.Page, FmtArg.d req.PageSize])
    else
      let meName : Option String :=
        if user.RelTyp ≠ RelationTyp.RelationGuest then
          match req.User with
          | some u => some u.Username
          | none => none
        else some "_"
      match meName with
      | none => none
      | some meName =>
        some (Sprintf "%s%d:%s:%s:%d:%d"
          [FmtArg.s s.prefixUserTweets, FmtArg.d user.UserId, FmtArg.s req.Style,
           FmtArg.s meName, FmtArg.d req.Page, FmtArg.d req.PageSize])
  match key with
  | none => none
  | some key =>
    match s.ac.Get key with
    | some data =>
      some (some { Data := none, JsonResp := some data }, key, true, [Event.cacheGet key])
    | none => some (none, key, false, [Event.cacheGet key])

/-! ## Index timeline -/

/-- The function `looseSrv.getIndexTweets`. -/
def getIndexTweets (s : looseSrv) (req : TimelineReq) (limit offset : Int) :
    Reply TimelineResp :=
  match indexTweetsFromCache s req limit offset with
  | (res, _, true, log0) => { res := res, err := none, log := log0 }
  | (_, key, false, log0) =>
    let query : Option (DsCall × Except DsErr (List Post × Int)) :=
      if req.Style = StyleTweetsFollowing then
        match req.User with
        | some u =>
          some (DsCall.ListFollowingTweets u.ID limit offset,
                s.ListFollowingTweets u.ID limit offset)
        | none =>
          some (DsCall.ListIndexNewestTweets limit offset, s.ListIndexNewestTweets limit offset)
      else if req.Style = StyleTweetsNewest then
        some (DsCall.ListIndexNewestTweets limit offset, s.ListIndexNewestTweets limit offset)
      else if req.Style = StyleTweetsHots then
        some (DsCall.ListIndexHotsTweets limit offset, s.ListIndexHotsTweets limit offset)
      else none
    match query with
    | none => { res := none, err := some WebErr.ErrGetPostsUnknowStyle, log := log0 }
    | some (call, Except.error _) =>
      { res := none, err := some WebErr.ErrGetPostFailed, log := log0 ++ [Event.ds call] }
    | some (call, Except.ok (posts, total)) =>
      let log1 := log0 ++ [Event.ds call, Event.ds DsCall.MergePosts]
      match s.MergePosts posts with
      | Except.error _ => { res := none, err := some WebErr.ErrGetPostFailed, log := log1 }
      | Except.ok postsFormated =>
        let userId := viewerId req.User
        let log2 := log1 ++ [Event.ds (DsCall.PrepareTweets userId)]
        match s.PrepareTweets userId postsFormated with
        | Except.error _ => { res := none, err := some WebErr.ErrGetPostsFailed, log := log2 }
        | Except.ok postsFormated =>
          let resp := PageRespFrom (PageItems.tweets postsFormated) req.Page req.PageSize total
          { res := some { Data := some resp, JsonResp := none }
            err := none
            log := log2 ++ [Event.cacheSet key (some resp) s.idxTweetsExpire] }

/-- The handler `looseSrv.Timeline`. -/
def Timeline (s : looseSrv) (req : TimelineReq) : Reply TimelineResp :=
  let limit := req.PageSize
  let offset := pageOffset req.Page req.PageSize
  if req.Query = "" ∧ req.Type_ = "search" then
    getIndexTweets s req limit offset
  else
    let q : QueryReq := { Query := req.Query, Type_ := req.Type_ }
    let log0 := [Event.ds (DsCall.Search q offset limit)]
    match s.Search req.User q offset limit with
    | Except.error _ => { res := none, err := some WebErr.ErrGetPostsFailed, log := log0 }
    | Except.ok res =>
      let log1 := log0 ++ [Event.ds DsCall.RevampPosts]
      match s.RevampPosts res.Items with
      | Except.error _ => { res := none, err := some WebErr.ErrGetPostsFailed, log := log1 }
      | Except.ok posts =>
        let userId := viewerId req.User
        let log2 := log1 ++ [Event.ds (DsCall.PrepareTweets userId)]
        match s.PrepareTweets userId posts with
        | Except.error _ => { res := none, err := some WebErr.ErrGetPostsFailed, log := log2 }
        | Except.ok posts =>
          let resp := PageRespFrom (PageItems.tweets posts) req.Page req.PageSize res.Total
          { res := some { Data := some resp, JsonResp := none }, err := none, log := log2 }

/-! ## User tweets -/

/-- The function `looseSrv.getUserStarTweets`. -/
def getUserStarTweets (s : looseSrv) (req : GetUserTweetsReq) (user : VistUser) :
    Reply GetUserTweetsResp :=
  let offset := pageOffset req.Page req.PageSize
  let log0 := [Event.ds (DsCall.ListUserStarTweets req.PageSize offset)]
  match s.ListUserStarTweets user req.PageSize offset with
  | Except.error _ => { res := none, err := some WebErr.ErrGetStarsFailed, log := log0 }
  | Except.ok (stars, totalRows) =>
    let posts : List Post := stars.foldl
      (fun posts star =>
        match star.Post with
        | some p => posts ++ [p]
        | none => posts) []
    let log1 := log0 ++ [Event.ds DsCall.MergePosts]
    match s.MergePosts posts with
    | Except.error _ => { res := none, err := some WebErr.ErrGetStarsFailed, log := log1 }
    | Except.ok postsFormated =>
      let userId := viewerId req.User
      let log2 := log1 ++ [Event.ds (DsCall.PrepareTweets userId)]
      match s.PrepareTweets userId postsFormated with
      | Except.error _ => { res := none, err := some WebErr.ErrGetPostsFailed, log := log2 }
      | Except.ok postsFormated =>
        let resp := PageRespFrom (PageItems.tweets postsFormated) req.Page req.PageSize totalRows
        { res := some { Data := some resp, JsonResp := none }, err := none, log := log2 }

/-- The function `looseSrv.listUserTweets`. -/
def listUserTweets (s : looseSrv) (req : GetUserTweetsReq) (user : VistUser) :
    Reply GetUserTweetsResp :=
  let offset := pageOffset req.Page req.PageSize
  let query : Option (DsCall × Except DsErr (List Post × Int)) :=
    if req.Style = UserPostsStyleComment then
      some (DsCall.ListUserCommentTweets req.PageSize offset,
            s.ListUserCommentTweets user req.PageSize offset)
    else if req.Style = UserPostsStyleMedia then
      some (DsCall.ListUserMediaTweets req.PageSize offset,
            s.ListUserMediaTweets user req.PageSize offset)
    else none
  match query with
  | none => { res := none, err := some WebErr.ErrGetPostsFailed, log := [] }
  | some (call, Except.error _) =>
    { res := none, err := some WebErr.ErrGetPostsFailed, log := [Event.ds call] }
  | some (call, Except.ok (tweets, total)) =>
    let log1 := [Event.ds call, Event.ds DsCall.MergePosts]
    match s.MergePosts tweets with
    | Except.error _ => { res := none, err := some WebErr.ErrGetPostsFailed, log := log1 }
    | Except.ok postsFormated =>
      let userId := viewerId req.User
      let log2 := log1 ++ [Event.ds (DsCall.PrepareTweets userId)]
      match s.PrepareTweets userId postsFormated with
      | Except.error _ => { res := none, err := some WebErr.ErrGetPostsFailed, log := log2 }
      | Except.ok postsFormated =>
        let resp := PageRespFrom (PageItems.tweets postsFormated) req.Page req.PageSize total
        { res := some { Data := some resp, JsonResp := none }, err := none, log := log2 }

/-- The function `looseSrv.getUserPostTweets`. -/
def getUserPostTweets (s : looseSrv) (req : GetUserTweetsReq) (user : VistUser)
    (isHighlight : Bool) : Reply GetUserTweetsResp :=
  let style : StyleUserTweets :=
    match user.RelTyp with
    | RelationTyp.RelationAdmin => StyleUserTweets.StyleUserTweetsAdmin
    | RelationTyp.RelationSelf => StyleUserTweets.StyleUserTweetsSelf
    | RelationTyp.RelationFriend => StyleUserTweets.StyleUserTweetsFriend
    | RelationTyp.RelationFollowing => StyleUserTweets.StyleUserTweetsFollowing
    | RelationTyp.RelationGuest => StyleUserTweets.StyleUserTweetsGuest
    | _ => StyleUserTweets.StyleUserTweetsGuest
  let offset := pageOffset req.Page req.PageSize
  let log0 := [Event.ds (DsCall.ListUserTweets user.UserId style isHighlight req.PageSize offset)]
  match s.ListUserTweets user.UserId style isHighlight req.PageSize offset with
  | Except.error _ => { res := none, err := some WebErr.ErrGetPostsFailed, log := log0 }
  | Except.ok (posts, total) =>
    let log1 := log0 ++ [Event.ds DsCall.MergePosts]
    match s.MergePosts posts with
    | Except.error _ => { res := none, err := some WebErr.ErrGetPostsFailed, log := log1 }
    | Except.ok postsFormated =>
      let userId := viewerId req.User
      let log2 := log1 ++ [Event.ds (DsCall.PrepareTweets userId)]
      match s.PrepareTweets userId postsFormated with
      | Except.error _ => { res := none, err := some WebErr.ErrGetPostsFailed, log := log2 }
      | Except.ok postsFormated =>
        let resp := PageRespFrom (PageItems.tweets postsFormated) req.Page req.PageSize total
        { res := some { Data := some resp, JsonResp := none }, err := none, log := log2 }

/-- The handler `looseSrv.GetUserTweets`. The outer `none` is a nil dereference (in
`userTweetsFromCache`, or of `res.Data` for a nil `res`). When the relation lookup
fails the handler returns its named result `err`, which is still nil at that point. -/
def GetUserTweets (s : looseSrv) (req : GetUserTweetsReq) : Option (Reply GetUserTweetsResp) :=
  match s.RelationTypFrom req.User req.Username with
  | Except.error _ =>
    some { res := none, err := none, log := [Event.ds DsCall.RelationTypFrom] }
  | Except.ok user =>
    match userTweetsFromCache s req user with
    | none => none
    | some (res, _, true, log0) =>
      some { res := res, err := none, log := Event.ds DsCall.RelationTypFrom :: log0 }
    | some (_, key, false, log0) =>
      let r : Reply GetUserTweetsResp :=
        if req.Style = UserPostsStyleComment ∨ req.Style = UserPostsStyleMedia then
          listUserTweets s req user
        else if req.Style = UserPostsStyleHighlight then
          getUserPostTweets s req user true
        else if req.Style = UserPostsStyleStar then
          getUserStarTweets s req user
        else
          getUserPostTweets s req user false
      let log1 := Event.ds DsCall.RelationTypFrom :: (log0 ++ r.log)
      match r.err with
      | some e => some { res := r.res, err := some e, log := log1 }
      | none =>
        match r.res with
        | none => none
        | some res =>
          some { res := some res, err := none,
                 log := log1 ++ [Event.cacheSet key res.Data s.userTweetsExpire] }

/-! ## Comment threads -/

/-- The Go map `map[int64][]*dbr.CommentReplyFormated`. -/
abbrev ReplyMap := Int → Option (List CommentReplyFormated)

/-- The statement `replyMap[k] = append(replyMap[k], reply)`. -/
def ReplyMap.push (m : ReplyMap) (k : Int) (reply : CommentReplyFormated) : ReplyMap :=
  fun k' => if k' = k then some ((m k).getD [] ++ [reply]) else m k'

/-- The grouping of the replies by owning comment, with the viewer's reply reactions
spliced in when the reaction map is not empty (the two loops over `replies`). -/
def groupReplies (replyThumbs : CommentThumbsMap) (replies : List CommentReplyFormated) :
    ReplyMap :=
  if 0 < replyThumbs.length then
    replies.foldl
      (fun replyMap reply =>
        let reply :=
          match replyThumbs.lookup reply.ID with
          | some thumbs =>
            { reply with IsThumbsUp := thumbs.IsThumbsUp, IsThumbsDown := thumbs.IsThumbsDown }
          | none => reply
        replyMap.push reply.CommentID reply)
      (fun _ => none)
  else
    replies.foldl (fun replyMap reply => replyMap.push reply.CommentID reply) (fun _ => none)

/-- The body of the assembly loop for one comment. -/
def mergeComment (s : looseSrv) (commentThumbs : CommentThumbsMap)
    (contents : List CommentContent) (replyMap : ReplyMap) (users : List User)
    (comment : Comment) : CommentFormated :=
  let commentFormated := s.commentFormat comment
  let commentFormated :=
    match commentThumbs.lookup comment.ID with
    | some thumbs =>
      { commentFormated with
        IsThumbsUp := thumbs.IsThumbsUp, IsThumbsDown := thumbs.IsThumbsDown }
    | none => commentFormated
  let commentFormated := contents.foldl
    (fun cf content =>
      if content.CommentID = comment.ID then
        { cf with Contents := cf.Contents ++ [content] }
      else cf) commentFormated
  let commentFormated :=
    match replyMap commentFormated.ID with
    | some replySlice => { commentFormated with Replies := replySlice }
    | none => commentFormated
  users.foldl
    (fun cf user =>
      if user.ID = comment.UserID then { cf with User := s.userFormat user } else cf)
    commentFormated

/-- The tail of `TweetComments` once every fetch has succeeded: grouping, assembly,
envelope and cache store request. -/
def assembleComments (s : looseSrv) (req : TweetCommentsReq) (key : String)
    (comments : List Comment) (totalRows : Int) (users : List User)
    (contents : List CommentContent) (replies : List CommentReplyFormated)
    (commentThumbs replyThumbs : CommentThumbsMap) (log : List Event) :
    Reply TweetCommentsResp :=
  let replyMap := groupReplies replyThumbs replies
  let commentsFormated := comments.map (mergeComment s commentThumbs contents replyMap users)
  let resp := PageRespFrom (PageItems.comments commentsFormated) req.Page req.PageSize totalRows
  { res := some { Data := some resp, JsonResp := none }
    err := none
    log := log ++ [Event.cacheSet key (some resp) s.tweetCommentsExpire] }

/-- The handler `looseSrv.TweetComments`. -/
def TweetComments (s : looseSrv) (req : TweetCommentsReq) : Reply TweetCommentsResp :=
  let limit := req.PageSize
  let offset := pageOffset req.Page req.PageSize
  match tweetCommentsFromCache s req limit offset with
  | (res, _, true, log0) => { res := res, err := none, log := log0 }
  | (_, key, false, log0) =>
    let log1 := log0 ++ [Event.ds (DsCall.GetComments req.TweetId limit offset)]
    match s.GetComments req.TweetId (s.styleToInnerValue req.Style) limit offset with
    | Except.error _ => { res := none, err := some WebErr.ErrGetCommentsFailed, log := log1 }
    | Except.ok (comments, totalRows) =>
      let userIDs := comments.map (fun comment => comment.UserID)
      let commentIDs := comments.map (fun comment => comment.ID)
      let log2 := log1 ++ [Event.ds (DsCall.GetUsersByIDs userIDs)]
      match s.GetUsersByIDs userIDs with
      | Except.error _ => { res := none, err := some WebErr.ErrGetCommentsFailed, log := log2 }
      | Except.ok users =>
        let log3 := log2 ++ [Event.ds (DsCall.GetCommentContentsByIDs commentIDs)]
        match s.GetCommentContentsByIDs commentIDs with
        | Except.error _ =>
          { res := none, err := some WebErr.ErrGetCommentsFailed, log := log3 }
        | Except.ok contents =>
          let log4 := log3 ++ [Event.ds (DsCall.GetCommentRepliesByID commentIDs)]
          match s.GetCommentRepliesByID commentIDs with
          | Except.error _ =>
            { res := none, err := some WebErr.ErrGetCommentsFailed, log := log4 }
          | Except.ok replies =>
            if 0 < req.Uid then
              let log5 := log4 ++ [Event.ds (DsCall.GetCommentThumbsMap req.Uid req.TweetId)]
              match s.GetCommentThumbsMap req.Uid req.TweetId with
              | Except.error _ =>
                { res := none, err := some WebErr.ErrGetCommentsFailed, log := log5 }
              | Except.ok (commentThumbs, replyThumbs) =>
                assembleComments s req key comments totalRows users contents replies
                  commentThumbs replyThumbs log5
            else
              assembleComments s req key comments totalRows users contents replies [] [] log4

/-! ## Tweet detail -/

/-- The data integration step of `TweetDetail`: the formatted post with the author view
of the fetched users (the last one wins) and the formatted content fragments of the
post, in fetch order. -/
def detailMerge (s : looseSrv) (post : Post) (users : List User)
    (postContents : List PostContent) : PostFormated :=
  let postFormated := s.postFormat post
  let postFormated := users.foldl
    (fun pf user => { pf with User := s.userFormat user }) postFormated
  postContents.foldl
    (fun pf content =>
      if content.PostID = post.ID then
        { pf with Contents := pf.Contents ++ [s.postContentFormat content] }
      else pf) postFormated

/-- The handler `looseSrv.TweetDetail`. -/
def TweetDetail (s : looseSrv) (req : TweetDetailReq) : Reply TweetDetailResp :=
  let log0 := [Event.ds (DsCall.GetPostByID req.TweetId)]
  match s.GetPostByID req.TweetId with
  | Except.error _ => { res := none, err := some WebErr.ErrGetPostFailed, log := log0 }
  | Except.ok post =>
    let log1 := log0 ++ [Event.ds (DsCall.GetPostContentsByIDs [post.ID])]
    match s.GetPostContentsByIDs [post.ID] with
    | Except.error _ => { res := none, err := some WebErr.ErrGetPostFailed, log := log1 }
    | Except.ok postContents =>
      let log2 := log1 ++ [Event.ds (DsCall.GetUsersByIDs [post.UserID])]
      match s.GetUsersByIDs [post.UserID] with
      | Except.error _ => { res := none, err := some WebErr.ErrGetPostFailed, log := log2 }
      | Except.ok users =>
        let postFormated := detailMerge s post users postContents
        let log3 := log2 ++ [Event.ds DsCall.PrepareTweet]
        match s.PrepareTweet req.User postFormated with
        | Except.error _ => { res := none, err := some WebErr.ErrGetPostFailed, log := log3 }
        | Except.ok postFormated =>
          let selfOrAdmin : Bool :=
            match req.User with
            | some u => decide (u.ID = postFormated.User.ID) || u.IsAdmin
            | none => false
          if selfOrAdmin then
            { res := some postFormated, err := none, log := log3 }
          else if post.Visibility = PostVisibleT.PostVisitPublic then
            { res := some postFormated, err := none, log := log3 }
          else if post.Visibility = PostVisibleT.PostVisitFriend
              ∧ postFormated.User.IsFriend = true then
            { res := some postFormated, err := none, log := log3 }
          else if post.Visibility = PostVisibleT.PostVisitFollowing
              ∧ postFormated.User.IsFollowing = true then
            { res := some postFormated, err := none, log := log3 }
          else
            { res := none, err := some WebErr.ErrNoPermission, log := log3 }

/-- The constructor `newLooseSrv`, with the settings of package `conf` as arguments. -/
def newLooseSrv (d : DaoServant) (ac : AppCache)
    (userTweetsExpire idxTweetsExpire tweetCommentsExpire : Int)
    (prefixUserTweets prefixIdxTweetsNewest prefixIdxTweetsHots prefixIdxTweetsFollowing
      prefixTweetComment : String) : looseSrv :=
  { toDaoServant := d
    ac := ac
    userTweetsExpire := userTweetsExpire
    idxTweetsExpire := idxTweetsExpire
    tweetCommentsExpire := tweetCommentsExpire
    prefixUserTweets := prefixUserTweets
    prefixIdxTweetsNewest := prefixIdxTweetsNewest
    prefixIdxTweetsHots := prefixIdxTweetsHots
    prefixIdxTweetsFollowing := prefixIdxTweetsFollowing
    prefixTweetComment := prefixTweetComment }

/-! ## Vocabulary of the statements -/

/-- The value of a digit list, least significant digit first. -/
def decValueRev : List Char → Nat
  | [] => 0
  | c :: cs => (c.toNat - 48) + 10 * decValueRev cs

/-- The relation columns of the visibility table that do not override the tier. -/
inductive TableRelation where
  | friend
  | following
  | guest
  deriving DecidableEq, Repr

/-- The relation column selected by the flags of the author view: friend is
`(IsFriend, not IsFollowing)`, following is `(IsFollowing, not IsFriend)`, guest has
neither flag. -/
def tableRelation (isFriend isFollowing : Bool) : Option TableRelation :=
  match isFriend, isFollowing with
  | true, false => some TableRelation.friend
  | false, true => some TableRelation.following
  | false, false => some TableRelation.guest
  | true, true => none

/-- The visibility table of the specification, for the three non-overriding columns:
public is visible to all, friend-only to friend, following-only to following, and
any other tier to none of them. -/
def tableVisible : PostVisibleT → TableRelation → Bool
  | PostVisibleT.PostVisitPublic, _ => true
  | PostVisibleT.PostVisitFriend, TableRelation.friend => true
  | PostVisibleT.PostVisitFollowing, TableRelation.following => true
  | _, _ => false

/-- The key derived by `indexTweetsFromCache`. -/
def indexKey (s : looseSrv) (req : TimelineReq) (limit offset : Int) : String :=
  (indexTweetsFromCache s req limit offset).2.1

/-- The key derived by `tweetCommentsFromCache`. -/
def commentsKey (s : looseSrv) (req : TweetCommentsReq) (limit offset : Int) : String :=
  (tweetCommentsFromCache s req limit offset).2.1

/-- The key derived by `userTweetsFromCache`, when it returns. -/
def userKey (s : looseSrv) (req : GetUserTweetsReq) (user : VistUser) : Option String :=
  (userTweetsFromCache s req user).map (fun out => out.2.1)

/-- The decimal text of an integer, as `%d` prints it. -/
def decimal (x : Int) : String := String.mk (formatInt x)

/-- The prefix of the specification's `prefix(resource)` for an index style. -/
def indexPrefix (s : looseSrv) (style : String) : String :=
  if style = StyleTweetsFollowing then s.prefixIdxTweetsFollowing
  else if style = StyleTweetsNewest then s.prefixIdxTweetsNewest
  else s.prefixIdxTweetsHots

/-- The identity token of the specification: the guest sentinel without a viewer, the
viewer's username otherwise. -/
def viewerToken (u : Option User) : String :=
  match u with
  | some u => u.Username
  | none => "_"

/-- The user styles whose key carries the viewer's own identity. -/
def identityScoped (style : String) : Prop :=
  style = UserPostsStyleComment ∨ style = UserPostsStyleStar

instance (style : String) : Decidable (identityScoped style) := by
  unfold identityScoped; infer_instance

/-- The text `prefix + targetUserId + ":" + style + ":" + who + ":" + page + ":" + pageSize`
of a user-tweets key whose fourth field is `who`. -/
def userKeyText (s : looseSrv) (req : GetUserTweetsReq) (user : VistUser) (who : String) :
    String :=
  s.prefixUserTweets ++ decimal user.UserId ++ ":" ++ req.Style ++ ":" ++ who ++ ":"
    ++ decimal req.Page ++ ":" ++ decimal req.PageSize

/-- The user-tweets request of `viewer` for page 1 of the given style of user "carol",
twenty per page. -/
def userReqOf (viewer : Option User) (style : String) : GetUserTweetsReq :=
  { User := viewer, Username := "carol", Style := style, Page := 1, PageSize := 20 }

/-- The index request of `viewer` for page 1 of the given style, twenty per page. -/
def indexReqOf (viewer : Option User) (style : String) : TimelineReq :=
  { User := viewer, Query := "", Type_ := "search", Style := style, Page := 1, PageSize := 20 }

/-- The comment request of viewer `uid` for page 1 of post 5, twenty per page. -/
def commentsReqOf (uid : Int) : TweetCommentsReq :=
  { Uid := uid, TweetId := 5, Style := "default", Page := 1, PageSize := 20 }

/-- The index styles with a cache key. -/
def indexStyleSupported (style : String) : Prop :=
  style = StyleTweetsNewest ∨ style = StyleTweetsHots ∨ style = StyleTweetsFollowing

instance (style : String) : Decidable (indexStyleSupported style) := by
  unfold indexStyleSupported; infer_instance

/-- The user styles whose key carries the relation tier. -/
def relationScoped (style : String) : Prop :=
  style = UserPostsStylePost ∨ style = UserPostsStyleHighlight ∨ style = UserPostsStyleMedia

instance (style : String) : Decidable (relationScoped style) := by
  unfold relationScoped; infer_instance

/-- The five relation tiers of the spec: self, admin, friend, following and guest. -/
def relationTier (t : RelationTyp) : Prop :=
  t = RelationTyp.RelationSelf ∨ t = RelationTyp.RelationAdmin
    ∨ t = RelationTyp.RelationFriend ∨ t = RelationTyp.RelationFollowing
    ∨ t = RelationTyp.RelationGuest

instance (t : RelationTyp) : Decidable (relationTier t) := by
  unfold relationTier; infer_instance

/-- The servant `s` over the relation tags of the spec. -/
def withRelationTags (s : looseSrv) : looseSrv :=
  { s with relationString := RelationTyp.String }

/-- The configured key prefixes of the five resource kinds. -/
def cachePrefixes (s : looseSrv) : List String :=
  [s.prefixIdxTweetsNewest, s.prefixIdxTweetsHots, s.prefixIdxTweetsFollowing,
   s.prefixUserTweets, s.prefixTweetComment]

/-- No string of the list is an initial segment of another one. -/
def prefixFree (l : List String) : Prop :=
  l.Pairwise (fun a b => ¬ a.data <+: b.data ∧ ¬ b.data <+: a.data)

instance (l : List String) : Decidable (prefixFree l) := by
  unfold prefixFree; infer_instance

/-- The cache after the store requests of a log have been carried out
(`ac.Set(key, data)` for each `base.OnCacheRespEvent`, in order). -/
def cacheAfter (ac : AppCache) : List Event → AppCache
  | [] => ac
  | Event.cacheSet key (some data) _ :: rest =>
    cacheAfter { Get := fun k => if k = key then some data else ac.Get k } rest
  | _ :: rest => cacheAfter ac rest

/-- The servant `s` with the cache as the store requests of `log` leave it. -/
def withStores (s : looseSrv) (log : List Event) : looseSrv :=
  { s with ac := cacheAfter s.ac log }

/-! ## A sample deployment -/

/-- A data source with one author (id 7), one comment (id 10) under every post, which
viewer 1 has upvoted, and posts that are friend-only for id 2 and public otherwise.
The user name "ghost" does not exist. -/
def sampleDao : DaoServant where
  Search := fun _ _ _ _ => Except.ok { Items := [], Total := 0 }
  RevampPosts := fun ps => Except.ok ps
  PrepareTweets := fun _ ps => Except.ok ps
  PrepareTweet := fun _ pf => Except.ok pf
  RelationTypFrom := fun me username =>
    if username = "ghost" then Except.error "get user failed with username: ghost"
    else Except.ok
      { Username := username, UserId := 7,
        RelTyp := match me with
          | none => RelationTyp.RelationGuest
          | some u =>
            if u.IsAdmin then RelationTyp.RelationAdmin else RelationTyp.RelationGuest }
  ListFollowingTweets := fun _ _ _ => Except.ok ([], 0)
  ListIndexNewestTweets := fun _ _ => Except.ok ([], 0)
  ListIndexHotsTweets := fun _ _ => Except.ok ([], 0)
  MergePosts := fun ps => Except.ok (ps.map fun p =>
    { ID := p.ID, UserID := p.UserID
      User := { ID := 0, Username := "", IsAdmin := false, IsFriend := false,
                IsFollowing := false }
      Contents := [], Visibility := p.Visibility })
  ListUserStarTweets := fun _ _ _ => Except.ok ([], 0)
  ListUserCommentTweets := fun _ _ _ => Except.ok ([], 0)
  ListUserMediaTweets := fun _ _ _ => Except.ok ([], 0)
  ListUserTweets := fun _ _ _ _ _ => Except.ok ([], 0)
  GetComments := fun tweetId _ _ _ => Except.ok ([{ ID := 10, PostID := tweetId, UserID := 7 }], 1)
  GetUsersByIDs := fun ids =>
    Except.ok (ids.map fun id => { ID := id, Username := "author", IsAdmin := false })
  GetCommentContentsByIDs := fun _ => Except.ok []
  GetCommentRepliesByID := fun _ => Except.ok []
  GetCommentThumbsMap := fun uid _ =>
    Except.ok (if uid = 1 then [(10, { IsThumbsUp := 1, IsThumbsDown := 0 })] else [], [])
  GetPostByID := fun id =>
    Except.ok { ID := id, UserID := 7
                Visibility := if id = 2 then PostVisibleT.PostVisitFriend
                              else PostVisibleT.PostVisitPublic }
  GetPostContentsByIDs := fun _ => Except.ok []
  postFormat := fun p =>
    { ID := p.ID, UserID := p.UserID
      User := { ID := 0, Username := "", IsAdmin := false, IsFriend := false,
                IsFollowing := false }
      Contents := [], Visibility := p.Visibility }
  userFormat := fun u =>
    { ID := u.ID, Username := u.Username, IsAdmin := u.IsAdmin, IsFriend := false,
      IsFollowing := false }
  postContentFormat := fun c => { ID := c.ID, PostID := c.PostID, Content := c.Content }
  commentFormat := fun c =>
    { ID := c.ID, PostID := c.PostID, UserID := c.UserID
      User := { ID := 0, Username := "", IsAdmin := false, IsFriend := false,
                IsFollowing := false }
      Contents := [], Replies := [], IsThumbsUp := 0, IsThumbsDown := 0 }
  styleToInnerValue := fun style => style
  relationString := RelationTyp.String

/-- The empty cache. -/
def emptyCache : AppCache := { Get := fun _ => none }

/-- A servant over the sample data source with an empty cache and prefixes none of
which is an initial segment of another. -/
def sampleSrv : looseSrv :=
  newLooseSrv sampleDao emptyCache 60 60 60
    "user:tweets:" "index:newest:" "index:hots:" "index:following:" "tweet:comments:"

/-- A servant whose prefixes are pairwise distinct although the newest-index prefix
is an initial segment of the hottest-index prefix. -/
def overlapSrv : looseSrv :=
  newLooseSrv sampleDao emptyCache 60 60 60
    "user:tweets:" "index:" "index:hot" "index:following:" "tweet:comments:"

/-! ## Vocabulary of the statements on the handlers -/

/-- The user styles named by the dispatch of `GetUserTweets`. -/
def userStyleSupported (style : String) : Prop :=
  style = UserPostsStylePost ∨ style = UserPostsStyleHighlight ∨ style = UserPostsStyleMedia
    ∨ style = UserPostsStyleComment ∨ style = UserPostsStyleStar

instance (style : String) : Decidable (userStyleSupported style) := by
  unfold userStyleSupported; infer_instance

/-- The sample servant once the comment request of viewer 1, the anonymous newest-feed
request and the anonymous request for the posts of "carol" have populated the cache. -/
def warmSrv : looseSrv :=
  withStores sampleSrv
    ((TweetComments sampleSrv (commentsReqOf 1)).log
      ++ (Timeline sampleSrv (indexReqOf none StyleTweetsNewest)).log
      ++ ((GetUserTweets sampleSrv (userReqOf none UserPostsStylePost)).map
            (fun r => r.log)).getD [])

/-- The identity field of an identity-scoped user-tweets key: the sentinel "_" for the
guest relation tier, the viewer's username otherwise (none without a viewer). -/
def identityField (req : GetUserTweetsReq) (user : VistUser) : Option String :=
  if user.RelTyp = RelationTyp.RelationGuest then some "_"
  else req.User.map (fun u => u.Username)

/-- The pagination arguments `(limit, offset)` of a list or search query; `none` for
the other operations. -/
def listPaging : DsCall → Option (Int × Int)
  | DsCall.Search _ offset limit => some (limit, offset)
  | DsCall.ListFollowingTweets _ limit offset => some (limit, offset)
  | DsCall.ListIndexNewestTweets limit offset => some (limit, offset)
  | DsCall.ListIndexHotsTweets limit offset => some (limit, offset)
  | DsCall.ListUserStarTweets limit offset => some (limit, offset)
  | DsCall.ListUserCommentTweets limit offset => some (limit, offset)
  | DsCall.ListUserMediaTweets limit offset => some (limit, offset)
  | DsCall.ListUserTweets _ _ _ limit offset => some (limit, offset)
  | DsCall.GetComments _ limit offset => some (limit, offset)
  | _ => none

/-- An event is not a list or search query, or it is one with the given `limit` and
`offset`. -/
def pagedEvent (limit offset : Int) : Event → Prop
  | Event.ds c => listPaging c = none ∨ listPaging c = some (limit, offset)
  | _ => True

/-- Every list or search query of the log carries the given `limit` and `offset`. -/
def pagedWith (limit offset : Int) (log : List Event) : Prop :=
  ∀ e ∈ log, pagedEvent limit offset e

/-- Every envelope assembled in `res` carries `page` and `pageSize`, and a total that
satisfies `reported`. -/
def envelopeWith (page pageSize : Int) (reported : Int → Prop) (res : Option CachePageResp) :
    Prop :=
  ∀ resp env, res = some resp → resp.Data = some env →
    env.Pager.Page = page ∧ env.Pager.PageSize = pageSize ∧ reported env.Pager.TotalRows

/-- The query selected by the switch of `getIndexTweets`, with the event that records
it; `none` for an unknown style. -/
def indexQuery (s : looseSrv) (req : TimelineReq) (limit offset : Int) :
    Option (DsCall × Except DsErr (List Post × Int)) :=
  if req.Style = StyleTweetsFollowing then
    match req.User with
    | some u =>
      some (DsCall.ListFollowingTweets u.ID limit offset, s.ListFollowingTweets u.ID limit offset)
    | none =>
      some (DsCall.ListIndexNewestTweets limit offset, s.ListIndexNewestTweets limit offset)
  else if req.Style = StyleTweetsNewest then
    some (DsCall.ListIndexNewestTweets limit offset, s.ListIndexNewestTweets limit offset)
  else if req.Style = StyleTweetsHots then
    some (DsCall.ListIndexHotsTweets limit offset, s.ListIndexHotsTweets limit offset)
  else none

/-- The query selected by `listUserTweets`, with the event that records it. -/
def listQuery (s : looseSrv) (req : GetUserTweetsReq) (user : VistUser) :
    Option (DsCall × Except DsErr (List Post × Int)) :=
  if req.Style = UserPostsStyleComment then
    some (DsCall.ListUserCommentTweets req.PageSize (pageOffset req.Page req.PageSize),
          s.ListUserCommentTweets user req.PageSize (pageOffset req.Page req.PageSize))
  else if req.Style = UserPostsStyleMedia then
    some (DsCall.ListUserMediaTweets req.PageSize (pageOffset req.Page req.PageSize),
          s.ListUserMediaTweets user req.PageSize (pageOffset req.Page req.PageSize))
  else none

/-- The part shared by the miss paths of the post-list handlers after the list query
`call` has returned `q`: merge, prepare, envelope and, for the index, the store
request. The three errors are those of a failed query, merge and prepare. -/
def assemblePosts (s : looseSrv) (page pageSize : Int) (viewer : Option User)
    (eQuery eMerge ePrepare : WebErr) (log0 : List Event) (call : DsCall)
    (q : Except DsErr (List Post × Int)) (store : Option (String × Int)) :
    Reply CachePageResp :=
  match q with
  | Except.error _ => { res := none, err := some eQuery, log := log0 ++ [Event.ds call] }
  | Except.ok (posts, total) =>
    let log1 := log0 ++ [Event.ds call, Event.ds DsCall.MergePosts]
    match s.MergePosts posts with
    | Except.error _ => { res := none, err := some eMerge, log := log1 }
    | Except.ok postsFormated =>
      let log2 := log1 ++ [Event.ds (DsCall.PrepareTweets (viewerId viewer))]
      match s.PrepareTweets (viewerId viewer) postsFormated with
      | Except.error _ => { res := none, err := some ePrepare, log := log2 }
      | Except.ok postsFormated =>
        let resp := PageRespFrom (PageItems.tweets postsFormated) page pageSize total
        { res := some { Data := some resp, JsonResp := none }
          err := none
          log := match store with
            | some (key, expire) => log2 ++ [Event.cacheSet key (some resp) expire]
            | none => log2 }

/-- The query variant specified for `getUserPostTweets`: admin, self, friend and
following map to the variant of the same name, guest and any other relation value
to the guest variant. -/
def variantOf : RelationTyp → StyleUserTweets
  | RelationTyp.RelationAdmin => StyleUserTweets.StyleUserTweetsAdmin
  | RelationTyp.RelationSelf => StyleUserTweets.StyleUserTweetsSelf
  | RelationTyp.RelationFriend => StyleUserTweets.StyleUserTweetsFriend
  | RelationTyp.RelationFollowing => StyleUserTweets.StyleUserTweetsFollowing
  | RelationTyp.RelationGuest => StyleUserTweets.StyleUserTweetsGuest
  | RelationTyp.RelationOther _ => StyleUserTweets.StyleUserTweetsGuest

/-- The posts that `getUserStarTweets` extracts from the star rows: those of the rows
that carry a post, in order. -/
def starPosts (stars : List PostStar) : List Post :=
  stars.foldl
    (fun posts star =>
      match star.Post with
      | some p => posts ++ [p]
      | none => posts) []

/-- The reaction maps of the miss path of `TweetComments`: fetched for an authenticated
viewer (`Uid > 0`), both empty otherwise. -/
def reactionMaps (s : looseSrv) (req : TweetCommentsReq) :
    Except DsErr (CommentThumbsMap × CommentThumbsMap) :=
  if 0 < req.Uid then s.GetCommentThumbsMap req.Uid req.TweetId else Except.ok ([], [])

/-- A user-posts request of the sample deployment whose page number makes
`(page-1)*pageSize` equal to `2^64`. -/
def hugePageReq : GetUserTweetsReq :=
  { User := none, Username := "carol", Style := UserPostsStylePost,
    Page := 4611686018427387905, PageSize := 4 }

/-- The sample servant over a data source whose star query returns one star row
without a post, out of one row in total. -/
def orphanStarSrv : looseSrv :=
  { sampleSrv with
    ListUserStarTweets := fun _ _ _ => Except.ok ([{ ID := 1, Post := none }], 1) }

/-- The reply with the viewer's reaction from the reply-reaction map spliced in, when
the map has an entry for its id; the reply itself otherwise. -/
def spliceReply (replyThumbs : CommentThumbsMap) (reply : CommentReplyFormated) :
    CommentReplyFormated :=
  match replyThumbs.lookup reply.ID with
  | some thumbs =>
    { reply with IsThumbsUp := thumbs.IsThumbsUp, IsThumbsDown := thumbs.IsThumbsDown }
  | none => reply

/-- The fetched replies whose owning comment id is `id`, in fetch order. -/
def repliesOf (id : Int) (replies : List CommentReplyFormated) : List CommentReplyFormated :=
  replies.filter (fun reply => decide (reply.CommentID = id))

/-- The sample servant over a thread in which comment 10 has the replies 101 and 102,
and viewer 1 has downvoted the comment and upvoted reply 101. -/
def threadSrv : looseSrv :=
  { sampleSrv with
    GetCommentRepliesByID := fun _ =>
      Except.ok
        [{ ID := 101, CommentID := 10, UserID := 8, IsThumbsUp := 0, IsThumbsDown := 0 },
         { ID := 102, CommentID := 10, UserID := 9, IsThumbsUp := 0, IsThumbsDown := 0 }]
    GetCommentThumbsMap := fun uid _ =>
      Except.ok
        (if uid = 1 then
          ([(10, { IsThumbsUp := 0, IsThumbsDown := 1 })],
           [(101, { IsThumbsUp := 1, IsThumbsDown := 0 })])
        else ([], [])) }

/-- The sample servant over a data source whose comment query fails. -/
def failingSrv : looseSrv :=
  { sampleSrv with GetComments := fun _ _ _ _ => Except.error "connection refused" }

/-- The data-source calls of a log, in order. -/
def dsCalls (log : List Event) : List DsCall :=
  log.filterMap (fun e =>
    match e with
    | Event.ds c => some c
    | _ => none)

/-- The log holds no cache store request. -/
def noStore (log : List Event) : Prop :=
  ∀ k d x, Event.cacheSet k d x ∉ log

/-- The handler selected by the switch of `GetUserTweets` on the request's style, applied
to the request. -/
def userTweetsDispatch (s : looseSrv) (req : GetUserTweetsReq) (user : VistUser) :
    Reply GetUserTweetsResp :=
  if req.Style = UserPostsStyleComment ∨ req.Style = UserPostsStyleMedia then
    listUserTweets s req user
  else if req.Style = UserPostsStyleHighlight then
    getUserPostTweets s req user true
  else if req.Style = UserPostsStyleStar then
    getUserStarTweets s req user
  else
    getUserPostTweets s req user false

/-- The sample servant over a thread in which comment 10 carries the content fragments
1 and 3, fetched around fragment 2 of another comment. -/
def contentSrv : looseSrv :=
  { sampleSrv with
    GetCommentContentsByIDs := fun _ =>
      Except.ok
        [{ ID := 1, CommentID := 10, Content := "first" },
         { ID := 2, CommentID := 11, Content := "other" },
         { ID := 3, CommentID := 10, Content := "second" }] }

/-- The response `res` is an envelope built on the miss path (`Data` set, no stored
payload) whose pager carries `page`, `pageSize` and `total`. -/
def envelopeBuilt (page pageSize total : Int) (res : Option CachePageResp) : Prop :=
  ∃ env, res = some { Data := some env, JsonResp := none }
    ∧ env.Pager = { Page := page, PageSize := pageSize, TotalRows := total }

/-- The sample servant over a data source with 45 rows in every list: the user-posts
query, the comment query and the search each return the one row whose id is the
offset they were handed plus one. -/
def pagingSrv : looseSrv :=
  { sampleSrv with
    ListUserTweets := fun _ _ _ _ offset =>
      Except.ok ([{ ID := offset + 1, UserID := 7, Visibility := PostVisibleT.PostVisitPublic }],
        45)
    GetComments := fun tweetId _ _ offset =>
      Except.ok ([{ ID := offset + 1, PostID := tweetId, UserID := 7 }], 45)
    Search := fun _ _ offset _ =>
      Except.ok
        { Items := [{ ID := offset + 1, UserID := 7
                      User := { ID := 7, Username := "carol", IsAdmin := false,
                                IsFriend := false, IsFollowing := false }
                      Contents := [], Visibility := PostVisibleT.PostVisitPublic }]
          Total := 45 } }

/-- The request of the anonymous viewer for page 3 of the posts of "carol", twenty per
page. -/
def thirdPageReq : GetUserTweetsReq :=
  { User := none, Username := "carol", Style := UserPostsStylePost, Page := 3, PageSize := 20 }

/-- The request of viewer 1 for page 3 of the comments of post 5, twenty per page. -/
def thirdCommentsReq : TweetCommentsReq :=
  { Uid := 1, TweetId := 5, Style := "default", Page := 3, PageSize := 20 }

/-- The anonymous search for "lean" among the tweets, page 3, twenty per page. -/
def thirdSearchReq : TimelineReq :=
  { User := none, Query := "lean", Type_ := "search", Style := StyleTweetsNewest,
    Page := 3, PageSize := 20 }

/-- Two star rows, each carrying its post. -/
def starRows : List PostStar :=
  [{ ID := 4, Post := some { ID := 40, UserID := 7,
                             Visibility := PostVisibleT.PostVisitPublic } },
   { ID := 5, Post := some { ID := 41, UserID := 7,
                             Visibility := PostVisibleT.PostVisitPublic } }]

/-- Three star rows, the second of which carries no post. -/
def mixedStarRows : List PostStar :=
  [{ ID := 4, Post := some { ID := 40, UserID := 7,
                             Visibility := PostVisibleT.PostVisitPublic } },
   { ID := 6, Post := none },
   { ID := 5, Post := some { ID := 41, UserID := 7,
                             Visibility := PostVisibleT.PostVisitPublic } }]

/-- The sample servant over a data source with five star rows, whose star query returns
the two rows `starRows` (the second page of three). -/
def starSrv : looseSrv :=
  { sampleSrv with ListUserStarTweets := fun _ _ _ => Except.ok (starRows, 5) }

/-- The sample servant over a data source whose star query returns the three rows
`mixedStarRows`. -/
def mixedStarSrv : looseSrv :=
  { sampleSrv with ListUserStarTweets := fun _ _ _ => Except.ok (mixedStarRows, 3) }

/-- The request of the anonymous viewer for page 2 of the starred tweets of "carol", three
per page. -/
def starPageReq : GetUserTweetsReq :=
  { User := none, Username := "carol", Style := UserPostsStyleStar, Page := 2, PageSize := 3 }

/-! ## Lemmas on the rendering of integers -/

theorem digitChar_toNat (d : Nat) (h : d < 10) : (Nat.digitChar d).toNat = 48 + d := by
  interval_cases d <;> rfl

theorem digitChar_ne_colon (d : Nat) (h : d < 10) : Nat.digitChar d ≠ ':' := by
  interval_cases d <;> decide

theorem digitChar_ne_minus (d : Nat) (h : d < 10) : Nat.digitChar d ≠ '-' := by
  interval_cases d <;> decide

theorem decValueRev_decDigitsRev (fuel n : Nat) (h : n < fuel) :
    decValueRev (decDigitsRev fuel n) = n := by
  induction fuel generalizing n with
  | zero => omega
  | succ f ih =>
    simp only [decDigitsRev, decValueRev]
    rw [digitChar_toNat _ (Nat.mod_lt _ (by decide))]
    by_cases h0 : n / 10 = 0
    · simp only [h0, if_true, decValueRev]
      omega
    · simp only [h0, if_false]
      rw [ih (n / 10) (by omega)]
      omega

theorem mem_decDigitsRev (fuel n : Nat) (c : Char) (hc : c ∈ decDigitsRev fuel n) :
    c ≠ ':' ∧ c ≠ '-' := by
  induction fuel generalizing n with
  | zero => simp [decDigitsRev] at hc
  | succ f ih =>
    simp only [decDigitsRev, List.mem_cons] at hc
    rcases hc with rfl | hc
    · exact ⟨digitChar_ne_colon _ (Nat.mod_lt _ (by decide)),
        digitChar_ne_minus _ (Nat.mod_lt _ (by decide))⟩
    · by_cases h0 : n / 10 = 0
      · simp [h0] at hc
      · simp only [h0, if_false] at hc
        exact ih _ hc

theorem formatNat_injective : Function.Injective formatNat := by
  intro a b h
  have h1 : decDigitsRev (a + 1) a = decDigitsRev (b + 1) b := by
    have := congrArg List.reverse h
    simpa [formatNat] using this
  have h2 := congrArg decValueRev h1
  rwa [decValueRev_decDigitsRev _ _ (Nat.lt_succ_self a),
    decValueRev_decDigitsRev _ _ (Nat.lt_succ_self b)] at h2

theorem mem_formatNat (n : Nat) (c : Char) (hc : c ∈ formatNat n) : c ≠ ':' ∧ c ≠ '-' := by
  unfold formatNat at hc
  exact mem_decDigitsRev _ _ c (List.mem_reverse.mp hc)

theorem formatInt_injective : Function.Injective formatInt := by
  intro a b h
  cases a with
  | ofNat m =>
    cases b with
    | ofNat n =>
      simp only [formatInt] at h
      exact congrArg Int.ofNat (formatNat_injective h)
    | negSucc n =>
      simp only [formatInt] at h
      have hm : '-' ∈ formatNat m := by rw [h]; exact List.mem_cons_self _ _
      exact absurd rfl (mem_formatNat _ _ hm).2
  | negSucc m =>
    cases b with
    | ofNat n =>
      simp only [formatInt] at h
      have hm : '-' ∈ formatNat n := by rw [← h]; exact List.mem_cons_self _ _
      exact absurd rfl (mem_formatNat _ _ hm).2
    | negSucc n =>
      simp only [formatInt, List.cons.injEq, true_and] at h
      have := formatNat_injective h
      have h3 : m = n := by omega
      rw [h3]

theorem colon_not_mem_formatInt (x : Int) : ':' ∉ formatInt x := by
  intro h
  cases x with
  | ofNat m => exact (mem_formatNat _ _ h).1 rfl
  | negSucc m =>
    simp only [formatInt, List.mem_cons] at h
    rcases h with h | h
    · exact absurd h (by decide)
    · exact (mem_formatNat _ _ h).1 rfl

/-! ## Lemmas on separated fields -/

/-- Two lists that agree and are cut at the first occurrence of `c` have equal parts. -/
theorem split_first {c : Char} :
    ∀ (xs xs' ys ys' : List Char), c ∉ xs → c ∉ xs' →
      xs ++ c :: ys = xs' ++ c :: ys' → xs = xs' ∧ ys = ys'
  | [], [], _, _, _, _, h => by simpa using h
  | [], x :: xs', _, _, _, h', h => by
    simp only [List.nil_append, List.cons_append, List.cons.injEq] at h
    exact absurd (h.1 ▸ List.mem_cons_self _ _) h'
  | x :: xs, [], _, _, h', _, h => by
    simp only [List.nil_append, List.cons_append, List.cons.injEq] at h
    exact absurd (h.1 ▸ List.mem_cons_self _ _) h'
  | x :: xs, x' :: xs', ys, ys', hx, hx', h => by
    simp only [List.cons_append, List.cons.injEq] at h
    obtain ⟨h1, h2⟩ := split_first xs xs' ys ys'
      (fun hm => hx (List.mem_cons_of_mem _ hm)) (fun hm => hx' (List.mem_cons_of_mem _ hm)) h.2
    exact ⟨by rw [h.1, h1], h2⟩

/-- Two lists that agree and are cut at the last occurrence of `c` have equal parts. -/
theorem split_last {c : Char} (xs xs' ys ys' : List Char) (hy : c ∉ ys) (hy' : c ∉ ys')
    (h : xs ++ c :: ys = xs' ++ c :: ys') : xs = xs' ∧ ys = ys' := by
  have hr := congrArg List.reverse h
  simp only [List.reverse_append, List.reverse_cons, List.append_assoc, List.singleton_append]
    at hr
  obtain ⟨h1, h2⟩ := split_first ys.reverse ys'.reverse xs.reverse xs'.reverse
    (by simpa using hy) (by simpa using hy') hr
  exact ⟨List.reverse_injective h2, List.reverse_injective h1⟩

/-! ## Tweet detail: the visibility decision -/

/-- C1. For a viewer who is neither the author nor an admin (anonymous, or authenticated
with another id and no admin flag), when every fetch of `TweetDetail` succeeds the
outcome follows the visibility table: with the relation column read off the author
view's flags (friend, following or guest), the post is returned when the table marks
the tier visible for that column, and the request is rejected with `ErrNoPermission`
otherwise. -/
theorem TweetDetail_matches_table (s : looseSrv) (req : TweetDetailReq) (post : Post)
    (postContents : List PostContent) (users : List User) (pf : PostFormated)
    (rel : TableRelation)
    (hpost : s.GetPostByID req.TweetId = Except.ok post)
    (hcont : s.GetPostContentsByIDs [post.ID] = Except.ok postContents)
    (husers : s.GetUsersByIDs [post.UserID] = Except.ok users)
    (hprep : s.PrepareTweet req.User (detailMerge s post users postContents) = Except.ok pf)
    (hviewer : ∀ u, req.User = some u → u.ID ≠ pf.User.ID ∧ u.IsAdmin = false)
    (hrel : tableRelation pf.User.IsFriend pf.User.IsFollowing = some rel) :
    ((TweetDetail s req).res, (TweetDetail s req).err) =
      if tableVisible post.Visibility rel = true then (some pf, none)
      else (none, some WebErr.ErrNoPermission) := by
  have hself : (match req.User with
      | some u => decide (u.ID = pf.User.ID) || u.IsAdmin
      | none => false) = false := by
    cases hu : req.User with
    | none => rfl
    | some u =>
      obtain ⟨h1, h2⟩ := hviewer u hu
      simp [h1, h2]
  simp only [TweetDetail, hpost, hcont, husers, hprep, hself]
  rcases hf : pf.User.IsFriend with _ | _ <;> rcases hg : pf.User.IsFollowing with _ | _ <;>
    simp only [hf, hg, tableRelation, Option.some.injEq] at hrel <;>
    first
    | exact absurd hrel (by simp)
    | (subst hrel
       cases hv : post.Visibility <;> simp [tableVisible])

/-- Witness of C1: an anonymous viewer (relation guest) asking for the friend-only post 2
of the sample deployment is rejected with `ErrNoPermission`. -/
theorem TweetDetail_matches_table_witness :
    ((TweetDetail sampleSrv { User := none, TweetId := 2 }).res,
      (TweetDetail sampleSrv { User := none, TweetId := 2 }).err) =
      (none, some WebErr.ErrNoPermission) :=
  TweetDetail_matches_table sampleSrv { User := none, TweetId := 2 }
    { ID := 2, UserID := 7, Visibility := PostVisibleT.PostVisitFriend } []
    [{ ID := 7, Username := "author", IsAdmin := false }]
    { ID := 2, UserID := 7
      User := { ID := 7, Username := "author", IsAdmin := false, IsFriend := false,
                IsFollowing := false }
      Contents := [], Visibility := PostVisibleT.PostVisitFriend }
    TableRelation.guest rfl rfl rfl rfl (by simp) rfl

/-- C2. When every fetch of `TweetDetail` succeeds and the viewer is authenticated and is
the author (the viewer id equals the id of the post's author view) or an admin, the
post is returned with a nil error, whatever the visibility value and the
`IsFriend`/`IsFollowing` flags of the author view are. -/
theorem TweetDetail_author_or_admin (s : looseSrv) (req : TweetDetailReq) (post : Post)
    (postContents : List PostContent) (users : List User) (pf : PostFormated) (u : User)
    (hpost : s.GetPostByID req.TweetId = Except.ok post)
    (hcont : s.GetPostContentsByIDs [post.ID] = Except.ok postContents)
    (husers : s.GetUsersByIDs [post.UserID] = Except.ok users)
    (hprep : s.PrepareTweet req.User (detailMerge s post users postContents) = Except.ok pf)
    (hu : req.User = some u)
    (hself : u.ID = pf.User.ID ∨ u.IsAdmin = true) :
    (TweetDetail s req).res = some pf ∧ (TweetDetail s req).err = none := by
  have hgate : (match req.User with
      | some u => decide (u.ID = pf.User.ID) || u.IsAdmin
      | none => false) = true := by
    rw [hu]
    rcases hself with h | h <;> simp [h]
  simp only [TweetDetail, hpost, hcont, husers, hprep, hgate, if_true, and_self]

/-- Witness of C2: the author (id 7) of the friend-only post 2 of the sample deployment,
whose author view carries neither relationship flag, receives the post. -/
theorem TweetDetail_author_or_admin_witness :
    (TweetDetail sampleSrv
        { User := some { ID := 7, Username := "author", IsAdmin := false }, TweetId := 2 }).res
      = some { ID := 2, UserID := 7
               User := { ID := 7, Username := "author", IsAdmin := false, IsFriend := false,
                         IsFollowing := false }
               Contents := [], Visibility := PostVisibleT.PostVisitFriend }
    ∧ (TweetDetail sampleSrv
        { User := some { ID := 7, Username := "author", IsAdmin := false }, TweetId := 2 }).err
      = none :=
  TweetDetail_author_or_admin sampleSrv
    { User := some { ID := 7, Username := "author", IsAdmin := false }, TweetId := 2 }
    { ID := 2, UserID := 7, Visibility := PostVisibleT.PostVisitFriend } []
    [{ ID := 7, Username := "author", IsAdmin := false }]
    { ID := 2, UserID := 7
      User := { ID := 7, Username := "author", IsAdmin := false, IsFriend := false,
                IsFollowing := false }
      Contents := [], Visibility := PostVisibleT.PostVisitFriend }
    { ID := 7, Username := "author", IsAdmin := false } rfl rfl rfl rfl rfl (Or.inl rfl)

/-! ## Comment threads: the cache key and the viewer -/

/-- C3 (the code departs from the claim). In the sample deployment the comment requests of
viewer 1 and viewer 2 for the same page derive the same cache key, yet their miss
paths assemble different envelopes (viewer 1 has upvoted comment 10); once the miss
of viewer 1 has populated the cache, the request of viewer 2 is a hit that returns
the envelope of viewer 1, which differs from the one its own miss produces. -/
theorem TweetComments_key_shared_across_viewers :
    commentsKey sampleSrv (commentsReqOf 1) 20 0 = commentsKey sampleSrv (commentsReqOf 2) 20 0
    ∧ (TweetComments sampleSrv (commentsReqOf 1)).res.bind (fun r => r.Data)
        ≠ (TweetComments sampleSrv (commentsReqOf 2)).res.bind (fun r => r.Data)
    ∧ (TweetComments (withStores sampleSrv (TweetComments sampleSrv (commentsReqOf 1)).log)
          (commentsReqOf 2)).res.bind (fun r => r.JsonResp)
        = (TweetComments sampleSrv (commentsReqOf 1)).res.bind (fun r => r.Data)
    ∧ (TweetComments (withStores sampleSrv (TweetComments sampleSrv (commentsReqOf 1)).log)
          (commentsReqOf 2)).res.bind (fun r => r.JsonResp)
        ≠ (TweetComments sampleSrv (commentsReqOf 2)).res.bind (fun r => r.Data) := by
  decide

/-! ## User tweets: failure of the relation lookup -/

/-- C4 (the code departs from the claim). Whenever the visitor-relation lookup fails,
`GetUserTweets` returns a nil response together with a nil error, after that single
call. -/
theorem GetUserTweets_relation_failure (s : looseSrv) (req : GetUserTweetsReq) (e : DsErr)
    (h : s.RelationTypFrom req.User req.Username = Except.error e) :
    GetUserTweets s req
      = some { res := none, err := none, log := [Event.ds DsCall.RelationTypFrom] } := by
  simp only [GetUserTweets, h]

/-- Witness of C4: the request for the tweets of the unknown user "ghost". -/
theorem GetUserTweets_relation_failure_witness :
    GetUserTweets sampleSrv
        { User := none, Username := "ghost", Style := "post", Page := 1, PageSize := 20 }
      = some { res := none, err := none, log := [Event.ds DsCall.RelationTypFrom] } :=
  GetUserTweets_relation_failure sampleSrv
    { User := none, Username := "ghost", Style := "post", Page := 1, PageSize := 20 }
    "get user failed with username: ghost" rfl

/-! ## The shape of the keys -/

theorem sprintf_index (p u : String) (o l : Int) :
    Sprintf "%s%s:%d:%d" [FmtArg.s p, FmtArg.s u, FmtArg.d o, FmtArg.d l]
      = String.mk (p.data ++ (u.data ++ ':' :: (formatInt o ++ ':' :: formatInt l))) := by
  simp [Sprintf, sprintfAux]

theorem sprintf_comments (p : String) (id : Int) (st : String) (l o : Int) :
    Sprintf "%s%d:%s:%d:%d"
        [FmtArg.s p, FmtArg.d id, FmtArg.s st, FmtArg.d l, FmtArg.d o]
      = String.mk (p.data ++ (formatInt id ++ ':' :: (st.data ++ ':' ::
          (formatInt l ++ ':' :: formatInt o)))) := by
  simp [Sprintf, sprintfAux]

theorem sprintf_user (p : String) (id : Int) (st who : String) (page size : Int) :
    Sprintf "%s%d:%s:%s:%d:%d"
        [FmtArg.s p, FmtArg.d id, FmtArg.s st, FmtArg.s who, FmtArg.d page, FmtArg.d size]
      = String.mk (p.data ++ (formatInt id ++ ':' :: (st.data ++ ':' :: (who.data ++ ':' ::
          (formatInt page ++ ':' :: formatInt size))))) := by
  simp [Sprintf, sprintfAux]

theorem indexKey_eq (s : looseSrv) (req : TimelineReq) (limit offset : Int)
    (h : indexStyleSupported req.Style) :
    indexKey s req limit offset
      = String.mk ((indexPrefix s req.Style).data ++ ((viewerToken req.User).data ++ ':' ::
          (formatInt offset ++ ':' :: formatInt limit))) := by
  have htok : (match req.User with
      | some u => u.Username
      | none => "_") = viewerToken req.User := by
    cases req.User <;> rfl
  unfold indexKey indexTweetsFromCache
  simp only [htok, sprintf_index]
  rcases h with h | h | h
  · have h1 : ¬ (StyleTweetsNewest = StyleTweetsFollowing) := by decide
    simp only [h, h1, if_false, if_true, indexPrefix]
    cases s.ac.Get _ <;> rfl
  · have h1 : ¬ (StyleTweetsHots = StyleTweetsFollowing) := by decide
    have h2 : ¬ (StyleTweetsHots = StyleTweetsNewest) := by decide
    simp only [h, h1, h2, if_false, if_true, indexPrefix]
    cases s.ac.Get _ <;> rfl
  · simp only [h, if_true, indexPrefix]
    cases s.ac.Get _ <;> rfl

theorem commentsKey_eq (s : looseSrv) (req : TweetCommentsReq) (limit offset : Int) :
    commentsKey s req limit offset
      = String.mk (s.prefixTweetComment.data ++ (formatInt req.TweetId ++ ':' ::
          (req.Style.data ++ ':' :: (formatInt limit ++ ':' :: formatInt offset)))) := by
  unfold commentsKey tweetCommentsFromCache
  simp only [sprintf_comments]
  cases s.ac.Get _ <;> rfl

theorem indexKey_text (s : looseSrv) (req : TimelineReq) (limit offset : Int)
    (h : indexStyleSupported req.Style) :
    indexKey s req limit offset
      = indexPrefix s req.Style ++ viewerToken req.User ++ ":" ++ decimal offset ++ ":"
          ++ decimal limit := by
  rw [indexKey_eq s req limit offset h]
  apply String.ext
  simp [decimal, String.data_append]

theorem getIndexTweets_first_event (s : looseSrv) (req : TimelineReq) (limit offset : Int)
    (h : indexStyleSupported req.Style) :
    (getIndexTweets s req limit offset).log.head?
      = some (Event.cacheGet (indexKey s req limit offset)) := by
  have hk : ∃ k, (if req.Style = StyleTweetsFollowing then
        some (Sprintf "%s%s:%d:%d"
          [FmtArg.s s.prefixIdxTweetsFollowing,
           FmtArg.s (match req.User with
            | some u => u.Username
            | none => "_"), FmtArg.d offset, FmtArg.d limit])
      else if req.Style = StyleTweetsNewest then
        some (Sprintf "%s%s:%d:%d"
          [FmtArg.s s.prefixIdxTweetsNewest,
           FmtArg.s (match req.User with
            | some u => u.Username
            | none => "_"), FmtArg.d offset, FmtArg.d limit])
      else if req.Style = StyleTweetsHots then
        some (Sprintf "%s%s:%d:%d"
          [FmtArg.s s.prefixIdxTweetsHots,
           FmtArg.s (match req.User with
            | some u => u.Username
            | none => "_"), FmtArg.d offset, FmtArg.d limit])
      else none) = some k := by
    rcases h with h | h | h
    · exact ⟨_, by rw [h]; rfl⟩
    · exact ⟨_, by rw [h]; rfl⟩
    · exact ⟨_, by rw [h]; rfl⟩
  obtain ⟨k, hk⟩ := hk
  have hq : ∃ call r, (if req.Style = StyleTweetsFollowing then
        match req.User with
        | some u =>
          some (DsCall.ListFollowingTweets u.ID limit offset,
                s.ListFollowingTweets u.ID limit offset)
        | none =>
          some (DsCall.ListIndexNewestTweets limit offset, s.ListIndexNewestTweets limit offset)
      else if req.Style = StyleTweetsNewest then
        some (DsCall.ListIndexNewestTweets limit offset, s.ListIndexNewestTweets limit offset)
      else if req.Style = StyleTweetsHots then
        some (DsCall.ListIndexHotsTweets limit offset, s.ListIndexHotsTweets limit offset)
      else none) = some (call, r) := by
    rcases h with h | h | h
    · exact ⟨_, _, by rw [h]; rfl⟩
    · exact ⟨_, _, by rw [h]; rfl⟩
    · rw [h]
      cases req.User with
      | none => exact ⟨_, _, rfl⟩
      | some u => exact ⟨_, _, rfl⟩
  obtain ⟨call, r, hq⟩ := hq
  unfold indexKey getIndexTweets indexTweetsFromCache
  simp only [hk, hq]
  cases s.ac.Get k with
  | some data => rfl
  | none =>
    simp only
    rcases r with e | ⟨posts, total⟩
    · rfl
    · simp only
      cases s.MergePosts posts with
      | error e => rfl
      | ok pfs =>
        simp only
        cases s.PrepareTweets (viewerId req.User) pfs <;> rfl

/-- C10. For a supported index style the key built by `indexTweetsFromCache` is
`prefix(style) + token + ":" + offset + ":" + limit`, the numbers in decimal and the
token being "_" without a viewer and the viewer's username otherwise; the anonymous
request for page 1 of the newest feed with page size 20 reads the cache, before
anything else, at the key `prefixNewest + "_:0:20"`. -/
theorem indexKey_formula (s : looseSrv) (req : TimelineReq) (limit offset : Int)
    (h : indexStyleSupported req.Style) :
    indexKey s req limit offset
        = indexPrefix s req.Style ++ viewerToken req.User ++ ":" ++ decimal offset ++ ":"
            ++ decimal limit
    ∧ viewerToken none = "_"
    ∧ (∀ u : User, viewerToken (some u) = u.Username)
    ∧ indexPrefix s StyleTweetsNewest = s.prefixIdxTweetsNewest
    ∧ indexPrefix s StyleTweetsHots = s.prefixIdxTweetsHots
    ∧ indexPrefix s StyleTweetsFollowing = s.prefixIdxTweetsFollowing
    ∧ (Timeline s { User := none, Query := "", Type_ := "search", Style := StyleTweetsNewest,
                    Page := 1, PageSize := 20 }).log.head?
        = some (Event.cacheGet (s.prefixIdxTweetsNewest ++ "_:0:20")) := by
  refine ⟨indexKey_text s req limit offset h, rfl, fun _ => rfl, ?_, ?_, ?_, ?_⟩
  · simp [indexPrefix, StyleTweetsNewest, StyleTweetsFollowing]
  · simp [indexPrefix, StyleTweetsHots, StyleTweetsNewest, StyleTweetsFollowing]
  · simp [indexPrefix]
  · have hoff : pageOffset 1 20 = 0 := by decide
    have hsup : indexStyleSupported StyleTweetsNewest := Or.inl rfl
    simp only [Timeline, hoff, and_self, if_true]
    rw [getIndexTweets_first_event s _ 20 0 hsup, indexKey_text s _ 20 0 hsup]
    have h1 : indexPrefix s StyleTweetsNewest = s.prefixIdxTweetsNewest := by
      simp [indexPrefix, StyleTweetsNewest, StyleTweetsFollowing]
    simp only [h1, viewerToken]
    congr 2
    apply String.ext
    simp [decimal, String.data_append]
    decide

/-- Witness of C10: the hottest feed of the sample deployment for viewer "alice",
limit 20 and offset 40. -/
theorem indexKey_formula_witness :
    indexKey sampleSrv
        { User := some { ID := 3, Username := "alice", IsAdmin := false }, Query := "",
          Type_ := "search", Style := StyleTweetsHots, Page := 3, PageSize := 20 } 20 40
      = "index:hots:alice:40:20" :=
  (indexKey_formula sampleSrv
    { User := some { ID := 3, Username := "alice", IsAdmin := false }, Query := "",
      Type_ := "search", Style := StyleTweetsHots, Page := 3, PageSize := 20 } 20 40
    (Or.inr (Or.inl rfl))).1.trans (by decide)

/-! ## Index keys: determinism and separation of the inputs -/

theorem index_fields_injective (t1 t2 : List Char) (o1 l1 o2 l2 : Int)
    (h : t1 ++ ':' :: (formatInt o1 ++ ':' :: formatInt l1)
        = t2 ++ ':' :: (formatInt o2 ++ ':' :: formatInt l2)) :
    t1 = t2 ∧ o1 = o2 ∧ l1 = l2 := by
  have h' : (t1 ++ ':' :: formatInt o1) ++ ':' :: formatInt l1
      = (t2 ++ ':' :: formatInt o2) ++ ':' :: formatInt l2 := by
    simpa [List.append_assoc] using h
  obtain ⟨ha, hl⟩ := split_last _ _ _ _ (colon_not_mem_formatInt l1)
    (colon_not_mem_formatInt l2) h'
  obtain ⟨ht, ho⟩ := split_last _ _ _ _ (colon_not_mem_formatInt o1)
    (colon_not_mem_formatInt o2) ha
  exact ⟨ht, formatInt_injective ho, formatInt_injective hl⟩

theorem viewerToken_eq_iff (u1 u2 : Option User)
    (h1 : ∀ u, u1 = some u → u.Username ≠ "_") (h2 : ∀ u, u2 = some u → u.Username ≠ "_") :
    viewerToken u1 = viewerToken u2
      ↔ u1.map (fun u => u.Username) = u2.map (fun u => u.Username) := by
  cases u1 with
  | none =>
    cases u2 with
    | none => simp
    | some b =>
      simp only [viewerToken, Option.map_none', Option.map_some', reduceCtorEq, iff_false]
      exact fun h => h2 b rfl h.symm
  | some a =>
    cases u2 with
    | none =>
      simp only [viewerToken, Option.map_none', Option.map_some', reduceCtorEq, iff_false]
      exact fun h => h1 a rfl h
    | some b => simp [viewerToken]

/-- C5 as stated fails: in the sample deployment the anonymous request and the request of
an authenticated viewer whose username is the text "_" differ in viewer identity
and derive the same newest-feed key. -/
theorem indexKey_sentinel_collision :
    indexStyleSupported StyleTweetsNewest
    ∧ (none : Option User) ≠ some { ID := 3, Username := "_", IsAdmin := false }
    ∧ indexKey sampleSrv
          { User := none, Query := "", Type_ := "search", Style := StyleTweetsNewest,
            Page := 1, PageSize := 20 } 20 0
        = indexKey sampleSrv
          { User := some { ID := 3, Username := "_", IsAdmin := false }, Query := "",
            Type_ := "search", Style := StyleTweetsNewest, Page := 1, PageSize := 20 } 20 0 := by
  decide

/-- C5, amended. For a fixed supported index style, and provided no authenticated viewer
bears the username "_", two requests derive the same key exactly when they agree
in viewer identity (both anonymous, or both authenticated with the same username),
in offset and in limit: a difference in any of the three gives different keys, and
equal inputs give the same key. -/
theorem indexKey_eq_iff (s : looseSrv) (r1 r2 : TimelineReq) (l1 o1 l2 o2 : Int)
    (hstyle : r1.Style = r2.Style) (hsup : indexStyleSupported r1.Style)
    (h1 : ∀ u, r1.User = some u → u.Username ≠ "_")
    (h2 : ∀ u, r2.User = some u → u.Username ≠ "_") :
    indexKey s r1 l1 o1 = indexKey s r2 l2 o2
      ↔ (r1.User.map (fun u => u.Username) = r2.User.map (fun u => u.Username)
          ∧ o1 = o2 ∧ l1 = l2) := by
  rw [indexKey_eq s r1 l1 o1 hsup, indexKey_eq s r2 l2 o2 (hstyle ▸ hsup), ← hstyle,
    ← viewerToken_eq_iff r1.User r2.User h1 h2]
  constructor
  · intro h
    have hd := List.append_cancel_left (congrArg String.data h)
    obtain ⟨ht, ho, hl⟩ := index_fields_injective _ _ _ _ _ _ hd
    exact ⟨String.ext ht, ho, hl⟩
  · rintro ⟨ht, ho, hl⟩
    rw [ht, ho, hl]

/-- Witness of C5, amended: the viewers "alice" and "bob" asking the sample deployment for
the same page of the following feed get different keys. -/
theorem indexKey_eq_iff_witness :
    indexKey sampleSrv
        { User := some { ID := 3, Username := "alice", IsAdmin := false }, Query := "",
          Type_ := "search", Style := StyleTweetsFollowing, Page := 1, PageSize := 20 } 20 0
      ≠ indexKey sampleSrv
        { User := some { ID := 4, Username := "bob", IsAdmin := false }, Query := "",
          Type_ := "search", Style := StyleTweetsFollowing, Page := 1, PageSize := 20 } 20 0 :=
  fun h =>
    absurd ((indexKey_eq_iff sampleSrv
      { User := some { ID := 3, Username := "alice", IsAdmin := false }, Query := "",
        Type_ := "search", Style := StyleTweetsFollowing, Page := 1, PageSize := 20 }
      { User := some { ID := 4, Username := "bob", IsAdmin := false }, Query := "",
        Type_ := "search", Style := StyleTweetsFollowing, Page := 1, PageSize := 20 }
      20 0 20 0 rfl (Or.inr (Or.inr rfl))
      (fun u hu => by cases hu; decide) (fun u hu => by cases hu; decide)).mp h).1
      (by decide)

/-! ## Thread-comment keys -/

theorem comment_fields_injective (s1 s2 : List Char) (i1 l1 o1 i2 l2 o2 : Int)
    (h : formatInt i1 ++ ':' :: (s1 ++ ':' :: (formatInt l1 ++ ':' :: formatInt o1))
        = formatInt i2 ++ ':' :: (s2 ++ ':' :: (formatInt l2 ++ ':' :: formatInt o2))) :
    i1 = i2 ∧ s1 = s2 ∧ l1 = l2 ∧ o1 = o2 := by
  obtain ⟨hi, hrest⟩ := split_first _ _ _ _ (colon_not_mem_formatInt i1)
    (colon_not_mem_formatInt i2) h
  obtain ⟨hs, hl, ho⟩ := index_fields_injective _ _ _ _ _ _ hrest
  exact ⟨formatInt_injective hi, hs, hl, ho⟩

/-- C9. The thread-comment key is `prefix + postId + ":" + sortStyle + ":" + limit + ":" +
offset`, the numbers in decimal, and for one servant (a fixed prefix) two requests
derive the same key only if they agree in post id, sort style, limit and offset:
a difference in any of the four gives different keys. -/
theorem commentsKey_formula_injective (s : looseSrv) (r1 r2 : TweetCommentsReq)
    (l1 o1 l2 o2 : Int) :
    commentsKey s r1 l1 o1
        = s.prefixTweetComment ++ decimal r1.TweetId ++ ":" ++ r1.Style ++ ":" ++ decimal l1
            ++ ":" ++ decimal o1
    ∧ (commentsKey s r1 l1 o1 = commentsKey s r2 l2 o2
        ↔ (r1.TweetId = r2.TweetId ∧ r1.Style = r2.Style ∧ l1 = l2 ∧ o1 = o2)) := by
  constructor
  · rw [commentsKey_eq]
    apply String.ext
    simp [decimal, String.data_append]
  · rw [commentsKey_eq, commentsKey_eq]
    constructor
    · intro h
      have hd := List.append_cancel_left (congrArg String.data h)
      obtain ⟨hi, hs, hl, ho⟩ := comment_fields_injective _ _ _ _ _ _ _ _ hd
      exact ⟨hi, String.ext hs, hl, ho⟩
    · rintro ⟨hi, hs, hl, ho⟩
      rw [hi, hs, hl, ho]

/-! ## User-tweets keys -/

theorem userKey_relation (s : looseSrv) (req : GetUserTweetsReq) (user : VistUser)
    (h : relationScoped req.Style) :
    userKey s req user = some (String.mk (s.prefixUserTweets.data ++
      (formatInt user.UserId ++ ':' :: (req.Style.data ++ ':' ::
        ((s.relationString user.RelTyp).data ++ ':' ::
          (formatInt req.Page ++ ':' :: formatInt req.PageSize)))))) := by
  have h' : req.Style = UserPostsStylePost ∨ req.Style = UserPostsStyleHighlight
      ∨ req.Style = UserPostsStyleMedia := h
  unfold userKey userTweetsFromCache
  simp only [h', if_true, sprintf_user]
  cases s.ac.Get _ <;> rfl

theorem userKey_identity (s : looseSrv) (req : GetUserTweetsReq) (user : VistUser)
    (who : String) (h : ¬ relationScoped req.Style)
    (hwho : (if user.RelTyp ≠ RelationTyp.RelationGuest then
        match req.User with
        | some u => some u.Username
        | none => none
      else some "_") = some who) :
    userKey s req user = some (String.mk (s.prefixUserTweets.data ++
      (formatInt user.UserId ++ ':' :: (req.Style.data ++ ':' :: (who.data ++ ':' ::
        (formatInt req.Page ++ ':' :: formatInt req.PageSize)))))) := by
  have h' : ¬ (req.Style = UserPostsStylePost ∨ req.Style = UserPostsStyleHighlight
      ∨ req.Style = UserPostsStyleMedia) := h
  unfold userKey userTweetsFromCache
  simp only [h', if_false, hwho, sprintf_user]
  cases s.ac.Get _ <;> rfl

theorem userKeyText_eq (s : looseSrv) (req : GetUserTweetsReq) (user : VistUser)
    (who : String) :
    userKeyText s req user who = String.mk (s.prefixUserTweets.data ++
      (formatInt user.UserId ++ ':' :: (req.Style.data ++ ':' :: (who.data ++ ':' ::
        (formatInt req.Page ++ ':' :: formatInt req.PageSize))))) := by
  apply String.ext
  simp [userKeyText, decimal, String.data_append]

theorem user_fields_injective (s1 s2 w1 w2 : List Char) (i1 p1 z1 i2 p2 z2 : Int)
    (hs1 : ':' ∉ s1) (hs2 : ':' ∉ s2)
    (h : formatInt i1 ++ ':' :: (s1 ++ ':' :: (w1 ++ ':' :: (formatInt p1 ++ ':' :: formatInt z1)))
        = formatInt i2 ++ ':' :: (s2 ++ ':' :: (w2 ++ ':' ::
            (formatInt p2 ++ ':' :: formatInt z2)))) :
    i1 = i2 ∧ s1 = s2 ∧ w1 = w2 ∧ p1 = p2 ∧ z1 = z2 := by
  obtain ⟨hi, hrest⟩ := split_first _ _ _ _ (colon_not_mem_formatInt i1)
    (colon_not_mem_formatInt i2) h
  obtain ⟨hs, hrest'⟩ := split_first _ _ _ _ hs1 hs2 hrest
  obtain ⟨hw, hp, hz⟩ := index_fields_injective _ _ _ _ _ _ hrest'
  exact ⟨formatInt_injective hi, hs, hw, hp, hz⟩

theorem identityScoped_not_relationScoped (style : String) (h : identityScoped style) :
    ¬ relationScoped style := by
  rcases h with h | h <;> subst h <;> decide

theorem identityScoped_colon_free (style : String) (h : identityScoped style) :
    ':' ∉ style.data := by
  rcases h with h | h <;> subst h <;> decide

theorem relationScoped_colon_free (style : String) (h : relationScoped style) :
    ':' ∉ style.data := by
  rcases h with h | h | h <;> subst h <;> decide

/-- C7 as stated fails: for the comment style, two authenticated viewers with different
usernames whose relation to the target is guest both get the sentinel "_" as the
identity field, hence the same key, which is also the key of the anonymous viewer. -/
theorem userKey_guest_sentinel_for_authenticated :
    identityScoped UserPostsStyleComment
    ∧ userKey sampleSrv
          (userReqOf (some { ID := 3, Username := "alice", IsAdmin := false })
            UserPostsStyleComment)
          { Username := "carol", UserId := 7, RelTyp := RelationTyp.RelationGuest }
        = some "user:tweets:7:comment:_:1:20"
    ∧ userKey sampleSrv
          (userReqOf (some { ID := 4, Username := "bob", IsAdmin := false })
            UserPostsStyleComment)
          { Username := "carol", UserId := 7, RelTyp := RelationTyp.RelationGuest }
        = some "user:tweets:7:comment:_:1:20"
    ∧ userKey sampleSrv (userReqOf none UserPostsStyleComment)
          { Username := "carol", UserId := 7, RelTyp := RelationTyp.RelationGuest }
        = some "user:tweets:7:comment:_:1:20" := by
  decide

/-- C7, amended. For the identity-scoped user styles (comment, star) the identity field of
the key built by `userTweetsFromCache` is the sentinel "_" whenever the relation tier
is guest, for anonymous and authenticated viewers alike, and the viewer's username
for every authenticated viewer whose relation tier is not guest; so two
authenticated viewers with different usernames, neither of them guest, never get
the same key. -/
theorem userKey_identity_scoped (s : looseSrv) (r1 r2 : GetUserTweetsReq) (u1 u2 : VistUser)
    (h1 : identityScoped r1.Style) (h2 : identityScoped r2.Style) :
    (u1.RelTyp = RelationTyp.RelationGuest → userKey s r1 u1 = some (userKeyText s r1 u1 "_"))
    ∧ (∀ a : User, u1.RelTyp ≠ RelationTyp.RelationGuest → r1.User = some a →
        userKey s r1 u1 = some (userKeyText s r1 u1 a.Username))
    ∧ (∀ a b : User, u1.RelTyp ≠ RelationTyp.RelationGuest →
        u2.RelTyp ≠ RelationTyp.RelationGuest → r1.User = some a → r2.User = some b →
        a.Username ≠ b.Username → userKey s r1 u1 ≠ userKey s r2 u2) := by
  have key_of : ∀ (r : GetUserTweetsReq) (u : VistUser) (a : User), identityScoped r.Style →
      u.RelTyp ≠ RelationTyp.RelationGuest → r.User = some a →
      userKey s r u = some (userKeyText s r u a.Username) := by
    intro r u a hr hu ha
    rw [userKeyText_eq]
    exact userKey_identity s r u a.Username (identityScoped_not_relationScoped _ hr)
      (by simp [hu, ha])
  refine ⟨?_, fun a hu ha => key_of r1 u1 a h1 hu ha, ?_⟩
  · intro hg
    rw [userKeyText_eq]
    exact userKey_identity s r1 u1 "_" (identityScoped_not_relationScoped _ h1) (by simp [hg])
  · intro a b hu1 hu2 ha hb hne heq
    rw [key_of r1 u1 a h1 hu1 ha, key_of r2 u2 b h2 hu2 hb, userKeyText_eq, userKeyText_eq]
      at heq
    have hd := List.append_cancel_left (congrArg String.data (Option.some.inj heq))
    obtain ⟨_, _, hw, _, _⟩ := user_fields_injective _ _ _ _ _ _ _ _ _ _
      (identityScoped_colon_free _ h1) (identityScoped_colon_free _ h2) hd
    exact hne (String.ext hw)

/-- Witness of C7, amended: the admins "alice" and "bob" asking the sample deployment for
the comment list of "carol" get different keys. -/
theorem userKey_identity_scoped_witness :
    userKey sampleSrv
        (userReqOf (some { ID := 3, Username := "alice", IsAdmin := true })
          UserPostsStyleComment)
        { Username := "carol", UserId := 7, RelTyp := RelationTyp.RelationAdmin }
      ≠ userKey sampleSrv
        (userReqOf (some { ID := 4, Username := "bob", IsAdmin := true })
          UserPostsStyleComment)
        { Username := "carol", UserId := 7, RelTyp := RelationTyp.RelationAdmin } :=
  (userKey_identity_scoped sampleSrv
    (userReqOf (some { ID := 3, Username := "alice", IsAdmin := true }) UserPostsStyleComment)
    (userReqOf (some { ID := 4, Username := "bob", IsAdmin := true }) UserPostsStyleComment)
    { Username := "carol", UserId := 7, RelTyp := RelationTyp.RelationAdmin }
    { Username := "carol", UserId := 7, RelTyp := RelationTyp.RelationAdmin }
    (Or.inl rfl) (Or.inl rfl)).2.2
    { ID := 3, Username := "alice", IsAdmin := true }
    { ID := 4, Username := "bob", IsAdmin := true }
    (by decide) (by decide) rfl rfl (by decide)

theorem relationTag_injective_on_tiers (a b : RelationTyp) (ha : relationTier a)
    (hb : relationTier b) (h : RelationTyp.String a = RelationTyp.String b) : a = b := by
  rcases ha with ha | ha | ha | ha | ha <;> rcases hb with hb | hb | hb | hb | hb <;>
    subst ha <;> subst hb <;>
    first
    | rfl
    | exact absurd h (by decide)

/-- C8. For the relation-scoped user styles (post, highlight, media) the key built by
`userTweetsFromCache` depends on the viewer only through the relation tier: two
requests with the same target user id, style, relation tier, page and page size get
the same key whatever the viewers are (authenticated or anonymous), the key of the
formula over the rendered tier; two keys agree exactly when target user id, style,
rendered tier, page and page size agree; and, over the relation tags of the spec,
two requests whose relation tiers (among self, admin, friend, following, guest)
differ get different keys. -/
theorem userKey_relation_scoped (s : looseSrv) (r1 r2 : GetUserTweetsReq) (u1 u2 : VistUser)
    (h1 : relationScoped r1.Style) (h2 : relationScoped r2.Style) :
    (u1.UserId = u2.UserId → r1.Style = r2.Style → u1.RelTyp = u2.RelTyp →
      r1.Page = r2.Page → r1.PageSize = r2.PageSize →
      userKey s r1 u1 = some (userKeyText s r1 u1 (s.relationString u1.RelTyp))
        ∧ userKey s r2 u2 = userKey s r1 u1)
    ∧ (userKey s r1 u1 = userKey s r2 u2 ↔
        u1.UserId = u2.UserId ∧ r1.Style = r2.Style
          ∧ s.relationString u1.RelTyp = s.relationString u2.RelTyp
          ∧ r1.Page = r2.Page ∧ r1.PageSize = r2.PageSize)
    ∧ (relationTier u1.RelTyp → relationTier u2.RelTyp → u1.RelTyp ≠ u2.RelTyp →
        userKey (withRelationTags s) r1 u1 ≠ userKey (withRelationTags s) r2 u2) := by
  refine ⟨?_, ?_, ?_⟩
  · intro hid hst hrel hp hz
    refine ⟨by rw [userKeyText_eq]; exact userKey_relation s r1 u1 h1, ?_⟩
    rw [userKey_relation s r1 u1 h1, userKey_relation s r2 u2 h2, hid, hst, hrel, hp, hz]
  · rw [userKey_relation s r1 u1 h1, userKey_relation s r2 u2 h2]
    constructor
    · intro heq
      have hd := List.append_cancel_left (congrArg String.data (Option.some.inj heq))
      obtain ⟨hi, hs, hw, hp, hz⟩ := user_fields_injective _ _ _ _ _ _ _ _ _ _
        (relationScoped_colon_free _ h1) (relationScoped_colon_free _ h2) hd
      exact ⟨hi, String.ext hs, String.ext hw, hp, hz⟩
    · rintro ⟨hi, hs, hw, hp, hz⟩
      rw [hi, hs, hw, hp, hz]
  · intro ht1 ht2 hne heq
    rw [userKey_relation (withRelationTags s) r1 u1 h1,
      userKey_relation (withRelationTags s) r2 u2 h2] at heq
    have hd := List.append_cancel_left (congrArg String.data (Option.some.inj heq))
    obtain ⟨_, _, hw, _, _⟩ := user_fields_injective _ _ _ _ _ _ _ _ _ _
      (relationScoped_colon_free _ h1) (relationScoped_colon_free _ h2) hd
    exact hne (relationTag_injective_on_tiers _ _ ht1 ht2 (String.ext hw))

/-- Witness of C8: over the relation tags of the spec the post list of "carol" has the key
"user:tweets:7:post:friend:1:20" for a viewer who is a friend and the key
"user:tweets:7:post:guest:1:20" for the anonymous viewer, and the two differ. -/
theorem userKey_relation_scoped_witness :
    userKey (withRelationTags sampleSrv)
        (userReqOf (some { ID := 3, Username := "alice", IsAdmin := false })
          UserPostsStylePost)
        { Username := "carol", UserId := 7, RelTyp := RelationTyp.RelationFriend }
      = some "user:tweets:7:post:friend:1:20"
    ∧ userKey (withRelationTags sampleSrv) (userReqOf none UserPostsStylePost)
        { Username := "carol", UserId := 7, RelTyp := RelationTyp.RelationGuest }
      = some "user:tweets:7:post:guest:1:20"
    ∧ userKey (withRelationTags sampleSrv)
        (userReqOf (some { ID := 3, Username := "alice", IsAdmin := false })
          UserPostsStylePost)
        { Username := "carol", UserId := 7, RelTyp := RelationTyp.RelationFriend }
      ≠ userKey (withRelationTags sampleSrv) (userReqOf none UserPostsStylePost)
        { Username := "carol", UserId := 7, RelTyp := RelationTyp.RelationGuest } :=
  ⟨by decide, by decide,
   (userKey_relation_scoped sampleSrv
    (userReqOf (some { ID := 3, Username := "alice", IsAdmin := false }) UserPostsStylePost)
    (userReqOf none UserPostsStylePost)
    { Username := "carol", UserId := 7, RelTyp := RelationTyp.RelationFriend }
    { Username := "carol", UserId := 7, RelTyp := RelationTyp.RelationGuest }
    (Or.inl rfl) (Or.inl rfl)).2.2 (by decide) (by decide) (by decide)⟩

/-! ## Keys of different resource kinds -/

theorem prefix_clash (a b : String) (x y : List Char) (h : a.data ++ x = b.data ++ y) :
    a.data <+: b.data ∨ b.data <+: a.data :=
  List.prefix_or_prefix_of_prefix (List.prefix_append a.data x)
    (h ▸ List.prefix_append b.data y)

theorem indexKey_prefix (s : looseSrv) (req : TimelineReq) (limit offset : Int)
    (h : indexStyleSupported req.Style) :
    ∃ x, (indexKey s req limit offset).data = (indexPrefix s req.Style).data ++ x :=
  ⟨_, congrArg String.data (indexKey_eq s req limit offset h)⟩

theorem commentsKey_prefix (s : looseSrv) (req : TweetCommentsReq) (limit offset : Int) :
    ∃ x, (commentsKey s req limit offset).data = s.prefixTweetComment.data ++ x :=
  ⟨_, congrArg String.data (commentsKey_eq s req limit offset)⟩

theorem userKey_prefix (s : looseSrv) (req : GetUserTweetsReq) (user : VistUser) (k : String)
    (h : userKey s req user = some k) : ∃ x, k.data = s.prefixUserTweets.data ++ x := by
  by_cases hr : relationScoped req.Style
  · rw [userKey_relation s req user hr] at h
    exact ⟨_, congrArg String.data (Option.some.inj h).symm⟩
  · cases hwho : (if user.RelTyp ≠ RelationTyp.RelationGuest then
        match req.User with
        | some u => some u.Username
        | none => none
      else some "_") with
    | some who =>
      rw [userKey_identity s req user who hr hwho] at h
      exact ⟨_, congrArg String.data (Option.some.inj h).symm⟩
    | none =>
      have hr' : ¬ (req.Style = UserPostsStylePost ∨ req.Style = UserPostsStyleHighlight
          ∨ req.Style = UserPostsStyleMedia) := hr
      unfold userKey userTweetsFromCache at h
      simp only [hr', if_false, hwho] at h
      exact absurd h (by simp)

/-- C6 as stated fails: the prefixes of `overlapSrv` are pairwise distinct, yet the
newest-feed key of viewer "hotbob" equals the hottest-feed key of viewer "bob". -/
theorem distinct_prefixes_collide :
    (cachePrefixes overlapSrv).Nodup
    ∧ indexKey overlapSrv
          (indexReqOf (some { ID := 3, Username := "hotbob", IsAdmin := false })
            StyleTweetsNewest) 20 0
        = indexKey overlapSrv
          (indexReqOf (some { ID := 4, Username := "bob", IsAdmin := false })
            StyleTweetsHots) 20 0 := by
  decide

/-- C6, amended. Given configured prefixes for index-newest, index-hottest,
index-following, user-tweets and thread-comments none of which is an initial
segment of another, a key built for one resource kind is never equal to a key
built for a different resource kind, for all viewers, styles, ids and pagination
values: two index keys of different supported styles differ, and index keys,
user-tweets keys and thread-comment keys are pairwise different. -/
theorem keys_of_different_kinds_differ (s : looseSrv) (hpf : prefixFree (cachePrefixes s))
    (i1 i2 : TimelineReq) (l1 o1 l2 o2 : Int) (ur : GetUserTweetsReq) (vu : VistUser)
    (cr : TweetCommentsReq) (l3 o3 : Int)
    (h1 : indexStyleSupported i1.Style) (h2 : indexStyleSupported i2.Style) :
    (i1.Style ≠ i2.Style → indexKey s i1 l1 o1 ≠ indexKey s i2 l2 o2)
    ∧ userKey s ur vu ≠ some (indexKey s i1 l1 o1)
    ∧ commentsKey s cr l3 o3 ≠ indexKey s i1 l1 o1
    ∧ userKey s ur vu ≠ some (commentsKey s cr l3 o3) := by
  simp only [prefixFree, cachePrefixes, List.pairwise_cons, List.mem_cons, List.mem_singleton,
    forall_eq_or_imp, forall_eq, List.not_mem_nil, false_implies, implies_true,
    List.Pairwise.nil, and_true] at hpf
  obtain ⟨⟨⟨nh, hn⟩, ⟨nf, fn⟩, ⟨nu, un⟩, ⟨nc, cn⟩⟩, ⟨⟨hf, fh⟩, ⟨hu, uh⟩, ⟨hc, ch⟩⟩,
    ⟨⟨fu, uf⟩, ⟨fc, cf⟩⟩, ⟨uc, cu⟩⟩ := hpf
  obtain ⟨x1, hx1⟩ := indexKey_prefix s i1 l1 o1 h1
  obtain ⟨x2, hx2⟩ := indexKey_prefix s i2 l2 o2 h2
  obtain ⟨x3, hx3⟩ := commentsKey_prefix s cr l3 o3
  have hN : indexPrefix s StyleTweetsNewest = s.prefixIdxTweetsNewest := by
    simp [indexPrefix, StyleTweetsNewest, StyleTweetsFollowing]
  have hH : indexPrefix s StyleTweetsHots = s.prefixIdxTweetsHots := by
    simp [indexPrefix, StyleTweetsHots, StyleTweetsNewest, StyleTweetsFollowing]
  have hF : indexPrefix s StyleTweetsFollowing = s.prefixIdxTweetsFollowing := by
    simp [indexPrefix]
  refine ⟨?_, ?_, ?_, ?_⟩
  · intro hne heq
    rw [heq, hx2] at hx1
    have hcl := prefix_clash _ _ _ _ hx1
    rcases h1 with e1 | e1 | e1 <;> rcases h2 with e2 | e2 | e2 <;>
      first
      | exact hne (e1.trans e2.symm)
      | (rw [e1, e2] at hcl
         simp only [hN, hH, hF] at hcl
         rcases hcl with hcl | hcl <;> contradiction)
  · intro heq
    obtain ⟨x, hx⟩ := userKey_prefix s ur vu _ heq
    rw [hx1] at hx
    have hcl := prefix_clash _ _ _ _ hx
    rcases h1 with e1 | e1 | e1 <;>
      (rw [e1] at hcl
       simp only [hN, hH, hF] at hcl
       rcases hcl with hcl | hcl <;> contradiction)
  · intro heq
    rw [heq, hx1] at hx3
    have hcl := prefix_clash _ _ _ _ hx3
    rcases h1 with e1 | e1 | e1 <;>
      (rw [e1] at hcl
       simp only [hN, hH, hF] at hcl
       rcases hcl with hcl | hcl <;> contradiction)
  · intro heq
    obtain ⟨x, hx⟩ := userKey_prefix s ur vu _ heq
    rw [hx3] at hx
    rcases prefix_clash _ _ _ _ hx with hcl | hcl <;> contradiction

/-- Witness of C6, amended: in the sample deployment, whose prefixes are free of initial
segments, the anonymous newest-feed key differs from the thread-comment key of
post 5. -/
theorem keys_of_different_kinds_differ_witness :
    commentsKey sampleSrv (commentsReqOf 1) 20 0
      ≠ indexKey sampleSrv (indexReqOf none StyleTweetsNewest) 20 0 :=
  (keys_of_different_kinds_differ sampleSrv (by decide)
    (indexReqOf none StyleTweetsNewest) (indexReqOf none StyleTweetsHots) 20 0 20 0
    (userReqOf none UserPostsStylePost)
    { Username := "carol", UserId := 7, RelTyp := RelationTyp.RelationGuest }
    (commentsReqOf 1) 20 0 (Or.inl rfl) (Or.inr (Or.inl rfl))).2.2.1

/-! ## Unknown index styles -/

/-- C11. For an index request whose style is not newest, hots or following,
`indexTweetsFromCache` yields no response, the empty key and `ok = false` without
any cache operation, and `getIndexTweets` returns no response and the fixed error
`ErrGetPostsUnknowStyle`, which differs from both query-failure errors; its log is
empty, so the cache is neither read nor written and no query is issued. -/
theorem getIndexTweets_unknown_style (s : looseSrv) (req : TimelineReq) (limit offset : Int)
    (h : ¬ indexStyleSupported req.Style) :
    indexTweetsFromCache s req limit offset = (none, "", false, [])
    ∧ getIndexTweets s req limit offset
        = { res := none, err := some WebErr.ErrGetPostsUnknowStyle, log := [] }
    ∧ WebErr.ErrGetPostsUnknowStyle ≠ WebErr.ErrGetPostFailed
    ∧ WebErr.ErrGetPostsUnknowStyle ≠ WebErr.ErrGetPostsFailed := by
  have h1 : ¬ req.Style = StyleTweetsNewest := fun e => h (Or.inl e)
  have h2 : ¬ req.Style = StyleTweetsHots := fun e => h (Or.inr (Or.inl e))
  have h3 : ¬ req.Style = StyleTweetsFollowing := fun e => h (Or.inr (Or.inr e))
  have hc : indexTweetsFromCache s req limit offset = (none, "", false, []) := by
    simp only [indexTweetsFromCache, h1, h2, h3, if_false]
  refine ⟨hc, ?_, by decide, by decide⟩
  simp only [getIndexTweets, hc, h1, h2, h3, if_false]

/-- Witness of C11: the anonymous index request of the sample deployment with the
style "bogus". -/
theorem getIndexTweets_unknown_style_witness :
    getIndexTweets sampleSrv (indexReqOf none "bogus") 20 0
      = { res := none, err := some WebErr.ErrGetPostsUnknowStyle, log := [] } :=
  (getIndexTweets_unknown_style sampleSrv (indexReqOf none "bogus") 20 0 (by decide)).2.1

/-! ## The cache lookups as functions of the derived key -/

theorem indexTweetsFromCache_supported (s : looseSrv) (req : TimelineReq) (limit offset : Int)
    (h : indexStyleSupported req.Style) :
    indexTweetsFromCache s req limit offset
      = match s.ac.Get (indexKey s req limit offset) with
        | some data =>
          (some { Data := none, JsonResp := some data }, indexKey s req limit offset, true,
            [Event.cacheGet (indexKey s req limit offset)])
        | none =>
          (none, indexKey s req limit offset, false,
            [Event.cacheGet (indexKey s req limit offset)]) := by
  have hk : ∃ k, (if req.Style = StyleTweetsFollowing then
        some (Sprintf "%s%s:%d:%d"
          [FmtArg.s s.prefixIdxTweetsFollowing,
           FmtArg.s (match req.User with
            | some u => u.Username
            | none => "_"), FmtArg.d offset, FmtArg.d limit])
      else if req.Style = StyleTweetsNewest then
        some (Sprintf "%s%s:%d:%d"
          [FmtArg.s s.prefixIdxTweetsNewest,
           FmtArg.s (match req.User with
            | some u => u.Username
            | none => "_"), FmtArg.d offset, FmtArg.d limit])
      else if req.Style = StyleTweetsHots then
        some (Sprintf "%s%s:%d:%d"
          [FmtArg.s s.prefixIdxTweetsHots,
           FmtArg.s (match req.User with
            | some u => u.Username
            | none => "_"), FmtArg.d offset, FmtArg.d limit])
      else none) = some k := by
    rcases h with h | h | h
    · exact ⟨_, by rw [h]; rfl⟩
    · exact ⟨_, by rw [h]; rfl⟩
    · exact ⟨_, by rw [h]; rfl⟩
  obtain ⟨k, hk⟩ := hk
  have hkey : indexKey s req limit offset = k := by
    unfold indexKey indexTweetsFromCache
    simp only [hk]
    cases s.ac.Get k <;> rfl
  rw [hkey]
  unfold indexTweetsFromCache
  simp only [hk]

theorem tweetCommentsFromCache_eq (s : looseSrv) (req : TweetCommentsReq) (limit offset : Int) :
    tweetCommentsFromCache s req limit offset
      = match s.ac.Get (commentsKey s req limit offset) with
        | some data =>
          (some { Data := none, JsonResp := some data }, commentsKey s req limit offset, true,
            [Event.cacheGet (commentsKey s req limit offset)])
        | none =>
          (none, commentsKey s req limit offset, false,
            [Event.cacheGet (commentsKey s req limit offset)]) := by
  have hkey : commentsKey s req limit offset
      = Sprintf "%s%d:%s:%d:%d"
          [FmtArg.s s.prefixTweetComment, FmtArg.d req.TweetId, FmtArg.s req.Style,
           FmtArg.d limit, FmtArg.d offset] := by
    unfold commentsKey tweetCommentsFromCache
    dsimp only
    split <;> rfl
  rw [hkey]
  rfl

theorem lookup_shape (get : String → Option PageResp) (ko : Option String) (key : String)
    (h : (match ko with
        | none => (none : Option (Option GetUserTweetsResp × String × Bool × List Event))
        | some k =>
          match get k with
          | some data =>
            some (some { Data := none, JsonResp := some data }, k, true, [Event.cacheGet k])
          | none => some (none, k, false, [Event.cacheGet k])).map
        (fun out : Option GetUserTweetsResp × String × Bool × List Event => out.2.1)
      = some key) :
    (match ko with
      | none => (none : Option (Option GetUserTweetsResp × String × Bool × List Event))
      | some k =>
        match get k with
        | some data =>
          some (some { Data := none, JsonResp := some data }, k, true, [Event.cacheGet k])
        | none => some (none, k, false, [Event.cacheGet k]))
      = some (match get key with
        | some data =>
          (some { Data := none, JsonResp := some data }, key, true, [Event.cacheGet key])
        | none => (none, key, false, [Event.cacheGet key])) := by
  cases ko with
  | none => simp at h
  | some k =>
    cases hget : get k with
    | some data =>
      simp only [hget, Option.map_some', Option.some.injEq] at h
      subst h
      simp only [hget]
    | none =>
      simp only [hget, Option.map_some', Option.some.injEq] at h
      subst h
      simp only [hget]

theorem userTweetsFromCache_eq (s : looseSrv) (req : GetUserTweetsReq) (user : VistUser)
    (key : String) (h : userKey s req user = some key) :
    userTweetsFromCache s req user
      = some (match s.ac.Get key with
        | some data =>
          (some { Data := none, JsonResp := some data }, key, true, [Event.cacheGet key])
        | none => (none, key, false, [Event.cacheGet key])) :=
  lookup_shape s.ac.Get _ key h

/-! ## Cache hits -/

/-- C13. On a cache hit, that is when the cache holds `data` at the derived key,
`getIndexTweets`, `TweetComments` and `GetUserTweets` return a response whose
`JsonResp` is `data`, with a nil error. The log of the index and comment handlers is
the cache read alone, and that of `GetUserTweets` is the relation lookup followed
by the cache read: no list, merge, prepare or join operation of the data source is
invoked and nothing is written to the cache. -/
theorem cache_hit_returns_stored (s : looseSrv) :
    (∀ (req : TimelineReq) (limit offset : Int) (data : PageResp),
        indexStyleSupported req.Style →
        s.ac.Get (indexKey s req limit offset) = some data →
        getIndexTweets s req limit offset
          = { res := some { Data := none, JsonResp := some data }, err := none
              log := [Event.cacheGet (indexKey s req limit offset)] })
    ∧ (∀ (req : TweetCommentsReq) (data : PageResp),
        s.ac.Get (commentsKey s req req.PageSize (pageOffset req.Page req.PageSize))
          = some data →
        TweetComments s req
          = { res := some { Data := none, JsonResp := some data }, err := none
              log := [Event.cacheGet
                (commentsKey s req req.PageSize (pageOffset req.Page req.PageSize))] })
    ∧ (∀ (req : GetUserTweetsReq) (user : VistUser) (key : String) (data : PageResp),
        s.RelationTypFrom req.User req.Username = Except.ok user →
        userKey s req user = some key →
        s.ac.Get key = some data →
        GetUserTweets s req
          = some { res := some { Data := none, JsonResp := some data }, err := none
                   log := [Event.ds DsCall.RelationTypFrom, Event.cacheGet key] }) := by
  refine ⟨?_, ?_, ?_⟩
  · intro req limit offset data hsup hget
    simp only [getIndexTweets, indexTweetsFromCache_supported s req limit offset hsup, hget]
  · intro req data hget
    simp only [TweetComments, tweetCommentsFromCache_eq, hget]
  · intro req user key data hrel hkey hget
    simp only [GetUserTweets, hrel, userTweetsFromCache_eq s req user key hkey, hget]

/-- Witness of C13: after the comment request of viewer 1 has populated the cache of the
sample deployment, the request of viewer 2 for the same page is served from the
cache with the cache read as its only operation. -/
theorem cache_hit_returns_stored_witness :
    TweetComments warmSrv (commentsReqOf 2)
      = { res := some
            { Data := none
              JsonResp := some
                { List := PageItems.comments
                    [{ ID := 10, PostID := 5, UserID := 7
                       User := { ID := 7, Username := "author", IsAdmin := false,
                                 IsFriend := false, IsFollowing := false }
                       Contents := [], Replies := [], IsThumbsUp := 1, IsThumbsDown := 0 }]
                  Pager := { Page := 1, PageSize := 20, TotalRows := 1 } } }
          err := none
          log := [Event.cacheGet "tweet:comments:5:default:20:0"] } :=
  (cache_hit_returns_stored warmSrv).2.1 (commentsReqOf 2)
    { List := PageItems.comments
        [{ ID := 10, PostID := 5, UserID := 7
           User := { ID := 7, Username := "author", IsAdmin := false,
                     IsFriend := false, IsFollowing := false }
           Contents := [], Replies := [], IsThumbsUp := 1, IsThumbsDown := 0 }]
      Pager := { Page := 1, PageSize := 20, TotalRows := 1 } }
    (by decide)

/-! ## User tweets with an unlisted style -/

theorem identityField_code (req : GetUserTweetsReq) (user : VistUser) :
    (if user.RelTyp ≠ RelationTyp.RelationGuest then
        match req.User with
        | some u => some u.Username
        | none => none
      else some "_") = identityField req user := by
  unfold identityField
  by_cases h : user.RelTyp = RelationTyp.RelationGuest
  · simp [h]
  · cases req.User <;> simp [h]

theorem userStyle_unsupported_cases (style : String) (h : ¬ userStyleSupported style) :
    ¬ relationScoped style ∧ ¬ (style = UserPostsStyleComment ∨ style = UserPostsStyleMedia)
      ∧ ¬ style = UserPostsStyleHighlight ∧ ¬ style = UserPostsStyleStar := by
  unfold userStyleSupported at h
  unfold relationScoped
  refine ⟨?_, ?_, ?_, ?_⟩
  · rintro (e | e | e) <;> exact h (by simp [e])
  · rintro (e | e) <;> exact h (by simp [e])
  · intro e; exact h (by simp [e])
  · intro e; exact h (by simp [e])

/-- C12 as stated fails: for the style "bogus", which is none of the five listed
styles, the sample deployment derives the key "user:tweets:7:bogus:_:1:20", reads
the cache at it and, after serving the request as a user-posts query, requests the
store of the envelope under that key. -/
theorem GetUserTweets_unlisted_style_uses_cache :
    ¬ userStyleSupported "bogus"
    ∧ userKey sampleSrv (userReqOf none "bogus")
          { Username := "carol", UserId := 7, RelTyp := RelationTyp.RelationGuest }
        = some "user:tweets:7:bogus:_:1:20"
    ∧ (GetUserTweets sampleSrv (userReqOf none "bogus")).map (fun r => r.log)
        = some [Event.ds DsCall.RelationTypFrom,
                Event.cacheGet "user:tweets:7:bogus:_:1:20",
                Event.ds (DsCall.ListUserTweets 7 StyleUserTweets.StyleUserTweetsGuest false 20 0),
                Event.ds DsCall.MergePosts,
                Event.ds (DsCall.PrepareTweets (-1)),
                Event.cacheSet "user:tweets:7:bogus:_:1:20"
                  (some (PageRespFrom (PageItems.tweets []) 1 20 0)) 60] := by
  decide

/-- C12, amended. For a `GetUserTweets` request whose style is none of post, highlight,
media, comment and star, caching is not bypassed: `userTweetsFromCache` derives the
identity-scoped key `prefix + targetUserId + ":" + style + ":" + who + ":" + page +
":" + pageSize`, where `who` is "_" for the guest tier and the viewer's username
otherwise, and reads the cache at that key; on a miss the request is served by the
non-highlight user-posts query and, when that succeeds, `GetUserTweets` requests
the store of the envelope under the same key. -/
theorem GetUserTweets_unlisted_style_cached (s : looseSrv) (req : GetUserTweetsReq)
    (user : VistUser) (who : String)
    (hstyle : ¬ userStyleSupported req.Style)
    (hrel : s.RelationTypFrom req.User req.Username = Except.ok user)
    (hwho : identityField req user = some who) :
    userKey s req user = some (userKeyText s req user who)
    ∧ (∃ res ok, userTweetsFromCache s req user
        = some (res, userKeyText s req user who, ok,
            [Event.cacheGet (userKeyText s req user who)]))
    ∧ (s.ac.Get (userKeyText s req user who) = none →
        ∀ resp, (getUserPostTweets s req user false).res = some resp →
          (getUserPostTweets s req user false).err = none →
          GetUserTweets s req
            = some { res := some resp, err := none
                     log := Event.ds DsCall.RelationTypFrom ::
                       Event.cacheGet (userKeyText s req user who) ::
                       ((getUserPostTweets s req user false).log ++
                         [Event.cacheSet (userKeyText s req user who) resp.Data
                            s.userTweetsExpire]) }) := by
  obtain ⟨h1, h2, h3, h4⟩ := userStyle_unsupported_cases req.Style hstyle
  have hkey : userKey s req user = some (userKeyText s req user who) := by
    rw [userKeyText_eq]
    exact userKey_identity s req user who h1 ((identityField_code req user).trans hwho)
  have hlook := userTweetsFromCache_eq s req user _ hkey
  refine ⟨hkey, ?_, ?_⟩
  · rw [hlook]
    cases s.ac.Get (userKeyText s req user who) with
    | some data => exact ⟨_, _, rfl⟩
    | none => exact ⟨_, _, rfl⟩
  · intro hget resp hres herr
    simp only [GetUserTweets, hrel, hlook, hget, h2, h3, h4, if_false, herr, hres,
      List.singleton_append, List.cons_append, List.nil_append]

/-- Witness of C12, amended: the anonymous request of the sample deployment for the
style "bogus" of user "carol". -/
theorem GetUserTweets_unlisted_style_cached_witness :
    userKey sampleSrv (userReqOf none "bogus")
        { Username := "carol", UserId := 7, RelTyp := RelationTyp.RelationGuest }
      = some "user:tweets:7:bogus:_:1:20" :=
  (GetUserTweets_unlisted_style_cached sampleSrv (userReqOf none "bogus")
    { Username := "carol", UserId := 7, RelTyp := RelationTyp.RelationGuest } "_"
    (by decide) rfl rfl).1.trans (by decide)

/-! ## The miss paths of the post-list handlers -/

theorem getIndexTweets_miss (s : looseSrv) (req : TimelineReq) (limit offset : Int)
    (hsup : indexStyleSupported req.Style)
    (hmiss : s.ac.Get (indexKey s req limit offset) = none) :
    ∃ call q, indexQuery s req limit offset = some (call, q)
      ∧ getIndexTweets s req limit offset
        = assemblePosts s req.Page req.PageSize req.User WebErr.ErrGetPostFailed
            WebErr.ErrGetPostFailed WebErr.ErrGetPostsFailed
            [Event.cacheGet (indexKey s req limit offset)] call q
            (some (indexKey s req limit offset, s.idxTweetsExpire)) := by
  have hq : ∃ call q, indexQuery s req limit offset = some (call, q) := by
    unfold indexQuery
    rcases hsup with h | h | h
    · exact ⟨_, _, by rw [h]; rfl⟩
    · exact ⟨_, _, by rw [h]; rfl⟩
    · rw [h]
      cases req.User with
      | none => exact ⟨_, _, rfl⟩
      | some u => exact ⟨_, _, rfl⟩
  obtain ⟨call, q, hq⟩ := hq
  refine ⟨call, q, hq, ?_⟩
  have hq' := hq
  unfold indexQuery at hq'
  unfold getIndexTweets
  simp only [indexTweetsFromCache_supported s req limit offset hsup, hmiss, hq']
  unfold assemblePosts
  rcases q with e | ⟨posts, total⟩
  · rfl
  · simp only

theorem getUserPostTweets_eq (s : looseSrv) (req : GetUserTweetsReq) (user : VistUser)
    (hl : Bool) :
    getUserPostTweets s req user hl
      = assemblePosts s req.Page req.PageSize req.User WebErr.ErrGetPostsFailed
          WebErr.ErrGetPostsFailed WebErr.ErrGetPostsFailed []
          (DsCall.ListUserTweets user.UserId (variantOf user.RelTyp) hl req.PageSize
            (pageOffset req.Page req.PageSize))
          (s.ListUserTweets user.UserId (variantOf user.RelTyp) hl req.PageSize
            (pageOffset req.Page req.PageSize)) none := by
  have hv : (match user.RelTyp with
      | RelationTyp.RelationAdmin => StyleUserTweets.StyleUserTweetsAdmin
      | RelationTyp.RelationSelf => StyleUserTweets.StyleUserTweetsSelf
      | RelationTyp.RelationFriend => StyleUserTweets.StyleUserTweetsFriend
      | RelationTyp.RelationFollowing => StyleUserTweets.StyleUserTweetsFollowing
      | RelationTyp.RelationGuest => StyleUserTweets.StyleUserTweetsGuest
      | _ => StyleUserTweets.StyleUserTweetsGuest) = variantOf user.RelTyp := by
    cases user.RelTyp <;> rfl
  unfold getUserPostTweets assemblePosts
  simp only [hv]
  cases s.ListUserTweets user.UserId (variantOf user.RelTyp) hl req.PageSize
      (pageOffset req.Page req.PageSize) with
  | error e => rfl
  | ok r =>
    obtain ⟨posts, total⟩ := r
    simp only
    cases s.MergePosts posts with
    | error e => rfl
    | ok pfs =>
      simp only
      cases s.PrepareTweets (viewerId req.User) pfs <;> rfl

theorem listUserTweets_eq (s : looseSrv) (req : GetUserTweetsReq) (user : VistUser) :
    listUserTweets s req user
      = match listQuery s req user with
        | none => { res := none, err := some WebErr.ErrGetPostsFailed, log := [] }
        | some (call, q) =>
          assemblePosts s req.Page req.PageSize req.User WebErr.ErrGetPostsFailed
            WebErr.ErrGetPostsFailed WebErr.ErrGetPostsFailed [] call q none := by
  unfold listUserTweets
  simp only
  rw [show (if req.Style = UserPostsStyleComment then
        some (DsCall.ListUserCommentTweets req.PageSize (pageOffset req.Page req.PageSize),
              s.ListUserCommentTweets user req.PageSize (pageOffset req.Page req.PageSize))
      else if req.Style = UserPostsStyleMedia then
        some (DsCall.ListUserMediaTweets req.PageSize (pageOffset req.Page req.PageSize),
              s.ListUserMediaTweets user req.PageSize (pageOffset req.Page req.PageSize))
      else none) = listQuery s req user from rfl]
  cases listQuery s req user with
  | none => rfl
  | some cq =>
    obtain ⟨call, q⟩ := cq
    unfold assemblePosts
    rcases q with e | ⟨posts, total⟩
    · rfl
    · simp only
      cases s.MergePosts posts with
      | error e => rfl
      | ok pfs =>
        simp only
        cases s.PrepareTweets (viewerId req.User) pfs <;> rfl

theorem getUserStarTweets_eq (s : looseSrv) (req : GetUserTweetsReq) (user : VistUser) :
    getUserStarTweets s req user
      = assemblePosts s req.Page req.PageSize req.User WebErr.ErrGetStarsFailed
          WebErr.ErrGetStarsFailed WebErr.ErrGetPostsFailed []
          (DsCall.ListUserStarTweets req.PageSize (pageOffset req.Page req.PageSize))
          ((s.ListUserStarTweets user req.PageSize (pageOffset req.Page req.PageSize)).map
            (fun r => (starPosts r.1, r.2))) none := by
  unfold getUserStarTweets assemblePosts
  simp only
  cases s.ListUserStarTweets user req.PageSize (pageOffset req.Page req.PageSize) with
  | error e => rfl
  | ok r =>
    obtain ⟨stars, total⟩ := r
    simp only [Except.map]
    rw [show (stars.foldl
        (fun posts star =>
          match star.Post with
          | some p => posts ++ [p]
          | none => posts) ([] : List Post)) = starPosts stars from rfl]
    cases s.MergePosts (starPosts stars) with
    | error e => rfl
    | ok pfs =>
      simp only
      cases s.PrepareTweets (viewerId req.User) pfs <;> rfl

/-! ## Pagination of the list handlers -/

theorem pagedWith_nil (limit offset : Int) : pagedWith limit offset [] := by
  intro e he
  cases he

theorem pagedWith_cons (limit offset : Int) (e : Event) (log : List Event) :
    pagedWith limit offset (e :: log) ↔ pagedEvent limit offset e ∧ pagedWith limit offset log := by
  unfold pagedWith
  simp

theorem pagedWith_append (limit offset : Int) (a b : List Event) :
    pagedWith limit offset (a ++ b) ↔ pagedWith limit offset a ∧ pagedWith limit offset b := by
  unfold pagedWith
  simp only [List.mem_append]
  constructor
  · intro h
    exact ⟨fun e he => h e (Or.inl he), fun e he => h e (Or.inr he)⟩
  · rintro ⟨ha, hb⟩ e (he | he)
    · exact ha e he
    · exact hb e he

theorem assemblePosts_paged (s : looseSrv) (page pageSize : Int) (viewer : Option User)
    (e1 e2 e3 : WebErr) (log0 : List Event) (call : DsCall)
    (q : Except DsErr (List Post × Int)) (store : Option (String × Int)) (limit offset : Int)
    (h0 : pagedWith limit offset log0) (hc : pagedEvent limit offset (Event.ds call)) :
    pagedWith limit offset
      (assemblePosts s page pageSize viewer e1 e2 e3 log0 call q store).log := by
  have hM : pagedEvent limit offset (Event.ds DsCall.MergePosts) := Or.inl rfl
  have hP : pagedEvent limit offset (Event.ds (DsCall.PrepareTweets (viewerId viewer))) :=
    Or.inl rfl
  have hS : ∀ k d x, pagedEvent limit offset (Event.cacheSet k d x) := fun _ _ _ => trivial
  unfold assemblePosts
  rcases q with e | ⟨posts, total⟩
  · simp [pagedWith_append, pagedWith_cons, pagedWith_nil, h0, hc]
  · simp only
    cases s.MergePosts posts with
    | error e => simp [pagedWith_append, pagedWith_cons, pagedWith_nil, h0, hc, hM]
    | ok pfs =>
      simp only
      cases s.PrepareTweets (viewerId viewer) pfs with
      | error e => simp [pagedWith_append, pagedWith_cons, pagedWith_nil, h0, hc, hM, hP]
      | ok pfs' =>
        cases store with
        | none => simp [pagedWith_append, pagedWith_cons, pagedWith_nil, h0, hc, hM, hP]
        | some kv =>
          simp [pagedWith_append, pagedWith_cons, pagedWith_nil, h0, hc, hM, hP, hS]

theorem assemblePosts_envelope (s : looseSrv) (page pageSize : Int) (viewer : Option User)
    (e1 e2 e3 : WebErr) (log0 : List Event) (call : DsCall)
    (q : Except DsErr (List Post × Int)) (store : Option (String × Int)) :
    envelopeWith page pageSize (fun T => ∃ posts, q = Except.ok (posts, T))
      (assemblePosts s page pageSize viewer e1 e2 e3 log0 call q store).res := by
  unfold assemblePosts envelopeWith
  intro resp env hres hdata
  rcases q with e | ⟨posts, total⟩
  · simp at hres
  · simp only at hres
    cases hm : s.MergePosts posts with
    | error e => simp [hm] at hres
    | ok pfs =>
      simp only [hm] at hres
      cases hp : s.PrepareTweets (viewerId viewer) pfs with
      | error e => simp [hp] at hres
      | ok pfs' =>
        simp only [hp, Option.some.injEq] at hres
        subst hres
        simp only [Option.some.injEq] at hdata
        subst hdata
        exact ⟨rfl, rfl, posts, rfl⟩

theorem indexQuery_paged (s : looseSrv) (req : TimelineReq) (limit offset : Int) (call : DsCall)
    (q : Except DsErr (List Post × Int)) (h : indexQuery s req limit offset = some (call, q)) :
    pagedEvent limit offset (Event.ds call) := by
  unfold indexQuery at h
  split at h
  · split at h <;>
      (simp only [Option.some.injEq, Prod.mk.injEq] at h
       obtain ⟨rfl, _⟩ := h
       exact Or.inr rfl)
  · split at h
    · simp only [Option.some.injEq, Prod.mk.injEq] at h
      obtain ⟨rfl, _⟩ := h
      exact Or.inr rfl
    · split at h
      · simp only [Option.some.injEq, Prod.mk.injEq] at h
        obtain ⟨rfl, _⟩ := h
        exact Or.inr rfl
      · simp at h

theorem listQuery_paged (s : looseSrv) (req : GetUserTweetsReq) (user : VistUser) (call : DsCall)
    (q : Except DsErr (List Post × Int)) (h : listQuery s req user = some (call, q)) :
    pagedEvent req.PageSize (pageOffset req.Page req.PageSize) (Event.ds call) := by
  unfold listQuery at h
  split at h
  · simp only [Option.some.injEq, Prod.mk.injEq] at h
    obtain ⟨rfl, _⟩ := h
    exact Or.inr rfl
  · split at h
    · simp only [Option.some.injEq, Prod.mk.injEq] at h
      obtain ⟨rfl, _⟩ := h
      exact Or.inr rfl
    · simp at h

theorem getIndexTweets_hit (s : looseSrv) (req : TimelineReq) (limit offset : Int)
    (data : PageResp) (hsup : indexStyleSupported req.Style)
    (hget : s.ac.Get (indexKey s req limit offset) = some data) :
    getIndexTweets s req limit offset
      = { res := some { Data := none, JsonResp := some data }, err := none
          log := [Event.cacheGet (indexKey s req limit offset)] } := by
  simp only [getIndexTweets, indexTweetsFromCache_supported s req limit offset hsup, hget]

theorem getIndexTweets_unknown (s : looseSrv) (req : TimelineReq) (limit offset : Int)
    (h : ¬ indexStyleSupported req.Style) :
    getIndexTweets s req limit offset
      = { res := none, err := some WebErr.ErrGetPostsUnknowStyle, log := [] } := by
  have h1 : ¬ req.Style = StyleTweetsNewest := fun e => h (Or.inl e)
  have h2 : ¬ req.Style = StyleTweetsHots := fun e => h (Or.inr (Or.inl e))
  have h3 : ¬ req.Style = StyleTweetsFollowing := fun e => h (Or.inr (Or.inr e))
  simp only [getIndexTweets, indexTweetsFromCache, h1, h2, h3, if_false]

theorem getIndexTweets_paged (s : looseSrv) (req : TimelineReq) (limit offset : Int) :
    pagedWith limit offset (getIndexTweets s req limit offset).log
    ∧ envelopeWith req.Page req.PageSize
        (fun T => ∃ call posts, indexQuery s req limit offset = some (call, Except.ok (posts, T)))
        (getIndexTweets s req limit offset).res := by
  by_cases hsup : indexStyleSupported req.Style
  · cases hget : s.ac.Get (indexKey s req limit offset) with
    | some data =>
      rw [getIndexTweets_hit s req limit offset data hsup hget]
      refine ⟨by simp [pagedWith_cons, pagedWith_nil, pagedEvent], ?_⟩
      intro resp env hres hdata
      simp only [Option.some.injEq] at hres
      subst hres
      simp at hdata
    | none =>
      obtain ⟨call, q, hq, heq⟩ := getIndexTweets_miss s req limit offset hsup hget
      rw [heq]
      refine ⟨assemblePosts_paged _ _ _ _ _ _ _ _ _ _ _ _ _
        (by simp [pagedWith_cons, pagedWith_nil, pagedEvent])
        (indexQuery_paged s req limit offset call q hq), ?_⟩
      intro resp env hres hdata
      obtain ⟨h1, h2, posts, h3⟩ := assemblePosts_envelope _ _ _ _ _ _ _ _ _ _ _ resp env hres hdata
      exact ⟨h1, h2, call, posts, by rw [hq, h3]⟩
  · rw [getIndexTweets_unknown s req limit offset hsup]
    refine ⟨pagedWith_nil _ _, ?_⟩
    intro resp env hres
    simp at hres

theorem assembleComments_paged (s : looseSrv) (req : TweetCommentsReq) (key : String)
    (comments : List Comment) (totalRows : Int) (users : List User)
    (contents : List CommentContent) (replies : List CommentReplyFormated)
    (ct rt : CommentThumbsMap) (log : List Event) (limit offset : Int)
    (h : pagedWith limit offset log) :
    pagedWith limit offset
        (assembleComments s req key comments totalRows users contents replies ct rt log).log
    ∧ envelopeWith req.Page req.PageSize (fun T => T = totalRows)
        (assembleComments s req key comments totalRows users contents replies ct rt log).res := by
  unfold assembleComments
  refine ⟨?_, ?_⟩
  · have hS : ∀ k d x, pagedEvent limit offset (Event.cacheSet k d x) := fun _ _ _ => trivial
    simp [pagedWith_append, pagedWith_cons, pagedWith_nil, h, hS]
  · intro resp env hres hdata
    simp only [Option.some.injEq] at hres
    subst hres
    simp only [Option.some.injEq] at hdata
    subst hdata
    exact ⟨rfl, rfl, rfl⟩

theorem TweetComments_paged (s : looseSrv) (req : TweetCommentsReq) :
    pagedWith req.PageSize (pageOffset req.Page req.PageSize) (TweetComments s req).log
    ∧ envelopeWith req.Page req.PageSize
        (fun T => ∃ comments, s.GetComments req.TweetId (s.styleToInnerValue req.Style)
          req.PageSize (pageOffset req.Page req.PageSize) = Except.ok (comments, T))
        (TweetComments s req).res := by
  have hK : ∀ k, pagedEvent req.PageSize (pageOffset req.Page req.PageSize) (Event.cacheGet k) :=
    fun _ => trivial
  have hG : pagedEvent req.PageSize (pageOffset req.Page req.PageSize)
      (Event.ds (DsCall.GetComments req.TweetId req.PageSize
        (pageOffset req.Page req.PageSize))) := Or.inr rfl
  have hU : ∀ ids, pagedEvent req.PageSize (pageOffset req.Page req.PageSize)
      (Event.ds (DsCall.GetUsersByIDs ids)) := fun _ => Or.inl rfl
  have hC : ∀ ids, pagedEvent req.PageSize (pageOffset req.Page req.PageSize)
      (Event.ds (DsCall.GetCommentContentsByIDs ids)) := fun _ => Or.inl rfl
  have hR : ∀ ids, pagedEvent req.PageSize (pageOffset req.Page req.PageSize)
      (Event.ds (DsCall.GetCommentRepliesByID ids)) := fun _ => Or.inl rfl
  have hT : ∀ a b, pagedEvent req.PageSize (pageOffset req.Page req.PageSize)
      (Event.ds (DsCall.GetCommentThumbsMap a b)) := fun _ _ => Or.inl rfl
  have hrep : ∀ comments T, s.GetComments req.TweetId (s.styleToInnerValue req.Style)
      req.PageSize (pageOffset req.Page req.PageSize) = Except.ok (comments, T) →
      (fun T => ∃ comments, s.GetComments req.TweetId (s.styleToInnerValue req.Style)
          req.PageSize (pageOffset req.Page req.PageSize) = Except.ok (comments, T)) T :=
    fun comments T h => ⟨comments, h⟩
  generalize (fun T => ∃ comments, s.GetComments req.TweetId (s.styleToInnerValue req.Style)
      req.PageSize (pageOffset req.Page req.PageSize) = Except.ok (comments, T)) = P at hrep ⊢
  have hnone : envelopeWith req.Page req.PageSize P none := by
    intro resp env hres
    simp at hres
  unfold TweetComments
  simp only [tweetCommentsFromCache_eq]
  cases s.ac.Get (commentsKey s req req.PageSize (pageOffset req.Page req.PageSize)) with
  | some data =>
    refine ⟨by simp [pagedWith_cons, pagedWith_nil, hK], ?_⟩
    intro resp env hres hdata
    simp only [Option.some.injEq] at hres
    subst hres
    simp at hdata
  | none =>
    simp only
    cases hc : s.GetComments req.TweetId (s.styleToInnerValue req.Style) req.PageSize
        (pageOffset req.Page req.PageSize) with
    | error e =>
      simp only
      exact ⟨by simp [pagedWith_append, pagedWith_cons, pagedWith_nil, hK, hG], hnone⟩
    | ok r =>
      obtain ⟨comments, total⟩ := r
      simp only
      cases s.GetUsersByIDs (comments.map fun comment => comment.UserID) with
      | error e =>
        simp only
        exact ⟨by simp [pagedWith_append, pagedWith_cons, pagedWith_nil, hK, hG, hU],
          hnone⟩
      | ok users =>
        simp only
        cases s.GetCommentContentsByIDs (comments.map fun comment => comment.ID) with
        | error e =>
          simp only
          exact ⟨by simp [pagedWith_append, pagedWith_cons, pagedWith_nil, hK, hG, hU, hC],
            hnone⟩
        | ok contents =>
          simp only
          cases s.GetCommentRepliesByID (comments.map fun comment => comment.ID) with
          | error e =>
            simp only
            exact ⟨by
              simp [pagedWith_append, pagedWith_cons, pagedWith_nil, hK, hG, hU, hC, hR],
              hnone⟩
          | ok replies =>
            simp only
            have hlog4 : pagedWith req.PageSize (pageOffset req.Page req.PageSize)
                ([Event.cacheGet
                    (commentsKey s req req.PageSize (pageOffset req.Page req.PageSize))] ++
                  [Event.ds (DsCall.GetComments req.TweetId req.PageSize
                    (pageOffset req.Page req.PageSize))] ++
                  [Event.ds (DsCall.GetUsersByIDs (comments.map fun comment => comment.UserID))] ++
                  [Event.ds (DsCall.GetCommentContentsByIDs
                    (comments.map fun comment => comment.ID))] ++
                  [Event.ds (DsCall.GetCommentRepliesByID
                    (comments.map fun comment => comment.ID))]) := by
              simp [pagedWith_append, pagedWith_cons, pagedWith_nil, hK, hG, hU, hC, hR]
            by_cases hu : 0 < req.Uid
            · simp only [hu, if_true]
              cases s.GetCommentThumbsMap req.Uid req.TweetId with
              | error e =>
                simp only
                refine ⟨?_, hnone⟩
                rw [pagedWith_append]
                exact ⟨hlog4, by simp [pagedWith_cons, pagedWith_nil, hT]⟩
              | ok maps =>
                obtain ⟨ct, rt⟩ := maps
                have hlast : pagedWith req.PageSize (pageOffset req.Page req.PageSize)
                    [Event.ds (DsCall.GetCommentThumbsMap req.Uid req.TweetId)] := by
                  rw [pagedWith_cons]
                  exact ⟨hT _ _, pagedWith_nil _ _⟩
                obtain ⟨h1, h2⟩ := assembleComments_paged s req
                  (commentsKey s req req.PageSize (pageOffset req.Page req.PageSize))
                  comments total users contents replies ct rt _ req.PageSize
                  (pageOffset req.Page req.PageSize)
                  ((pagedWith_append _ _ _ _).mpr ⟨hlog4, hlast⟩)
                refine ⟨h1, ?_⟩
                intro resp env hres hdata
                obtain ⟨a, b, c⟩ := h2 resp env hres hdata
                exact ⟨a, b, hrep comments _ (by rw [c]; exact hc)⟩
            · simp only [hu, if_false]
              obtain ⟨h1, h2⟩ := assembleComments_paged s req
                (commentsKey s req req.PageSize (pageOffset req.Page req.PageSize))
                comments total users contents replies [] [] _ req.PageSize
                (pageOffset req.Page req.PageSize) hlog4
              refine ⟨h1, ?_⟩
              intro resp env hres hdata
              obtain ⟨a, b, c⟩ := h2 resp env hres hdata
              exact ⟨a, b, hrep comments _ (by rw [c]; exact hc)⟩

theorem envelopeWith_mono (page pageSize : Int) (P Q : Int → Prop) (res : Option CachePageResp)
    (hPQ : ∀ T, P T → Q T) (h : envelopeWith page pageSize P res) :
    envelopeWith page pageSize Q res := by
  intro resp env hres hdata
  obtain ⟨a, b, c⟩ := h resp env hres hdata
  exact ⟨a, b, hPQ _ c⟩

theorem Timeline_paged (s : looseSrv) (req : TimelineReq) :
    pagedWith req.PageSize (pageOffset req.Page req.PageSize) (Timeline s req).log
    ∧ envelopeWith req.Page req.PageSize
        (fun T =>
          (∃ r, s.Search req.User { Query := req.Query, Type_ := req.Type_ }
              (pageOffset req.Page req.PageSize) req.PageSize = Except.ok r ∧ r.Total = T)
          ∨ ∃ call posts, indexQuery s req req.PageSize (pageOffset req.Page req.PageSize)
              = some (call, Except.ok (posts, T)))
        (Timeline s req).res := by
  by_cases hidx : req.Query = "" ∧ req.Type_ = "search"
  · have hT : Timeline s req
        = getIndexTweets s req req.PageSize (pageOffset req.Page req.PageSize) := by
      simp only [Timeline, hidx, and_self, if_true]
    rw [hT]
    obtain ⟨h1, h2⟩ := getIndexTweets_paged s req req.PageSize (pageOffset req.Page req.PageSize)
    exact ⟨h1, envelopeWith_mono _ _ _ _ _ (fun T h => Or.inr h) h2⟩
  · have hS : pagedEvent req.PageSize (pageOffset req.Page req.PageSize)
        (Event.ds (DsCall.Search { Query := req.Query, Type_ := req.Type_ }
          (pageOffset req.Page req.PageSize) req.PageSize)) := Or.inr rfl
    have hR : pagedEvent req.PageSize (pageOffset req.Page req.PageSize)
        (Event.ds DsCall.RevampPosts) := Or.inl rfl
    have hP : pagedEvent req.PageSize (pageOffset req.Page req.PageSize)
        (Event.ds (DsCall.PrepareTweets (viewerId req.User))) := Or.inl rfl
    have hrep : ∀ r, s.Search req.User { Query := req.Query, Type_ := req.Type_ }
        (pageOffset req.Page req.PageSize) req.PageSize = Except.ok r →
        (fun T =>
          (∃ r, s.Search req.User { Query := req.Query, Type_ := req.Type_ }
              (pageOffset req.Page req.PageSize) req.PageSize = Except.ok r ∧ r.Total = T)
          ∨ ∃ call posts, indexQuery s req req.PageSize (pageOffset req.Page req.PageSize)
              = some (call, Except.ok (posts, T))) r.Total :=
      fun r h => Or.inl ⟨r, h, rfl⟩
    generalize (fun T =>
          (∃ r, s.Search req.User { Query := req.Query, Type_ := req.Type_ }
              (pageOffset req.Page req.PageSize) req.PageSize = Except.ok r ∧ r.Total = T)
          ∨ ∃ call posts, indexQuery s req req.PageSize (pageOffset req.Page req.PageSize)
              = some (call, Except.ok (posts, T))) = P at hrep ⊢
    have hnone : envelopeWith req.Page req.PageSize P none := by
      intro resp env hres
      simp at hres
    unfold Timeline
    simp only [hidx, if_false]
    cases hs : s.Search req.User { Query := req.Query, Type_ := req.Type_ }
        (pageOffset req.Page req.PageSize) req.PageSize with
    | error e =>
      simp only
      exact ⟨by simp [pagedWith_cons, pagedWith_nil, hS], hnone⟩
    | ok r =>
      simp only
      cases s.RevampPosts r.Items with
      | error e =>
        simp only
        exact ⟨by simp [pagedWith_append, pagedWith_cons, pagedWith_nil, hS, hR], hnone⟩
      | ok posts =>
        simp only
        cases s.PrepareTweets (viewerId req.User) posts with
        | error e =>
          simp only
          exact ⟨by simp [pagedWith_append, pagedWith_cons, pagedWith_nil, hS, hR, hP], hnone⟩
        | ok posts' =>
          simp only
          refine ⟨by simp [pagedWith_append, pagedWith_cons, pagedWith_nil, hS, hR, hP], ?_⟩
          intro resp env hres hdata
          simp only [Option.some.injEq] at hres
          subst hres
          simp only [Option.some.injEq] at hdata
          subst hdata
          exact ⟨rfl, rfl, hrep r hs⟩

theorem wrapInt_of_range (x : Int) (h1 : -9223372036854775808 ≤ x)
    (h2 : x ≤ 9223372036854775807) : wrapInt x = x := by
  unfold wrapInt
  rw [Int.emod_eq_of_lt (by omega) (by omega)]
  omega

theorem pageOffset_of_range (page pageSize : Int) (h1 : 1 ≤ page)
    (h2 : page ≤ 9223372036854775807)
    (h3 : -9223372036854775808 ≤ (page - 1) * pageSize)
    (h4 : (page - 1) * pageSize ≤ 9223372036854775807) :
    pageOffset page pageSize = (page - 1) * pageSize := by
  unfold pageOffset
  rw [wrapInt_of_range (page - 1) (by omega) (by omega), wrapInt_of_range _ h3 h4]

/-- C14 as stated fails: for page `2^62 + 1` and page size 4 the product
`(page-1)*pageSize` is `2^64`, and `getUserPostTweets` hands the data source the
offset 0, the product reduced to 64 bits. -/
theorem pageOffset_wraps :
    1 ≤ hugePageReq.Page
    ∧ (getUserPostTweets sampleSrv hugePageReq
          { Username := "carol", UserId := 7, RelTyp := RelationTyp.RelationGuest } false).log.head?
        = some (Event.ds
            (DsCall.ListUserTweets 7 StyleUserTweets.StyleUserTweetsGuest false 4 0))
    ∧ (hugePageReq.Page - 1) * hugePageReq.PageSize = 18446744073709551616
    ∧ (hugePageReq.Page - 1) * hugePageReq.PageSize ≠ 0 := by
  decide

theorem assemblePosts_issues (s : looseSrv) (page pageSize : Int) (viewer : Option User)
    (e1 e2 e3 : WebErr) (log0 : List Event) (call : DsCall)
    (q : Except DsErr (List Post × Int)) (store : Option (String × Int)) :
    Event.ds call ∈ (assemblePosts s page pageSize viewer e1 e2 e3 log0 call q store).log := by
  unfold assemblePosts
  rcases q with e | ⟨posts, total⟩
  · simp
  · simp only
    cases s.MergePosts posts with
    | error e => simp
    | ok merged =>
      simp only
      cases s.PrepareTweets (viewerId viewer) merged with
      | error e => simp
      | ok prepared => cases store <;> simp

theorem assemblePosts_built (s : looseSrv) (page pageSize : Int) (viewer : Option User)
    (e1 e2 e3 : WebErr) (log0 : List Event) (call : DsCall)
    (store : Option (String × Int)) (posts : List Post) (total : Int)
    (merged prepared : List PostFormated) (hm : s.MergePosts posts = Except.ok merged)
    (hp : s.PrepareTweets (viewerId viewer) merged = Except.ok prepared) :
    envelopeBuilt page pageSize total
      (assemblePosts s page pageSize viewer e1 e2 e3 log0 call (Except.ok (posts, total))
        store).res := by
  unfold assemblePosts
  simp only [hm, hp]
  exact ⟨_, rfl, rfl⟩

theorem indexQuery_listPaging (s : looseSrv) (req : TimelineReq) (limit offset : Int)
    (call : DsCall) (q : Except DsErr (List Post × Int))
    (h : indexQuery s req limit offset = some (call, q)) :
    listPaging call = some (limit, offset) := by
  unfold indexQuery at h
  split at h
  · split at h <;>
      (simp only [Option.some.injEq, Prod.mk.injEq] at h
       obtain ⟨rfl, _⟩ := h
       rfl)
  · split at h
    · simp only [Option.some.injEq, Prod.mk.injEq] at h
      obtain ⟨rfl, _⟩ := h
      rfl
    · split at h
      · simp only [Option.some.injEq, Prod.mk.injEq] at h
        obtain ⟨rfl, _⟩ := h
        rfl
      · simp at h

theorem Timeline_search (s : looseSrv) (req : TimelineReq)
    (h : ¬ (req.Query = "" ∧ req.Type_ = "search")) :
    Event.ds (DsCall.Search { Query := req.Query, Type_ := req.Type_ }
        (pageOffset req.Page req.PageSize) req.PageSize) ∈ (Timeline s req).log
    ∧ ∀ r posts prepared,
        s.Search req.User { Query := req.Query, Type_ := req.Type_ }
          (pageOffset req.Page req.PageSize) req.PageSize = Except.ok r →
        s.RevampPosts r.Items = Except.ok posts →
        s.PrepareTweets (viewerId req.User) posts = Except.ok prepared →
        envelopeBuilt req.Page req.PageSize r.Total (Timeline s req).res := by
  constructor
  · unfold Timeline
    simp only [h, if_false]
    cases s.Search req.User { Query := req.Query, Type_ := req.Type_ }
        (pageOffset req.Page req.PageSize) req.PageSize with
    | error e => simp
    | ok r =>
      simp only
      cases s.RevampPosts r.Items with
      | error e => simp
      | ok posts =>
        simp only
        cases s.PrepareTweets (viewerId req.User) posts <;> simp
  · intro r posts prepared hs hr hp
    unfold Timeline
    simp only [h, if_false, hs, hr, hp]
    exact ⟨_, rfl, rfl⟩

theorem Timeline_index (s : looseSrv) (req : TimelineReq)
    (h : req.Query = "" ∧ req.Type_ = "search") (hsup : indexStyleSupported req.Style)
    (hmiss : s.ac.Get (indexKey s req req.PageSize (pageOffset req.Page req.PageSize)) = none) :
    ∃ call q, indexQuery s req req.PageSize (pageOffset req.Page req.PageSize) = some (call, q)
      ∧ listPaging call = some (req.PageSize, pageOffset req.Page req.PageSize)
      ∧ Event.ds call ∈ (Timeline s req).log
      ∧ ∀ posts total merged prepared, q = Except.ok (posts, total) →
          s.MergePosts posts = Except.ok merged →
          s.PrepareTweets (viewerId req.User) merged = Except.ok prepared →
          envelopeBuilt req.Page req.PageSize total (Timeline s req).res := by
  have hT : Timeline s req
      = getIndexTweets s req req.PageSize (pageOffset req.Page req.PageSize) := by
    simp only [Timeline, h, and_self, if_true]
  obtain ⟨call, q, hq, heq⟩ := getIndexTweets_miss s req req.PageSize
    (pageOffset req.Page req.PageSize) hsup hmiss
  refine ⟨call, q, hq, indexQuery_listPaging s req _ _ call q hq, ?_, ?_⟩
  · rw [hT, heq]
    exact assemblePosts_issues _ _ _ _ _ _ _ _ _ _ _
  · intro posts total merged prepared hok hm hp
    rw [hT, heq, hok]
    exact assemblePosts_built _ _ _ _ _ _ _ _ _ _ _ _ _ _ hm hp

theorem TweetComments_issues (s : looseSrv) (req : TweetCommentsReq)
    (hmiss : s.ac.Get (commentsKey s req req.PageSize (pageOffset req.Page req.PageSize))
      = none) :
    Event.ds (DsCall.GetComments req.TweetId req.PageSize (pageOffset req.Page req.PageSize))
      ∈ (TweetComments s req).log := by
  unfold TweetComments
  simp only [tweetCommentsFromCache_eq, hmiss]
  repeat' split
  all_goals simp [assembleComments]

theorem TweetComments_built (s : looseSrv) (req : TweetCommentsReq) (comments : List Comment)
    (total : Int) (users : List User) (contents : List CommentContent)
    (replies : List CommentReplyFormated) (ct rt : CommentThumbsMap)
    (hmiss : s.ac.Get (commentsKey s req req.PageSize (pageOffset req.Page req.PageSize)) = none)
    (hcomments : s.GetComments req.TweetId (s.styleToInnerValue req.Style) req.PageSize
      (pageOffset req.Page req.PageSize) = Except.ok (comments, total))
    (husers : s.GetUsersByIDs (comments.map fun comment => comment.UserID) = Except.ok users)
    (hcontents : s.GetCommentContentsByIDs (comments.map fun comment => comment.ID)
      = Except.ok contents)
    (hreplies : s.GetCommentRepliesByID (comments.map fun comment => comment.ID)
      = Except.ok replies)
    (hmaps : reactionMaps s req = Except.ok (ct, rt)) :
    envelopeBuilt req.Page req.PageSize total (TweetComments s req).res := by
  unfold TweetComments
  simp only [tweetCommentsFromCache_eq, hmiss, hcomments, husers, hcontents, hreplies]
  unfold reactionMaps at hmaps
  by_cases hu : 0 < req.Uid
  · simp only [hu, if_true] at hmaps ⊢
    simp only [hmaps]
    exact ⟨_, rfl, rfl⟩
  · simp only [hu, if_false]
    exact ⟨_, rfl, rfl⟩

/-- C14, amended. Each list handler (`Timeline`, `TweetComments`, `getUserStarTweets`,
`listUserTweets`, `getUserPostTweets`) issues its list or search query with limit =
pageSize and offset = `(page-1)*pageSize` reduced to the 64-bit range of Go's `int`
(the cached handlers on a miss, `listUserTweets` for its two styles), and every
list or search query of its log carries these arguments; when the query and the
fetches after it succeed, the handler returns a built envelope that carries the
request's page and pageSize unchanged together with the total reported by the
query, and every envelope it returns does; the offset equals `(page-1)*pageSize`
itself for every page >= 1 and pageSize whose product fits the 64-bit range. -/
theorem list_handlers_pagination (s : looseSrv) (treq : TimelineReq) (creq : TweetCommentsReq)
    (ureq : GetUserTweetsReq) (user : VistUser) (hl : Bool) :
    (pagedWith treq.PageSize (pageOffset treq.Page treq.PageSize) (Timeline s treq).log
      ∧ envelopeWith treq.Page treq.PageSize
          (fun T =>
            (∃ r, s.Search treq.User { Query := treq.Query, Type_ := treq.Type_ }
                (pageOffset treq.Page treq.PageSize) treq.PageSize = Except.ok r ∧ r.Total = T)
            ∨ ∃ call posts,
                indexQuery s treq treq.PageSize (pageOffset treq.Page treq.PageSize)
                  = some (call, Except.ok (posts, T)))
          (Timeline s treq).res
      ∧ (¬ (treq.Query = "" ∧ treq.Type_ = "search") →
          Event.ds (DsCall.Search { Query := treq.Query, Type_ := treq.Type_ }
              (pageOffset treq.Page treq.PageSize) treq.PageSize) ∈ (Timeline s treq).log
          ∧ ∀ r posts prepared,
              s.Search treq.User { Query := treq.Query, Type_ := treq.Type_ }
                (pageOffset treq.Page treq.PageSize) treq.PageSize = Except.ok r →
              s.RevampPosts r.Items = Except.ok posts →
              s.PrepareTweets (viewerId treq.User) posts = Except.ok prepared →
              envelopeBuilt treq.Page treq.PageSize r.Total (Timeline s treq).res)
      ∧ (treq.Query = "" ∧ treq.Type_ = "search" → indexStyleSupported treq.Style →
          s.ac.Get (indexKey s treq treq.PageSize (pageOffset treq.Page treq.PageSize)) = none →
          ∃ call q,
            indexQuery s treq treq.PageSize (pageOffset treq.Page treq.PageSize) = some (call, q)
            ∧ listPaging call = some (treq.PageSize, pageOffset treq.Page treq.PageSize)
            ∧ Event.ds call ∈ (Timeline s treq).log
            ∧ ∀ posts total merged prepared, q = Except.ok (posts, total) →
                s.MergePosts posts = Except.ok merged →
                s.PrepareTweets (viewerId treq.User) merged = Except.ok prepared →
                envelopeBuilt treq.Page treq.PageSize total (Timeline s treq).res))
    ∧ (pagedWith creq.PageSize (pageOffset creq.Page creq.PageSize) (TweetComments s creq).log
      ∧ envelopeWith creq.Page creq.PageSize
          (fun T => ∃ comments, s.GetComments creq.TweetId (s.styleToInnerValue creq.Style)
            creq.PageSize (pageOffset creq.Page creq.PageSize) = Except.ok (comments, T))
          (TweetComments s creq).res
      ∧ (s.ac.Get (commentsKey s creq creq.PageSize (pageOffset creq.Page creq.PageSize))
            = none →
          Event.ds (DsCall.GetComments creq.TweetId creq.PageSize
              (pageOffset creq.Page creq.PageSize)) ∈ (TweetComments s creq).log
          ∧ ∀ comments total users contents replies ct rt,
              s.GetComments creq.TweetId (s.styleToInnerValue creq.Style) creq.PageSize
                (pageOffset creq.Page creq.PageSize) = Except.ok (comments, total) →
              s.GetUsersByIDs (comments.map fun comment => comment.UserID) = Except.ok users →
              s.GetCommentContentsByIDs (comments.map fun comment => comment.ID)
                = Except.ok contents →
              s.GetCommentRepliesByID (comments.map fun comment => comment.ID)
                = Except.ok replies →
              reactionMaps s creq = Except.ok (ct, rt) →
              envelopeBuilt creq.Page creq.PageSize total (TweetComments s creq).res))
    ∧ (pagedWith ureq.PageSize (pageOffset ureq.Page ureq.PageSize)
          (getUserStarTweets s ureq user).log
      ∧ envelopeWith ureq.Page ureq.PageSize
          (fun T => ∃ stars, s.ListUserStarTweets user ureq.PageSize
            (pageOffset ureq.Page ureq.PageSize) = Except.ok (stars, T))
          (getUserStarTweets s ureq user).res
      ∧ Event.ds (DsCall.ListUserStarTweets ureq.PageSize (pageOffset ureq.Page ureq.PageSize))
          ∈ (getUserStarTweets s ureq user).log
      ∧ ∀ stars total merged prepared,
          s.ListUserStarTweets user ureq.PageSize (pageOffset ureq.Page ureq.PageSize)
            = Except.ok (stars, total) →
          s.MergePosts (starPosts stars) = Except.ok merged →
          s.PrepareTweets (viewerId ureq.User) merged = Except.ok prepared →
          envelopeBuilt ureq.Page ureq.PageSize total (getUserStarTweets s ureq user).res)
    ∧ (pagedWith ureq.PageSize (pageOffset ureq.Page ureq.PageSize)
          (listUserTweets s ureq user).log
      ∧ envelopeWith ureq.Page ureq.PageSize
          (fun T => ∃ call posts, listQuery s ureq user = some (call, Except.ok (posts, T)))
          (listUserTweets s ureq user).res
      ∧ (ureq.Style = UserPostsStyleComment →
          Event.ds (DsCall.ListUserCommentTweets ureq.PageSize
              (pageOffset ureq.Page ureq.PageSize)) ∈ (listUserTweets s ureq user).log
          ∧ ∀ posts total merged prepared,
              s.ListUserCommentTweets user ureq.PageSize (pageOffset ureq.Page ureq.PageSize)
                = Except.ok (posts, total) →
              s.MergePosts posts = Except.ok merged →
              s.PrepareTweets (viewerId ureq.User) merged = Except.ok prepared →
              envelopeBuilt ureq.Page ureq.PageSize total (listUserTweets s ureq user).res)
      ∧ (ureq.Style = UserPostsStyleMedia →
          Event.ds (DsCall.ListUserMediaTweets ureq.PageSize
              (pageOffset ureq.Page ureq.PageSize)) ∈ (listUserTweets s ureq user).log
          ∧ ∀ posts total merged prepared,
              s.ListUserMediaTweets user ureq.PageSize (pageOffset ureq.Page ureq.PageSize)
                = Except.ok (posts, total) →
              s.MergePosts posts = Except.ok merged →
              s.PrepareTweets (viewerId ureq.User) merged = Except.ok prepared →
              envelopeBuilt ureq.Page ureq.PageSize total (listUserTweets s ureq user).res))
    ∧ (pagedWith ureq.PageSize (pageOffset ureq.Page ureq.PageSize)
          (getUserPostTweets s ureq user hl).log
      ∧ envelopeWith ureq.Page ureq.PageSize
          (fun T => ∃ posts, s.ListUserTweets user.UserId (variantOf user.RelTyp) hl
            ureq.PageSize (pageOffset ureq.Page ureq.PageSize) = Except.ok (posts, T))
          (getUserPostTweets s ureq user hl).res
      ∧ Event.ds (DsCall.ListUserTweets user.UserId (variantOf user.RelTyp) hl ureq.PageSize
            (pageOffset ureq.Page ureq.PageSize)) ∈ (getUserPostTweets s ureq user hl).log
      ∧ ∀ posts total merged prepared,
          s.ListUserTweets user.UserId (variantOf user.RelTyp) hl ureq.PageSize
            (pageOffset ureq.Page ureq.PageSize) = Except.ok (posts, total) →
          s.MergePosts posts = Except.ok merged →
          s.PrepareTweets (viewerId ureq.User) merged = Except.ok prepared →
          envelopeBuilt ureq.Page ureq.PageSize total (getUserPostTweets s ureq user hl).res)
    ∧ (∀ page pageSize : Int, 1 ≤ page → page ≤ 9223372036854775807 →
        -9223372036854775808 ≤ (page - 1) * pageSize →
        (page - 1) * pageSize ≤ 9223372036854775807 →
        pageOffset page pageSize = (page - 1) * pageSize) := by
  refine ⟨⟨(Timeline_paged s treq).1, (Timeline_paged s treq).2, Timeline_search s treq,
      Timeline_index s treq⟩,
    ⟨(TweetComments_paged s creq).1, (TweetComments_paged s creq).2, ?_⟩, ?_, ?_, ?_,
    pageOffset_of_range⟩
  · intro hmiss
    exact ⟨TweetComments_issues s creq hmiss,
      fun comments total users contents replies ct rt h1 h2 h3 h4 h5 =>
        TweetComments_built s creq comments total users contents replies ct rt hmiss h1 h2 h3
          h4 h5⟩
  · rw [getUserStarTweets_eq]
    refine ⟨assemblePosts_paged _ _ _ _ _ _ _ _ _ _ _ _ _ (pagedWith_nil _ _) (Or.inr rfl), ?_,
      assemblePosts_issues _ _ _ _ _ _ _ _ _ _ _, ?_⟩
    · refine envelopeWith_mono _ _ _ _ _ ?_ (assemblePosts_envelope _ _ _ _ _ _ _ _ _ _ _)
      intro T hT
      obtain ⟨posts, hq⟩ := hT
      cases hl : s.ListUserStarTweets user ureq.PageSize (pageOffset ureq.Page ureq.PageSize) with
      | error e => simp [hl, Except.map] at hq
      | ok r =>
        obtain ⟨stars, total⟩ := r
        simp only [hl, Except.map, Except.ok.injEq, Prod.mk.injEq] at hq
        exact ⟨stars, by rw [hq.2]⟩
    · intro stars total merged prepared hq hm hp
      rw [hq]
      exact assemblePosts_built _ _ _ _ _ _ _ _ _ _ _ _ _ _ hm hp
  · refine ⟨?_, ?_, ?_, ?_⟩
    · rw [listUserTweets_eq]
      cases hq : listQuery s ureq user with
      | none => exact pagedWith_nil _ _
      | some cq =>
        obtain ⟨call, q⟩ := cq
        exact assemblePosts_paged _ _ _ _ _ _ _ _ _ _ _ _ _ (pagedWith_nil _ _)
          (listQuery_paged s ureq user call q hq)
    · rw [listUserTweets_eq]
      cases hq : listQuery s ureq user with
      | none =>
        intro resp env hres
        simp at hres
      | some cq =>
        obtain ⟨call, q⟩ := cq
        refine envelopeWith_mono _ _ _ _ _ ?_ (assemblePosts_envelope _ _ _ _ _ _ _ _ _ _ _)
        intro T hT
        obtain ⟨posts, hq'⟩ := hT
        exact ⟨call, posts, by rw [hq']⟩
    · intro hst
      have hq : listQuery s ureq user
          = some (DsCall.ListUserCommentTweets ureq.PageSize
              (pageOffset ureq.Page ureq.PageSize),
            s.ListUserCommentTweets user ureq.PageSize
              (pageOffset ureq.Page ureq.PageSize)) := by
        unfold listQuery
        rw [if_pos hst]
      rw [listUserTweets_eq, hq]
      refine ⟨assemblePosts_issues _ _ _ _ _ _ _ _ _ _ _, ?_⟩
      intro posts total merged prepared hok hm hp
      simp only [hok]
      exact assemblePosts_built _ _ _ _ _ _ _ _ _ _ _ _ _ _ hm hp
    · intro hst
      have hne : ¬ ureq.Style = UserPostsStyleComment := by
        rw [hst]
        decide
      have hq : listQuery s ureq user
          = some (DsCall.ListUserMediaTweets ureq.PageSize
              (pageOffset ureq.Page ureq.PageSize),
            s.ListUserMediaTweets user ureq.PageSize
              (pageOffset ureq.Page ureq.PageSize)) := by
        unfold listQuery
        rw [if_neg hne, if_pos hst]
      rw [listUserTweets_eq, hq]
      refine ⟨assemblePosts_issues _ _ _ _ _ _ _ _ _ _ _, ?_⟩
      intro posts total merged prepared hok hm hp
      simp only [hok]
      exact assemblePosts_built _ _ _ _ _ _ _ _ _ _ _ _ _ _ hm hp
  · rw [getUserPostTweets_eq]
    refine ⟨assemblePosts_paged _ _ _ _ _ _ _ _ _ _ _ _ _ (pagedWith_nil _ _) (Or.inr rfl),
      assemblePosts_envelope _ _ _ _ _ _ _ _ _ _ _,
      assemblePosts_issues _ _ _ _ _ _ _ _ _ _ _, ?_⟩
    intro posts total merged prepared hq hm hp
    rw [hq]
    exact assemblePosts_built _ _ _ _ _ _ _ _ _ _ _ _ _ _ hm hp

/-- Witness of C14, amended: for page 3 of twenty per page, over a data source with 45 rows,
`getUserPostTweets` issues the user-posts query with limit 20 and offset 40,
`TweetComments` the comment query with limit 20 and offset 40, and `Timeline` the
search with offset 40 and limit 20; each returns a built envelope with page 3,
page size 20 and total 45, whose one item is the row 41 that the data source
returns at offset 40. -/
theorem list_handlers_pagination_witness :
    pageOffset 3 20 = 40
    ∧ (Event.ds (DsCall.ListUserTweets 7 StyleUserTweets.StyleUserTweetsGuest false 20 40)
        ∈ (getUserPostTweets pagingSrv thirdPageReq
            { Username := "carol", UserId := 7, RelTyp := RelationTyp.RelationGuest } false).log
      ∧ envelopeBuilt 3 20 45
          (getUserPostTweets pagingSrv thirdPageReq
            { Username := "carol", UserId := 7, RelTyp := RelationTyp.RelationGuest } false).res)
    ∧ (Event.ds (DsCall.GetComments 5 20 40) ∈ (TweetComments pagingSrv thirdCommentsReq).log
      ∧ envelopeBuilt 3 20 45 (TweetComments pagingSrv thirdCommentsReq).res)
    ∧ (Event.ds (DsCall.Search { Query := "lean", Type_ := "search" } 40 20)
        ∈ (Timeline pagingSrv thirdSearchReq).log
      ∧ envelopeBuilt 3 20 45 (Timeline pagingSrv thirdSearchReq).res)
    ∧ ((getUserPostTweets pagingSrv thirdPageReq
          { Username := "carol", UserId := 7, RelTyp := RelationTyp.RelationGuest } false).res.bind
        (fun resp => resp.Data)).map (fun env => (env.Pager, match env.List with
          | PageItems.tweets l => l.map (fun p => p.ID)
          | PageItems.comments l => l.map (fun c => c.ID)))
        = some ({ Page := 3, PageSize := 20, TotalRows := 45 }, [41]) :=
  ⟨by decide,
   ⟨(list_handlers_pagination pagingSrv thirdSearchReq thirdCommentsReq thirdPageReq
      { Username := "carol", UserId := 7, RelTyp := RelationTyp.RelationGuest }
      false).2.2.2.2.1.2.2.1,
    (list_handlers_pagination pagingSrv thirdSearchReq thirdCommentsReq thirdPageReq
      { Username := "carol", UserId := 7, RelTyp := RelationTyp.RelationGuest }
      false).2.2.2.2.1.2.2.2 _ _ _ _ rfl rfl rfl⟩,
   ⟨((list_handlers_pagination pagingSrv thirdSearchReq thirdCommentsReq thirdPageReq
      { Username := "carol", UserId := 7, RelTyp := RelationTyp.RelationGuest }
      false).2.1.2.2 (by decide)).1,
    ((list_handlers_pagination pagingSrv thirdSearchReq thirdCommentsReq thirdPageReq
      { Username := "carol", UserId := 7, RelTyp := RelationTyp.RelationGuest }
      false).2.1.2.2 (by decide)).2 _ _ _ _ _ _ _ rfl rfl rfl rfl rfl⟩,
   ⟨((list_handlers_pagination pagingSrv thirdSearchReq thirdCommentsReq thirdPageReq
      { Username := "carol", UserId := 7, RelTyp := RelationTyp.RelationGuest }
      false).1.2.2.1 (by decide)).1,
    ((list_handlers_pagination pagingSrv thirdSearchReq thirdCommentsReq thirdPageReq
      { Username := "carol", UserId := 7, RelTyp := RelationTyp.RelationGuest }
      false).1.2.2.1 (by decide)).2 _ _ _ rfl rfl rfl⟩,
   by decide⟩

/-! ## Starred tweets: the post list -/

theorem starPosts_foldl (stars : List PostStar) (acc : List Post) :
    stars.foldl
        (fun posts star =>
          match star.Post with
          | some p => posts ++ [p]
          | none => posts) acc
      = acc ++ stars.filterMap (fun star => star.Post) := by
  induction stars generalizing acc with
  | nil => simp
  | cons st rest ih =>
    simp only [List.foldl_cons, ih]
    cases h : st.Post with
    | none => simp [List.filterMap_cons, h]
    | some p => simp [List.filterMap_cons, h]

theorem starPosts_eq_filterMap (stars : List PostStar) :
    starPosts stars = stars.filterMap (fun star => star.Post) := by
  unfold starPosts
  rw [starPosts_foldl]
  rfl

theorem filterMap_post_length (stars : List PostStar) (h : ∀ st ∈ stars, st.Post ≠ none) :
    (stars.filterMap (fun star => star.Post)).length = stars.length := by
  induction stars with
  | nil => rfl
  | cons st rest ih =>
    have hst := h st (List.mem_cons_self _ _)
    cases hp : st.Post with
    | none => exact absurd hp hst
    | some p =>
      simp only [List.filterMap_cons, hp, List.length_cons]
      rw [ih (fun x hx => h x (List.mem_cons_of_mem _ hx))]

/-- C15 as stated fails: over a data source that returns one star row without a post,
for page 1 of size 20 with one row in total, the offset 0 is below the total and
the data source returns exactly min(20, 1 - 0) = 1 row, yet the post list of
`getUserStarTweets` is empty and so is the list of the envelope. -/
theorem getUserStarTweets_drops_rows_without_post :
    orphanStarSrv.ListUserStarTweets
        { Username := "carol", UserId := 7, RelTyp := RelationTyp.RelationGuest } 20
        (pageOffset 1 20)
      = Except.ok ([{ ID := 1, Post := none }], 1)
    ∧ pageOffset 1 20 < 1
    ∧ (([{ ID := 1, Post := none }] : List PostStar).length : Int) = min 20 (1 - pageOffset 1 20)
    ∧ (starPosts [{ ID := 1, Post := none }]).length = 0
    ∧ (getUserStarTweets orphanStarSrv (userReqOf none UserPostsStyleStar)
          { Username := "carol", UserId := 7, RelTyp := RelationTyp.RelationGuest }).res
        = some { Data := some (PageRespFrom (PageItems.tweets []) 1 20 1), JsonResp := none } :=
  ⟨rfl, by decide, by decide, by decide, by decide⟩

/-- C15, amended. The post list that `getUserStarTweets` hands to `MergePosts` consists of
the posts of the returned star rows that carry a post, in the order of the rows. So
when offset < totalRows and the data source returns exactly
min(pageSize, totalRows - offset) star rows, each carrying its post, the list has
exactly min(pageSize, totalRows - offset) entries; when the data source returns no
rows the list is empty. -/
theorem getUserStarTweets_post_list (s : looseSrv) (req : GetUserTweetsReq) (user : VistUser)
    (stars : List PostStar) (totalRows : Int)
    (hq : s.ListUserStarTweets user req.PageSize (pageOffset req.Page req.PageSize)
      = Except.ok (stars, totalRows)) :
    getUserStarTweets s req user
        = assemblePosts s req.Page req.PageSize req.User WebErr.ErrGetStarsFailed
            WebErr.ErrGetStarsFailed WebErr.ErrGetPostsFailed []
            (DsCall.ListUserStarTweets req.PageSize (pageOffset req.Page req.PageSize))
            (Except.ok (starPosts stars, totalRows)) none
    ∧ starPosts stars = stars.filterMap (fun star => star.Post)
    ∧ ((∀ st ∈ stars, st.Post ≠ none) →
        pageOffset req.Page req.PageSize < totalRows →
        (stars.length : Int) = min req.PageSize (totalRows - pageOffset req.Page req.PageSize) →
        ((starPosts stars).length : Int)
          = min req.PageSize (totalRows - pageOffset req.Page req.PageSize))
    ∧ (stars = [] → starPosts stars = []) := by
  refine ⟨?_, starPosts_eq_filterMap stars, ?_, ?_⟩
  · rw [getUserStarTweets_eq, hq]
    rfl
  · intro hall _ hlen
    rw [starPosts_eq_filterMap, filterMap_post_length stars hall]
    exact hlen
  · intro h
    rw [h]
    rfl

/-- Witness of C15, amended: on the second page of three of five star rows the data source
returns the two remaining rows, each with its post, and the post list handed to
`MergePosts` has min(3, 5 - 3) = 2 entries, the posts 40 and 41, which the envelope
carries; of three rows the second of which has no post, the list keeps the posts
of the first and the third, in order. -/
theorem getUserStarTweets_post_list_witness :
    pageOffset 2 3 = 3
    ∧ ((starPosts starRows).length : Int) = min 3 (5 - pageOffset 2 3)
    ∧ min 3 (5 - pageOffset 2 3) = 2
    ∧ starPosts starRows
        = [{ ID := 40, UserID := 7, Visibility := PostVisibleT.PostVisitPublic },
           { ID := 41, UserID := 7, Visibility := PostVisibleT.PostVisitPublic }]
    ∧ (getUserStarTweets starSrv starPageReq
          { Username := "carol", UserId := 7, RelTyp := RelationTyp.RelationGuest }).log
        = [Event.ds (DsCall.ListUserStarTweets 3 3), Event.ds DsCall.MergePosts,
           Event.ds (DsCall.PrepareTweets (-1))]
    ∧ ((getUserStarTweets starSrv starPageReq
          { Username := "carol", UserId := 7, RelTyp := RelationTyp.RelationGuest }).res.bind
        (fun resp => resp.Data)).map (fun env => (env.Pager, match env.List with
          | PageItems.tweets l => l.map (fun p => p.ID)
          | PageItems.comments _ => []))
        = some ({ Page := 2, PageSize := 3, TotalRows := 5 }, [40, 41])
    ∧ starPosts mixedStarRows
        = [{ ID := 40, UserID := 7, Visibility := PostVisibleT.PostVisitPublic },
           { ID := 41, UserID := 7, Visibility := PostVisibleT.PostVisitPublic }] :=
  ⟨by decide,
   (getUserStarTweets_post_list starSrv starPageReq
      { Username := "carol", UserId := 7, RelTyp := RelationTyp.RelationGuest } starRows 5
      rfl).2.2.1 (by decide) (by decide) (by decide),
   by decide,
   (getUserStarTweets_post_list starSrv starPageReq
      { Username := "carol", UserId := 7, RelTyp := RelationTyp.RelationGuest } starRows 5
      rfl).2.1.trans (by decide),
   (congrArg (fun r => r.log) (getUserStarTweets_post_list starSrv starPageReq
      { Username := "carol", UserId := 7, RelTyp := RelationTyp.RelationGuest } starRows 5
      rfl).1).trans (by decide),
   by decide,
   (getUserStarTweets_post_list mixedStarSrv (userReqOf none UserPostsStyleStar)
      { Username := "carol", UserId := 7, RelTyp := RelationTyp.RelationGuest } mixedStarRows 3
      rfl).2.1.trans (by decide)⟩

/-! ## Comment threads: grouping of the replies and reactions -/

theorem spliceReply_nil (reply : CommentReplyFormated) : spliceReply [] reply = reply := rfl

theorem spliceReply_commentID (rt : CommentThumbsMap) (reply : CommentReplyFormated) :
    (spliceReply rt reply).CommentID = reply.CommentID
    ∧ (spliceReply rt reply).ID = reply.ID ∧ (spliceReply rt reply).UserID = reply.UserID := by
  unfold spliceReply
  cases rt.lookup reply.ID <;> exact ⟨rfl, rfl, rfl⟩

theorem foldl_push (g : CommentReplyFormated → CommentReplyFormated)
    (hg : ∀ r, (g r).CommentID = r.CommentID) (replies : List CommentReplyFormated)
    (m : ReplyMap) (k : Int) :
    (replies.foldl (fun replyMap reply => replyMap.push (g reply).CommentID (g reply)) m) k
      = if repliesOf k replies = [] then m k
        else some ((m k).getD [] ++ (repliesOf k replies).map g) := by
  induction replies generalizing m with
  | nil => simp [repliesOf]
  | cons r rest ih =>
    simp only [List.foldl_cons]
    rw [ih]
    by_cases hk : r.CommentID = k
    · have h1 : repliesOf k (r :: rest) = r :: repliesOf k rest := by
        simp [repliesOf, hk]
      have h2 : (m.push (g r).CommentID (g r)) k = some ((m k).getD [] ++ [g r]) := by
        simp [ReplyMap.push, hg, hk]
      rw [h1, h2]
      by_cases hr : repliesOf k rest = []
      · simp [hr]
      · simp [hr]
    · have h1 : repliesOf k (r :: rest) = repliesOf k rest := by
        simp [repliesOf, hk]
      have h2 : (m.push (g r).CommentID (g r)) k = m k := by
        have : ¬ k = r.CommentID := fun e => hk e.symm
        simp [ReplyMap.push, hg, this]
      rw [h1, h2]

theorem groupReplies_apply (rt : CommentThumbsMap) (replies : List CommentReplyFormated)
    (k : Int) :
    groupReplies rt replies k
      = if repliesOf k replies = [] then none
        else some ((repliesOf k replies).map (spliceReply rt)) := by
  unfold groupReplies
  by_cases hlen : 0 < rt.length
  · simp only [hlen, if_true]
    have h := foldl_push (spliceReply rt) (fun r => (spliceReply_commentID rt r).1) replies
      (fun _ => none) k
    simp only [Option.getD_none, List.nil_append] at h
    rw [← h]
    have hstep : (fun (replyMap : ReplyMap) (reply : CommentReplyFormated) =>
          (let reply :=
            match rt.lookup reply.ID with
            | some thumbs =>
              { reply with IsThumbsUp := thumbs.IsThumbsUp, IsThumbsDown := thumbs.IsThumbsDown }
            | none => reply
          replyMap.push reply.CommentID reply))
        = fun replyMap reply =>
          replyMap.push (spliceReply rt reply).CommentID (spliceReply rt reply) := rfl
    rw [hstep]
  · simp only [hlen, if_false]
    have hnil : rt = [] := by
      cases rt with
      | nil => rfl
      | cons a b => simp at hlen
    subst hnil
    have h := foldl_push (fun r => r) (fun _ => rfl) replies (fun _ => none) k
    simp only [Option.getD_none, List.nil_append, List.map_id'] at h
    rw [h]
    have hid : (repliesOf k replies).map (spliceReply []) = repliesOf k replies := by
      induction repliesOf k replies with
      | nil => rfl
      | cons a b ih => simp [spliceReply_nil, ih]
    rw [hid]

theorem users_fold_fields (f : User → UserFormated) (x : Int) (users : List User)
    (cf : CommentFormated) :
    let out := users.foldl
      (fun cf user => if user.ID = x then { cf with User := f user } else cf) cf
    out.ID = cf.ID ∧ out.Replies = cf.Replies ∧ out.Contents = cf.Contents
      ∧ out.IsThumbsUp = cf.IsThumbsUp ∧ out.IsThumbsDown = cf.IsThumbsDown := by
  induction users generalizing cf with
  | nil => exact ⟨rfl, rfl, rfl, rfl, rfl⟩
  | cons u rest ih =>
    simp only [List.foldl_cons]
    by_cases hu : u.ID = x
    · simp only [hu, if_true]
      exact ih _
    · simp only [hu, if_false]
      exact ih _

theorem contents_fold_fields (x : Int) (contents : List CommentContent) (cf : CommentFormated) :
    let out := contents.foldl
      (fun cf content =>
        if content.CommentID = x then { cf with Contents := cf.Contents ++ [content] } else cf) cf
    out.ID = cf.ID ∧ out.Replies = cf.Replies
      ∧ out.Contents = cf.Contents ++ contents.filter (fun c => decide (c.CommentID = x))
      ∧ out.IsThumbsUp = cf.IsThumbsUp ∧ out.IsThumbsDown = cf.IsThumbsDown := by
  induction contents generalizing cf with
  | nil => simp
  | cons c rest ih =>
    simp only [List.foldl_cons]
    by_cases hc : c.CommentID = x
    · simp only [hc, if_true]
      obtain ⟨h1, h2, h3, h4, h5⟩ := ih { cf with Contents := cf.Contents ++ [c] }
      refine ⟨h1, h2, ?_, h4, h5⟩
      rw [h3]
      simp [List.filter_cons, hc]
    · simp only [hc, if_false]
      obtain ⟨h1, h2, h3, h4, h5⟩ := ih cf
      refine ⟨h1, h2, ?_, h4, h5⟩
      rw [h3]
      simp [List.filter_cons, hc]

theorem mergeComment_fields (s : looseSrv) (ct : CommentThumbsMap)
    (contents : List CommentContent) (replyMap : ReplyMap) (users : List User)
    (c : Comment) :
    (mergeComment s ct contents replyMap users c).ID = (s.commentFormat c).ID
    ∧ (mergeComment s ct contents replyMap users c).Replies
        = (match replyMap (s.commentFormat c).ID with
          | some replySlice => replySlice
          | none => (s.commentFormat c).Replies)
    ∧ (mergeComment s ct contents replyMap users c).Contents
        = (s.commentFormat c).Contents
            ++ contents.filter (fun x => decide (x.CommentID = c.ID))
    ∧ ((mergeComment s ct contents replyMap users c).IsThumbsUp,
        (mergeComment s ct contents replyMap users c).IsThumbsDown)
        = (match ct.lookup c.ID with
          | some thumbs => (thumbs.IsThumbsUp, thumbs.IsThumbsDown)
          | none => ((s.commentFormat c).IsThumbsUp, (s.commentFormat c).IsThumbsDown)) := by
  unfold mergeComment
  simp only
  generalize hcf1 : (match ct.lookup c.ID with
      | some thumbs =>
        { s.commentFormat c with
          IsThumbsUp := thumbs.IsThumbsUp, IsThumbsDown := thumbs.IsThumbsDown }
      | none => s.commentFormat c) = cf1
  have h1 : cf1.ID = (s.commentFormat c).ID ∧ cf1.Replies = (s.commentFormat c).Replies
      ∧ cf1.Contents = (s.commentFormat c).Contents
      ∧ (cf1.IsThumbsUp, cf1.IsThumbsDown)
        = (match ct.lookup c.ID with
          | some thumbs => (thumbs.IsThumbsUp, thumbs.IsThumbsDown)
          | none => ((s.commentFormat c).IsThumbsUp, (s.commentFormat c).IsThumbsDown)) := by
    rw [← hcf1]
    cases ct.lookup c.ID <;> exact ⟨rfl, rfl, rfl, rfl⟩
  obtain ⟨a1, a2, a3, a4⟩ := h1
  obtain ⟨b1, b2, b3, b4, b5⟩ := contents_fold_fields c.ID contents cf1
  generalize hcf2 : contents.foldl
      (fun cf content =>
        if content.CommentID = c.ID then { cf with Contents := cf.Contents ++ [content] }
        else cf) cf1 = cf2 at b1 b2 b3 b4 b5 ⊢
  generalize hcf3 : (match replyMap cf2.ID with
      | some replySlice => { cf2 with Replies := replySlice }
      | none => cf2) = cf3
  have h3 : cf3.ID = cf2.ID
      ∧ cf3.Replies = (match replyMap cf2.ID with
          | some replySlice => replySlice
          | none => cf2.Replies)
      ∧ cf3.Contents = cf2.Contents ∧ cf3.IsThumbsUp = cf2.IsThumbsUp
      ∧ cf3.IsThumbsDown = cf2.IsThumbsDown := by
    rw [← hcf3]
    cases replyMap cf2.ID <;> exact ⟨rfl, rfl, rfl, rfl, rfl⟩
  obtain ⟨c1, c2, c3, c4, c5⟩ := h3
  obtain ⟨d1, d2, d3, d4, d5⟩ := users_fold_fields s.userFormat c.UserID users cf3
  refine ⟨?_, ?_, ?_, ?_⟩
  · rw [d1, c1, b1, a1]
  · rw [d2, c2, b1, a1, b2, a2]
  · rw [d3, c3, b3, a3]
  · rw [d4, d5, c4, c5, b4, b5]
    exact a4

theorem TweetComments_miss_ok (s : looseSrv) (req : TweetCommentsReq) (comments : List Comment)
    (total : Int) (users : List User) (contents : List CommentContent)
    (replies : List CommentReplyFormated) (ct rt : CommentThumbsMap)
    (hmiss : s.ac.Get (commentsKey s req req.PageSize (pageOffset req.Page req.PageSize)) = none)
    (hcomments : s.GetComments req.TweetId (s.styleToInnerValue req.Style) req.PageSize
      (pageOffset req.Page req.PageSize) = Except.ok (comments, total))
    (husers : s.GetUsersByIDs (comments.map fun comment => comment.UserID) = Except.ok users)
    (hcontents : s.GetCommentContentsByIDs (comments.map fun comment => comment.ID)
      = Except.ok contents)
    (hreplies : s.GetCommentRepliesByID (comments.map fun comment => comment.ID)
      = Except.ok replies)
    (hmaps : reactionMaps s req = Except.ok (ct, rt)) :
    ∃ log, TweetComments s req
      = assembleComments s req (commentsKey s req req.PageSize (pageOffset req.Page req.PageSize))
          comments total users contents replies ct rt log := by
  unfold TweetComments
  simp only [tweetCommentsFromCache_eq, hmiss, hcomments, husers, hcontents, hreplies]
  unfold reactionMaps at hmaps
  by_cases hu : 0 < req.Uid
  · simp only [hu, if_true] at hmaps ⊢
    simp only [hmaps]
    exact ⟨_, rfl⟩
  · simp only [hu, if_false, Except.ok.injEq, Prod.mk.injEq] at hmaps ⊢
    obtain ⟨h1, h2⟩ := hmaps
    subst h1
    subst h2
    exact ⟨_, rfl⟩

theorem replies_of_merged (s : looseSrv) (ct rt : CommentThumbsMap)
    (contents : List CommentContent) (replies : List CommentReplyFormated) (users : List User)
    (c : Comment) :
    (mergeComment s ct contents (groupReplies rt replies) users c).Replies
      = if repliesOf (s.commentFormat c).ID replies = [] then (s.commentFormat c).Replies
        else (repliesOf (s.commentFormat c).ID replies).map (spliceReply rt) := by
  rw [(mergeComment_fields s ct contents (groupReplies rt replies) users c).2.1,
    groupReplies_apply]
  by_cases h : repliesOf (s.commentFormat c).ID replies = []
  · simp [h]
  · simp [h]

/-- C16. On the miss path of `TweetComments`, when every fetch succeeds, `Format` yields an
empty reply list and the comment ids of the page are distinct, the reply list of
every output comment is the list of the fetched replies whose owning comment id is
that comment's id, in fetch order, each with the viewer's reaction spliced in (which
leaves its id, owner and author untouched, and leaves the reply itself untouched
when the reply-reaction map is empty); a comment without a matching reply has the
empty list, and no reply appears under two comments of the page. -/
theorem TweetComments_reply_grouping (s : looseSrv) (req : TweetCommentsReq)
    (comments : List Comment) (total : Int) (users : List User)
    (contents : List CommentContent) (replies : List CommentReplyFormated)
    (ct rt : CommentThumbsMap)
    (hmiss : s.ac.Get (commentsKey s req req.PageSize (pageOffset req.Page req.PageSize)) = none)
    (hcomments : s.GetComments req.TweetId (s.styleToInnerValue req.Style) req.PageSize
      (pageOffset req.Page req.PageSize) = Except.ok (comments, total))
    (husers : s.GetUsersByIDs (comments.map fun comment => comment.UserID) = Except.ok users)
    (hcontents : s.GetCommentContentsByIDs (comments.map fun comment => comment.ID)
      = Except.ok contents)
    (hreplies : s.GetCommentRepliesByID (comments.map fun comment => comment.ID)
      = Except.ok replies)
    (hmaps : reactionMaps s req = Except.ok (ct, rt))
    (hfmt : ∀ c, (s.commentFormat c).Replies = [])
    (hdistinct : (comments.map fun c => (s.commentFormat c).ID).Nodup) :
    (TweetComments s req).res
        = some { Data := some (PageRespFrom
                   (PageItems.comments
                     (comments.map (mergeComment s ct contents (groupReplies rt replies) users)))
                   req.Page req.PageSize total)
                 JsonResp := none }
    ∧ (∀ c, (mergeComment s ct contents (groupReplies rt replies) users c).ID
          = (s.commentFormat c).ID
        ∧ (mergeComment s ct contents (groupReplies rt replies) users c).Replies
          = (repliesOf (mergeComment s ct contents (groupReplies rt replies) users c).ID
              replies).map (spliceReply rt))
    ∧ (∀ r, (spliceReply rt r).ID = r.ID ∧ (spliceReply rt r).CommentID = r.CommentID
        ∧ (spliceReply rt r).UserID = r.UserID)
    ∧ (rt = [] → ∀ r, spliceReply rt r = r)
    ∧ (comments.map (mergeComment s ct contents (groupReplies rt replies) users)).Pairwise
        (fun a b => ∀ r, r ∈ a.Replies → r ∉ b.Replies) := by
  obtain ⟨log, hlog⟩ := TweetComments_miss_ok s req comments total users contents replies ct rt
    hmiss hcomments husers hcontents hreplies hmaps
  have hrep : ∀ c, (mergeComment s ct contents (groupReplies rt replies) users c).Replies
      = (repliesOf (s.commentFormat c).ID replies).map (spliceReply rt) := by
    intro c
    rw [replies_of_merged, hfmt]
    by_cases h : repliesOf (s.commentFormat c).ID replies = []
    · simp [h]
    · simp [h]
  have hid : ∀ c, (mergeComment s ct contents (groupReplies rt replies) users c).ID
      = (s.commentFormat c).ID :=
    fun c => (mergeComment_fields s ct contents (groupReplies rt replies) users c).1
  have howner : ∀ c r, r ∈ (mergeComment s ct contents (groupReplies rt replies) users c).Replies
      → r.CommentID = (s.commentFormat c).ID := by
    intro c r hr
    rw [hrep, List.mem_map] at hr
    obtain ⟨r0, hr0, rfl⟩ := hr
    rw [(spliceReply_commentID rt r0).1]
    unfold repliesOf at hr0
    simpa using (List.mem_filter.mp hr0).2
  refine ⟨?_, ?_, ?_, ?_, ?_⟩
  · rw [hlog]
    rfl
  · intro c
    refine ⟨hid c, ?_⟩
    rw [hid c]
    exact hrep c
  · intro r
    obtain ⟨h1, h2, h3⟩ := spliceReply_commentID rt r
    exact ⟨h2, h1, h3⟩
  · intro hrt r
    rw [hrt]
    rfl
  · rw [List.pairwise_map]
    have hd : comments.Pairwise (fun a b => (s.commentFormat a).ID ≠ (s.commentFormat b).ID) := by
      have := hdistinct
      unfold List.Nodup at this
      rwa [List.pairwise_map] at this
    refine hd.imp ?_
    intro a b hab r hra hrb
    exact hab ((howner a r hra).symm.trans (howner b r hrb))

/-- Witness of C16: the comment page of post 5 in the thread deployment, where comment 10
owns both fetched replies. -/
theorem TweetComments_reply_grouping_witness :
    (mergeComment threadSrv
        [(10, { IsThumbsUp := 0, IsThumbsDown := 1 })] []
        (groupReplies [(101, { IsThumbsUp := 1, IsThumbsDown := 0 })]
          [{ ID := 101, CommentID := 10, UserID := 8, IsThumbsUp := 0, IsThumbsDown := 0 },
           { ID := 102, CommentID := 10, UserID := 9, IsThumbsUp := 0, IsThumbsDown := 0 }])
        [{ ID := 7, Username := "author", IsAdmin := false }]
        { ID := 10, PostID := 5, UserID := 7 }).Replies
      = [{ ID := 101, CommentID := 10, UserID := 8, IsThumbsUp := 1, IsThumbsDown := 0 },
         { ID := 102, CommentID := 10, UserID := 9, IsThumbsUp := 0, IsThumbsDown := 0 }] :=
  ((TweetComments_reply_grouping threadSrv (commentsReqOf 1)
    [{ ID := 10, PostID := 5, UserID := 7 }] 1
    [{ ID := 7, Username := "author", IsAdmin := false }] []
    [{ ID := 101, CommentID := 10, UserID := 8, IsThumbsUp := 0, IsThumbsDown := 0 },
     { ID := 102, CommentID := 10, UserID := 9, IsThumbsUp := 0, IsThumbsDown := 0 }]
    [(10, { IsThumbsUp := 0, IsThumbsDown := 1 })]
    [(101, { IsThumbsUp := 1, IsThumbsDown := 0 })]
    (by decide) rfl rfl rfl rfl rfl (fun _ => rfl) (by decide)).2.1
    { ID := 10, PostID := 5, UserID := 7 }).2.trans (by decide)

/-- C17. On the miss path of `TweetComments` for an authenticated viewer (`Uid > 0`), when
every fetch succeeds, the (upvoted, downvoted) flags of an output comment are those
of the comment-reaction map's entry for its id when there is one and those `Format`
produced otherwise; the replies attached to it are the fetched replies of that
comment, each carrying the flags of the reply-reaction map's entry for its id when
there is one and the flags it was fetched with otherwise. In the thread deployment,
where viewer 1 downvoted comment 10 and upvoted reply 101, the output comment is
downvoted, reply 101 is upvoted and reply 102 stays neutral. -/
theorem TweetComments_reactions (s : looseSrv) (req : TweetCommentsReq)
    (comments : List Comment) (total : Int) (users : List User)
    (contents : List CommentContent) (replies : List CommentReplyFormated)
    (ct rt : CommentThumbsMap)
    (hmiss : s.ac.Get (commentsKey s req req.PageSize (pageOffset req.Page req.PageSize)) = none)
    (hcomments : s.GetComments req.TweetId (s.styleToInnerValue req.Style) req.PageSize
      (pageOffset req.Page req.PageSize) = Except.ok (comments, total))
    (husers : s.GetUsersByIDs (comments.map fun comment => comment.UserID) = Except.ok users)
    (hcontents : s.GetCommentContentsByIDs (comments.map fun comment => comment.ID)
      = Except.ok contents)
    (hreplies : s.GetCommentRepliesByID (comments.map fun comment => comment.ID)
      = Except.ok replies)
    (huid : 0 < req.Uid)
    (hthumbs : s.GetCommentThumbsMap req.Uid req.TweetId = Except.ok (ct, rt)) :
    (TweetComments s req).res
        = some { Data := some (PageRespFrom
                   (PageItems.comments
                     (comments.map (mergeComment s ct contents (groupReplies rt replies) users)))
                   req.Page req.PageSize total)
                 JsonResp := none }
    ∧ (∀ c, ((mergeComment s ct contents (groupReplies rt replies) users c).IsThumbsUp,
            (mergeComment s ct contents (groupReplies rt replies) users c).IsThumbsDown)
          = (match ct.lookup c.ID with
            | some thumbs => (thumbs.IsThumbsUp, thumbs.IsThumbsDown)
            | none => ((s.commentFormat c).IsThumbsUp, (s.commentFormat c).IsThumbsDown)))
    ∧ (∀ c, repliesOf (s.commentFormat c).ID replies ≠ [] →
        (mergeComment s ct contents (groupReplies rt replies) users c).Replies
          = (repliesOf (s.commentFormat c).ID replies).map (spliceReply rt))
    ∧ (∀ r, ((spliceReply rt r).IsThumbsUp, (spliceReply rt r).IsThumbsDown)
          = (match rt.lookup r.ID with
            | some thumbs => (thumbs.IsThumbsUp, thumbs.IsThumbsDown)
            | none => (r.IsThumbsUp, r.IsThumbsDown)))
    ∧ (TweetComments threadSrv (commentsReqOf 1)).res
        = some
          { Data := some
              { List := PageItems.comments
                  [{ ID := 10, PostID := 5, UserID := 7
                     User := { ID := 7, Username := "author", IsAdmin := false,
                               IsFriend := false, IsFollowing := false }
                     Contents := []
                     Replies :=
                       [{ ID := 101, CommentID := 10, UserID := 8, IsThumbsUp := 1,
                          IsThumbsDown := 0 },
                        { ID := 102, CommentID := 10, UserID := 9, IsThumbsUp := 0,
                          IsThumbsDown := 0 }]
                     IsThumbsUp := 0, IsThumbsDown := 1 }]
                Pager := { Page := 1, PageSize := 20, TotalRows := 1 } }
            JsonResp := none } := by
  have hmaps : reactionMaps s req = Except.ok (ct, rt) := by
    unfold reactionMaps
    simp only [huid, if_true, hthumbs]
  obtain ⟨log, hlog⟩ := TweetComments_miss_ok s req comments total users contents replies ct rt
    hmiss hcomments husers hcontents hreplies hmaps
  refine ⟨?_, ?_, ?_, ?_, by decide⟩
  · rw [hlog]
    rfl
  · intro c
    exact (mergeComment_fields s ct contents (groupReplies rt replies) users c).2.2.2
  · intro c hne
    rw [replies_of_merged]
    simp [hne]
  · intro r
    unfold spliceReply
    cases rt.lookup r.ID <;> rfl

/-- Witness of C17: viewer 1 on the comment page of post 5 in the thread deployment; the
output comment 10 carries the viewer's downvote. -/
theorem TweetComments_reactions_witness :
    ((mergeComment threadSrv
        [(10, { IsThumbsUp := 0, IsThumbsDown := 1 })] []
        (groupReplies [(101, { IsThumbsUp := 1, IsThumbsDown := 0 })]
          [{ ID := 101, CommentID := 10, UserID := 8, IsThumbsUp := 0, IsThumbsDown := 0 },
           { ID := 102, CommentID := 10, UserID := 9, IsThumbsUp := 0, IsThumbsDown := 0 }])
        [{ ID := 7, Username := "author", IsAdmin := false }]
        { ID := 10, PostID := 5, UserID := 7 }).IsThumbsUp,
      (mergeComment threadSrv
        [(10, { IsThumbsUp := 0, IsThumbsDown := 1 })] []
        (groupReplies [(101, { IsThumbsUp := 1, IsThumbsDown := 0 })]
          [{ ID := 101, CommentID := 10, UserID := 8, IsThumbsUp := 0, IsThumbsDown := 0 },
           { ID := 102, CommentID := 10, UserID := 9, IsThumbsUp := 0, IsThumbsDown := 0 }])
        [{ ID := 7, Username := "author", IsAdmin := false }]
        { ID := 10, PostID := 5, UserID := 7 }).IsThumbsDown) = (0, 1) :=
  ((TweetComments_reactions threadSrv (commentsReqOf 1)
    [{ ID := 10, PostID := 5, UserID := 7 }] 1
    [{ ID := 7, Username := "author", IsAdmin := false }] []
    [{ ID := 101, CommentID := 10, UserID := 8, IsThumbsUp := 0, IsThumbsDown := 0 },
     { ID := 102, CommentID := 10, UserID := 9, IsThumbsUp := 0, IsThumbsDown := 0 }]
    [(10, { IsThumbsUp := 0, IsThumbsDown := 1 })]
    [(101, { IsThumbsUp := 1, IsThumbsDown := 0 })]
    (by decide) rfl rfl rfl rfl (by decide) rfl).2.1
    { ID := 10, PostID := 5, UserID := 7 }).trans (by decide)

/-! ## Comment threads: failing fetches -/

/-- C19. On the miss path of `TweetComments`, if the comment query fails, or it succeeds and
the fetch of the users, of the comment contents, of the replies or, for an
authenticated viewer, of the reaction map fails, whatever the error is, the result
is a nil response with the error `ErrGetCommentsFailed`, and the log holds no store
request. -/
theorem TweetComments_fetch_failure (s : looseSrv) (req : TweetCommentsReq)
    (hmiss : s.ac.Get (commentsKey s req req.PageSize (pageOffset req.Page req.PageSize)) = none)
    (hfail :
      (∃ e, s.GetComments req.TweetId (s.styleToInnerValue req.Style) req.PageSize
          (pageOffset req.Page req.PageSize) = Except.error e)
      ∨ ∃ comments total,
          s.GetComments req.TweetId (s.styleToInnerValue req.Style) req.PageSize
            (pageOffset req.Page req.PageSize) = Except.ok (comments, total)
          ∧ ((∃ e, s.GetUsersByIDs (comments.map fun comment => comment.UserID)
                = Except.error e)
            ∨ (∃ e, s.GetCommentContentsByIDs (comments.map fun comment => comment.ID)
                = Except.error e)
            ∨ (∃ e, s.GetCommentRepliesByID (comments.map fun comment => comment.ID)
                = Except.error e)
            ∨ (0 < req.Uid
                ∧ ∃ e, s.GetCommentThumbsMap req.Uid req.TweetId = Except.error e))) :
    (TweetComments s req).res = none
    ∧ (TweetComments s req).err = some WebErr.ErrGetCommentsFailed
    ∧ ∀ k d x, Event.cacheSet k d x ∉ (TweetComments s req).log := by
  unfold TweetComments
  simp only [tweetCommentsFromCache_eq, hmiss]
  rcases hfail with ⟨e, he⟩ | ⟨comments, total, hc, hrest⟩
  · simp [he]
  · simp only [hc]
    cases hU : s.GetUsersByIDs (comments.map fun comment => comment.UserID) with
    | error e => simp
    | ok users =>
      simp only
      cases hC : s.GetCommentContentsByIDs (comments.map fun comment => comment.ID) with
      | error e => simp
      | ok contents =>
        simp only
        cases hR : s.GetCommentRepliesByID (comments.map fun comment => comment.ID) with
        | error e => simp
        | ok replies =>
          simp only
          rcases hrest with ⟨e, h⟩ | ⟨e, h⟩ | ⟨e, h⟩ | ⟨hu, e, h⟩
          · rw [hU] at h
            cases h
          · rw [hC] at h
            cases h
          · rw [hR] at h
            cases h
          · simp [hu, h]

/-- Witness of C19: the comment query of the failing deployment reports "connection
refused", and the caller sees the fixed error only. -/
theorem TweetComments_fetch_failure_witness :
    (TweetComments failingSrv (commentsReqOf 1)).res = none
    ∧ (TweetComments failingSrv (commentsReqOf 1)).err = some WebErr.ErrGetCommentsFailed
    ∧ ∀ k d x, Event.cacheSet k d x ∉ (TweetComments failingSrv (commentsReqOf 1)).log :=
  TweetComments_fetch_failure failingSrv (commentsReqOf 1) (by decide)
    (Or.inl ⟨"connection refused", rfl⟩)

/-! ## The following feed without a viewer -/

theorem assemblePosts_trace (s : looseSrv) (page pageSize : Int) (viewer : Option User)
    (e1 e2 e3 : WebErr) (call : DsCall) (q : Except DsErr (List Post × Int)) :
    ∃ T : List DsCall, T.head? = some call
      ∧ (∀ c ∈ T, c = call ∨ c = DsCall.MergePosts ∨ c = DsCall.PrepareTweets (viewerId viewer))
      ∧ ∀ (log0 : List Event) (store : Option (String × Int)),
          dsCalls (assemblePosts s page pageSize viewer e1 e2 e3 log0 call q store).log
              = dsCalls log0 ++ T
          ∧ (assemblePosts s page pageSize viewer e1 e2 e3 log0 call q store).res
              = (assemblePosts s page pageSize viewer e1 e2 e3 [] call q none).res
          ∧ (assemblePosts s page pageSize viewer e1 e2 e3 log0 call q store).err
              = (assemblePosts s page pageSize viewer e1 e2 e3 [] call q none).err := by
  unfold assemblePosts
  rcases q with e | ⟨posts, total⟩
  · refine ⟨[call], rfl, by simp, ?_⟩
    intro log0 store
    simp [dsCalls, List.filterMap_append]
  · simp only
    cases s.MergePosts posts with
    | error e =>
      refine ⟨[call, DsCall.MergePosts], rfl, by simp, ?_⟩
      intro log0 store
      simp [dsCalls, List.filterMap_append]
    | ok pfs =>
      simp only
      cases s.PrepareTweets (viewerId viewer) pfs with
      | error e =>
        refine ⟨[call, DsCall.MergePosts, DsCall.PrepareTweets (viewerId viewer)], rfl,
          by simp, ?_⟩
        intro log0 store
        simp [dsCalls, List.filterMap_append]
      | ok pfs' =>
        refine ⟨[call, DsCall.MergePosts, DsCall.PrepareTweets (viewerId viewer)], rfl,
          by simp, ?_⟩
        intro log0 store
        cases store with
        | none => simp [dsCalls, List.filterMap_append]
        | some kv => simp [dsCalls, List.filterMap_append]

/-- C18. For an index request without a viewer, on a cache miss the style following is
served exactly as the style newest: both issue the newest-feed query with the same
limit and offset as their first data-source call, perform the same data-source
calls, none of which is the following-feed query, and return the same response and
error; when the query, the merge and the prepare step succeed, the result is the
envelope of the prepared posts with the request's page and page size and the
reported total, with a nil error. -/
theorem following_without_viewer_is_newest (s : looseSrv) (req : TimelineReq)
    (limit offset : Int) (huser : req.User = none)
    (hmissF : s.ac.Get (indexKey s { req with Style := StyleTweetsFollowing } limit offset)
      = none)
    (hmissN : s.ac.Get (indexKey s { req with Style := StyleTweetsNewest } limit offset)
      = none) :
    (getIndexTweets s { req with Style := StyleTweetsFollowing } limit offset).res
        = (getIndexTweets s { req with Style := StyleTweetsNewest } limit offset).res
    ∧ (getIndexTweets s { req with Style := StyleTweetsFollowing } limit offset).err
        = (getIndexTweets s { req with Style := StyleTweetsNewest } limit offset).err
    ∧ dsCalls (getIndexTweets s { req with Style := StyleTweetsFollowing } limit offset).log
        = dsCalls (getIndexTweets s { req with Style := StyleTweetsNewest } limit offset).log
    ∧ (dsCalls (getIndexTweets s { req with Style := StyleTweetsFollowing } limit offset).log).head?
        = some (DsCall.ListIndexNewestTweets limit offset)
    ∧ (∀ uid l o, DsCall.ListFollowingTweets uid l o
        ∉ dsCalls (getIndexTweets s { req with Style := StyleTweetsFollowing } limit offset).log)
    ∧ (∀ posts total pfs pfs', s.ListIndexNewestTweets limit offset = Except.ok (posts, total) →
        s.MergePosts posts = Except.ok pfs →
        s.PrepareTweets (-1) pfs = Except.ok pfs' →
        (getIndexTweets s { req with Style := StyleTweetsFollowing } limit offset).res
            = some { Data := some (PageRespFrom (PageItems.tweets pfs') req.Page req.PageSize
                       total)
                     JsonResp := none }
          ∧ (getIndexTweets s { req with Style := StyleTweetsFollowing } limit offset).err
            = none) := by
  have hsupF : indexStyleSupported
      ({ req with Style := StyleTweetsFollowing } : TimelineReq).Style := Or.inr (Or.inr rfl)
  have hsupN : indexStyleSupported
      ({ req with Style := StyleTweetsNewest } : TimelineReq).Style := Or.inl rfl
  obtain ⟨cF, qF, hqF, hF⟩ := getIndexTweets_miss s _ limit offset hsupF hmissF
  obtain ⟨cN, qN, hqN, hN⟩ := getIndexTweets_miss s _ limit offset hsupN hmissN
  have hqF' : indexQuery s { req with Style := StyleTweetsFollowing } limit offset
      = some (DsCall.ListIndexNewestTweets limit offset, s.ListIndexNewestTweets limit offset) := by
    simp [indexQuery, huser]
  have hqN' : indexQuery s { req with Style := StyleTweetsNewest } limit offset
      = some (DsCall.ListIndexNewestTweets limit offset, s.ListIndexNewestTweets limit offset) := by
    simp [indexQuery, StyleTweetsNewest, StyleTweetsFollowing]
  rw [hqF'] at hqF
  rw [hqN'] at hqN
  simp only [Option.some.injEq, Prod.mk.injEq] at hqF hqN
  obtain ⟨rfl, rfl⟩ := hqF
  obtain ⟨rfl, rfl⟩ := hqN
  rw [hF, hN]
  simp only [huser]
  obtain ⟨T, hhead, hmem, hT⟩ := assemblePosts_trace s req.Page req.PageSize none
    WebErr.ErrGetPostFailed WebErr.ErrGetPostFailed WebErr.ErrGetPostsFailed
    (DsCall.ListIndexNewestTweets limit offset) (s.ListIndexNewestTweets limit offset)
  obtain ⟨a1, a2, a3⟩ := hT
    [Event.cacheGet (indexKey s { req with Style := StyleTweetsFollowing } limit offset)]
    (some (indexKey s { req with Style := StyleTweetsFollowing } limit offset, s.idxTweetsExpire))
  obtain ⟨b1, b2, b3⟩ := hT
    [Event.cacheGet (indexKey s { req with Style := StyleTweetsNewest } limit offset)]
    (some (indexKey s { req with Style := StyleTweetsNewest } limit offset, s.idxTweetsExpire))
  simp only [huser] at a1 a2 a3 b1 b2 b3
  have hnil : ∀ k, dsCalls [Event.cacheGet k] = [] := fun _ => rfl
  rw [hnil, List.nil_append] at a1 b1
  refine ⟨a2.trans b2.symm, a3.trans b3.symm, a1.trans b1.symm, by rw [a1]; exact hhead, ?_, ?_⟩
  · intro uid l o hin
    rw [a1] at hin
    rcases hmem _ hin with h | h | h <;> cases h
  · intro posts total pfs pfs' hq hm hp
    rw [a2, a3]
    have hv : viewerId (none : Option User) = -1 := rfl
    simp only [assemblePosts, hq, hm, hv, hp, and_self]

/-- Witness of C18: the anonymous following-feed request of the sample deployment issues
the newest-feed query first. -/
theorem following_without_viewer_is_newest_witness :
    (dsCalls (getIndexTweets sampleSrv (indexReqOf none StyleTweetsFollowing) 20 0).log).head?
      = some (DsCall.ListIndexNewestTweets 20 0) :=
  (following_without_viewer_is_newest sampleSrv (indexReqOf none StyleTweetsFollowing) 20 0
    rfl (by decide) (by decide)).2.2.2.1

/-! ## User posts: the query variant -/

/-- C20. `getUserPostTweets` issues, as its first operation, the user-posts query for the
target user id with the variant determined by the visitor relation alone (admin,
self, friend and following map to the variant of the same name, guest and any other
relation value to the guest variant), with the highlight flag, the page size as
limit and `(page-1)*pageSize` (in Go's `int`) as offset unchanged, and its outcome
is the shared merge, prepare and envelope step applied to the result of that query
at exactly these arguments. -/
theorem getUserPostTweets_variant (s : looseSrv) (req : GetUserTweetsReq) (user : VistUser)
    (isHighlight : Bool) :
    (getUserPostTweets s req user isHighlight).log.head?
        = some (Event.ds (DsCall.ListUserTweets user.UserId (variantOf user.RelTyp) isHighlight
            req.PageSize (pageOffset req.Page req.PageSize)))
    ∧ getUserPostTweets s req user isHighlight
        = assemblePosts s req.Page req.PageSize req.User WebErr.ErrGetPostsFailed
            WebErr.ErrGetPostsFailed WebErr.ErrGetPostsFailed []
            (DsCall.ListUserTweets user.UserId (variantOf user.RelTyp) isHighlight req.PageSize
              (pageOffset req.Page req.PageSize))
            (s.ListUserTweets user.UserId (variantOf user.RelTyp) isHighlight req.PageSize
              (pageOffset req.Page req.PageSize)) none
    ∧ variantOf RelationTyp.RelationAdmin = StyleUserTweets.StyleUserTweetsAdmin
    ∧ variantOf RelationTyp.RelationSelf = StyleUserTweets.StyleUserTweetsSelf
    ∧ variantOf RelationTyp.RelationFriend = StyleUserTweets.StyleUserTweetsFriend
    ∧ variantOf RelationTyp.RelationFollowing = StyleUserTweets.StyleUserTweetsFollowing
    ∧ variantOf RelationTyp.RelationGuest = StyleUserTweets.StyleUserTweetsGuest
    ∧ (∀ code, variantOf (RelationTyp.RelationOther code)
        = StyleUserTweets.StyleUserTweetsGuest) := by
  refine ⟨?_, getUserPostTweets_eq s req user isHighlight, rfl, rfl, rfl, rfl, rfl,
    fun _ => rfl⟩
  rw [getUserPostTweets_eq]
  unfold assemblePosts
  rcases s.ListUserTweets user.UserId (variantOf user.RelTyp) isHighlight req.PageSize
      (pageOffset req.Page req.PageSize) with e | ⟨posts, total⟩
  · rfl
  · simp only
    cases s.MergePosts posts with
    | error e => rfl
    | ok pfs =>
      simp only
      cases s.PrepareTweets (viewerId req.User) pfs <;> rfl

/-! ## Comment threads: the anonymous viewer -/

theorem spliceReply_map_nil (replies : List CommentReplyFormated) :
    replies.map (spliceReply []) = replies := by
  induction replies with
  | nil => rfl
  | cons a b ih => simp [spliceReply_nil, ih]

/-- C21. For a `TweetComments` request without an authenticated viewer (`Uid <= 0`) the
reaction-map lookup is never issued: it is absent from the log, and the outcome is
the same whatever that lookup would return. On the miss path, when every fetch
succeeds, every output comment carries the flags `Format` produced for it, and the
replies attached to it are the fetched replies of that comment, unchanged. -/
theorem TweetComments_anonymous (s : looseSrv) (req : TweetCommentsReq)
    (huid : req.Uid ≤ 0) :
    (∀ a b, Event.ds (DsCall.GetCommentThumbsMap a b) ∉ (TweetComments s req).log)
    ∧ (∀ f, TweetComments { s with GetCommentThumbsMap := f } req = TweetComments s req)
    ∧ (∀ (comments : List Comment) (total : Int) (users : List User)
        (contents : List CommentContent) (replies : List CommentReplyFormated),
        s.ac.Get (commentsKey s req req.PageSize (pageOffset req.Page req.PageSize)) = none →
        s.GetComments req.TweetId (s.styleToInnerValue req.Style) req.PageSize
          (pageOffset req.Page req.PageSize) = Except.ok (comments, total) →
        s.GetUsersByIDs (comments.map fun comment => comment.UserID) = Except.ok users →
        s.GetCommentContentsByIDs (comments.map fun comment => comment.ID)
          = Except.ok contents →
        s.GetCommentRepliesByID (comments.map fun comment => comment.ID)
          = Except.ok replies →
        (TweetComments s req).res
            = some { Data := some (PageRespFrom
                       (PageItems.comments
                         (comments.map
                           (mergeComment s [] contents (groupReplies [] replies) users)))
                       req.Page req.PageSize total)
                     JsonResp := none }
          ∧ (∀ c, (mergeComment s [] contents (groupReplies [] replies) users c).IsThumbsUp
                = (s.commentFormat c).IsThumbsUp
              ∧ (mergeComment s [] contents (groupReplies [] replies) users c).IsThumbsDown
                = (s.commentFormat c).IsThumbsDown)
          ∧ (∀ c, (mergeComment s [] contents (groupReplies [] replies) users c).Replies
                = if repliesOf (s.commentFormat c).ID replies = [] then
                    (s.commentFormat c).Replies
                  else repliesOf (s.commentFormat c).ID replies)) := by
  have hu : ¬ 0 < req.Uid := by omega
  refine ⟨?_, ?_, ?_⟩
  · intro a b
    unfold TweetComments
    simp only [tweetCommentsFromCache_eq, hu, if_false]
    cases s.ac.Get (commentsKey s req req.PageSize (pageOffset req.Page req.PageSize)) with
    | some data => simp
    | none =>
      simp only
      cases s.GetComments req.TweetId (s.styleToInnerValue req.Style) req.PageSize
          (pageOffset req.Page req.PageSize) with
      | error e => simp
      | ok r =>
        obtain ⟨comments, total⟩ := r
        simp only
        cases s.GetUsersByIDs (comments.map fun comment => comment.UserID) with
        | error e => simp
        | ok users =>
          simp only
          cases s.GetCommentContentsByIDs (comments.map fun comment => comment.ID) with
          | error e => simp
          | ok contents =>
            simp only
            cases s.GetCommentRepliesByID (comments.map fun comment => comment.ID) with
            | error e => simp
            | ok replies => simp [assembleComments]
  · intro f
    unfold TweetComments
    simp only [hu, if_false]
    rfl
  · intro comments total users contents replies hmiss hcomments husers hcontents hreplies
    have hmaps : reactionMaps s req = Except.ok ([], []) := by
      unfold reactionMaps
      simp only [hu, if_false]
    obtain ⟨log, hlog⟩ := TweetComments_miss_ok s req comments total users contents replies
      [] [] hmiss hcomments husers hcontents hreplies hmaps
    refine ⟨by rw [hlog]; rfl, ?_, ?_⟩
    · intro c
      have h := (mergeComment_fields s [] contents (groupReplies [] replies) users c).2.2.2
      simp only [List.lookup, Prod.mk.injEq] at h
      exact h
    · intro c
      rw [replies_of_merged, spliceReply_map_nil]

/-- Witness of C21: the anonymous comment request (`Uid = 0`) for post 5 of the thread
deployment performs the four fetches and the store request, without the reaction
lookup. -/
theorem TweetComments_anonymous_witness :
    dsCalls (TweetComments threadSrv (commentsReqOf 0)).log
      = [DsCall.GetComments 5 20 0, DsCall.GetUsersByIDs [7],
         DsCall.GetCommentContentsByIDs [10], DsCall.GetCommentRepliesByID [10]]
    ∧ ∀ a b, Event.ds (DsCall.GetCommentThumbsMap a b)
        ∉ (TweetComments threadSrv (commentsReqOf 0)).log :=
  ⟨by decide, (TweetComments_anonymous threadSrv (commentsReqOf 0) (by decide)).1⟩

/-! ## Comment threads: the content fragments -/

/-- C22. On the miss path of `TweetComments`, when every fetch succeeds and `Format` yields
an empty content list, the content list of every output comment is the list of the
fetched content fragments whose comment id is that comment's id, in fetch order;
and the output list has one entry per fetched comment, in the fetched order. -/
theorem TweetComments_contents (s : looseSrv) (req : TweetCommentsReq)
    (comments : List Comment) (total : Int) (users : List User)
    (contents : List CommentContent) (replies : List CommentReplyFormated)
    (ct rt : CommentThumbsMap)
    (hmiss : s.ac.Get (commentsKey s req req.PageSize (pageOffset req.Page req.PageSize)) = none)
    (hcomments : s.GetComments req.TweetId (s.styleToInnerValue req.Style) req.PageSize
      (pageOffset req.Page req.PageSize) = Except.ok (comments, total))
    (husers : s.GetUsersByIDs (comments.map fun comment => comment.UserID) = Except.ok users)
    (hcontents : s.GetCommentContentsByIDs (comments.map fun comment => comment.ID)
      = Except.ok contents)
    (hreplies : s.GetCommentRepliesByID (comments.map fun comment => comment.ID)
      = Except.ok replies)
    (hmaps : reactionMaps s req = Except.ok (ct, rt))
    (hfmt : ∀ c, (s.commentFormat c).Contents = []) :
    (TweetComments s req).res
        = some { Data := some (PageRespFrom
                   (PageItems.comments
                     (comments.map (mergeComment s ct contents (groupReplies rt replies) users)))
                   req.Page req.PageSize total)
                 JsonResp := none }
    ∧ (comments.map (mergeComment s ct contents (groupReplies rt replies) users)).length
        = comments.length
    ∧ (comments.map (mergeComment s ct contents (groupReplies rt replies) users)).map
          (fun out => out.ID)
        = comments.map (fun c => (s.commentFormat c).ID)
    ∧ (∀ c, (mergeComment s ct contents (groupReplies rt replies) users c).Contents
        = contents.filter (fun fragment => decide (fragment.CommentID = c.ID))) := by
  obtain ⟨log, hlog⟩ := TweetComments_miss_ok s req comments total users contents replies ct rt
    hmiss hcomments husers hcontents hreplies hmaps
  refine ⟨by rw [hlog]; rfl, by simp, ?_, ?_⟩
  · rw [List.map_map]
    apply List.map_congr_left
    intro c _
    exact (mergeComment_fields s ct contents (groupReplies rt replies) users c).1
  · intro c
    rw [(mergeComment_fields s ct contents (groupReplies rt replies) users c).2.2.1, hfmt,
      List.nil_append]

/-- Witness of C22: in the content deployment comment 10 receives the fragments 1 and 3, in
that order, and not fragment 2 of comment 11. -/
theorem TweetComments_contents_witness :
    (mergeComment contentSrv []
        [{ ID := 1, CommentID := 10, Content := "first" },
         { ID := 2, CommentID := 11, Content := "other" },
         { ID := 3, CommentID := 10, Content := "second" }]
        (groupReplies [] []) [{ ID := 7, Username := "author", IsAdmin := false }]
        { ID := 10, PostID := 5, UserID := 7 }).Contents
      = [{ ID := 1, CommentID := 10, Content := "first" },
         { ID := 3, CommentID := 10, Content := "second" }] :=
  ((TweetComments_contents contentSrv (commentsReqOf 0)
    [{ ID := 10, PostID := 5, UserID := 7 }] 1
    [{ ID := 7, Username := "author", IsAdmin := false }]
    [{ ID := 1, CommentID := 10, Content := "first" },
     { ID := 2, CommentID := 11, Content := "other" },
     { ID := 3, CommentID := 10, Content := "second" }]
    [] [] [] (by decide) rfl rfl rfl rfl rfl (fun _ => rfl)).2.2.2
    { ID := 10, PostID := 5, UserID := 7 }).trans (by decide)

/-! ## Cache stores -/

theorem assemblePosts_store (s : looseSrv) (page pageSize : Int) (viewer : Option User)
    (e1 e2 e3 : WebErr) (log0 : List Event) (call : DsCall)
    (q : Except DsErr (List Post × Int)) (store : Option (String × Int))
    (h0 : noStore log0) :
    (∀ e, (assemblePosts s page pageSize viewer e1 e2 e3 log0 call q store).err = some e →
        (assemblePosts s page pageSize viewer e1 e2 e3 log0 call q store).res = none
        ∧ noStore (assemblePosts s page pageSize viewer e1 e2 e3 log0 call q store).log)
    ∧ (∀ k d x, Event.cacheSet k d x
          ∈ (assemblePosts s page pageSize viewer e1 e2 e3 log0 call q store).log →
        store = some (k, x)
        ∧ (assemblePosts s page pageSize viewer e1 e2 e3 log0 call q store).err = none
        ∧ ∃ env, d = some env
          ∧ (assemblePosts s page pageSize viewer e1 e2 e3 log0 call q store).res
            = some { Data := some env, JsonResp := none })
    ∧ ((assemblePosts s page pageSize viewer e1 e2 e3 log0 call q store).err = none →
        ∃ env, (assemblePosts s page pageSize viewer e1 e2 e3 log0 call q store).res
          = some { Data := some env, JsonResp := none })
    ∧ (∀ e ∈ log0,
        e ∈ (assemblePosts s page pageSize viewer e1 e2 e3 log0 call q store).log) := by
  have h0' : ∀ k d x, Event.cacheSet k d x ∉ log0 := h0
  unfold assemblePosts noStore
  rcases q with e | ⟨posts, total⟩
  · refine ⟨?_, ?_, ?_, ?_⟩
    · intro e' _
      exact ⟨rfl, fun k d x hm => by simp [h0'] at hm⟩
    · intro k d x hm
      simp [h0'] at hm
    · intro h
      simp at h
    · intro e' he
      simp [he]
  · simp only
    cases s.MergePosts posts with
    | error e =>
      refine ⟨?_, ?_, ?_, ?_⟩
      · intro e' _
        exact ⟨rfl, fun k d x hm => by simp [h0'] at hm⟩
      · intro k d x hm
        simp [h0'] at hm
      · intro h
        simp at h
      · intro e' he
        simp [he]
    | ok pfs =>
      simp only
      cases s.PrepareTweets (viewerId viewer) pfs with
      | error e =>
        refine ⟨?_, ?_, ?_, ?_⟩
        · intro e' _
          exact ⟨rfl, fun k d x hm => by simp [h0'] at hm⟩
        · intro k d x hm
          simp [h0'] at hm
        · intro h
          simp at h
        · intro e' he
          simp [he]
      | ok pfs' =>
        cases store with
        | none =>
          refine ⟨?_, ?_, ?_, ?_⟩
          · intro e' h
            simp at h
          · intro k d x hm
            simp [h0'] at hm
          · intro _
            exact ⟨_, rfl⟩
          · intro e' he
            simp [he]
        | some kv =>
          obtain ⟨key, ttl⟩ := kv
          refine ⟨?_, ?_, ?_, ?_⟩
          · intro e' h
            simp at h
          · intro k d x hm
            simp [h0'] at hm
            obtain ⟨rfl, rfl, rfl⟩ := hm
            exact ⟨rfl, rfl, _, rfl, rfl⟩
          · intro _
            exact ⟨_, rfl⟩
          · intro e' he
            simp [he]

theorem noStore_nil : noStore [] := by
  intro k d x h
  cases h

theorem userTweetsDispatch_cases (s : looseSrv) (req : GetUserTweetsReq) (user : VistUser) :
    (userTweetsDispatch s req user
        = { res := none, err := some WebErr.ErrGetPostsFailed, log := [] })
    ∨ ∃ e1 e2 e3 call q, userTweetsDispatch s req user
        = assemblePosts s req.Page req.PageSize req.User e1 e2 e3 [] call q none := by
  unfold userTweetsDispatch
  by_cases h1 : req.Style = UserPostsStyleComment ∨ req.Style = UserPostsStyleMedia
  · simp only [h1, if_true]
    rw [listUserTweets_eq]
    cases listQuery s req user with
    | none => exact Or.inl rfl
    | some cq => exact Or.inr ⟨_, _, _, cq.1, cq.2, rfl⟩
  · simp only [h1, if_false]
    by_cases h2 : req.Style = UserPostsStyleHighlight
    · simp only [h2, if_true]
      exact Or.inr ⟨_, _, _, _, _, getUserPostTweets_eq s req user true⟩
    · simp only [h2, if_false]
      by_cases h3 : req.Style = UserPostsStyleStar
      · simp only [h3, if_true]
        exact Or.inr ⟨_, _, _, _, _, getUserStarTweets_eq s req user⟩
      · simp only [h3, if_false]
        exact Or.inr ⟨_, _, _, _, _, getUserPostTweets_eq s req user false⟩

theorem userTweetsDispatch_store (s : looseSrv) (req : GetUserTweetsReq) (user : VistUser) :
    noStore (userTweetsDispatch s req user).log
    ∧ ((userTweetsDispatch s req user).err = none →
        ∃ env, (userTweetsDispatch s req user).res
          = some { Data := some env, JsonResp := none }) := by
  rcases userTweetsDispatch_cases s req user with h | ⟨e1, e2, e3, call, q, h⟩
  · rw [h]
    refine ⟨noStore_nil, ?_⟩
    intro herr
    simp at herr
  · rw [h]
    obtain ⟨_, h2, h3, _⟩ := assemblePosts_store s req.Page req.PageSize req.User e1 e2 e3 []
      call q none noStore_nil
    refine ⟨?_, h3⟩
    intro k d x hm
    have := (h2 k d x hm).1
    simp at this

theorem userKey_none (s : looseSrv) (req : GetUserTweetsReq) (user : VistUser)
    (h : userKey s req user = none) : userTweetsFromCache s req user = none := by
  unfold userKey at h
  simpa using h

theorem GetUserTweets_miss (s : looseSrv) (req : GetUserTweetsReq) (user : VistUser)
    (key : String)
    (hrel : s.RelationTypFrom req.User req.Username = Except.ok user)
    (hkey : userKey s req user = some key) (hmiss : s.ac.Get key = none) :
    GetUserTweets s req
      = match (userTweetsDispatch s req user).err with
        | some e =>
          some { res := (userTweetsDispatch s req user).res, err := some e
                 log := Event.ds DsCall.RelationTypFrom ::
                   ([Event.cacheGet key] ++ (userTweetsDispatch s req user).log) }
        | none =>
          match (userTweetsDispatch s req user).res with
          | none => none
          | some res =>
            some { res := some res, err := none
                   log := Event.ds DsCall.RelationTypFrom ::
                     ([Event.cacheGet key] ++ (userTweetsDispatch s req user).log) ++
                     [Event.cacheSet key res.Data s.userTweetsExpire] } := by
  simp only [GetUserTweets, hrel, userTweetsFromCache_eq s req user key hkey, hmiss]
  rfl

/-- C23. `getIndexTweets` and `GetUserTweets` request a cache store only after a cache miss
followed by a successful query and assembly: a store request in the log has the key
that was looked up, at which the cache held nothing, comes with a nil error, and
its payload is the envelope returned to the caller; whenever an error is returned
the log holds no store request. -/
theorem cache_store_only_after_success (s : looseSrv) :
    (∀ (req : TimelineReq) (limit offset : Int) (k : String) (d : Option PageResp) (x : Int),
        Event.cacheSet k d x ∈ (getIndexTweets s req limit offset).log →
        k = indexKey s req limit offset ∧ x = s.idxTweetsExpire
        ∧ Event.cacheGet k ∈ (getIndexTweets s req limit offset).log
        ∧ s.ac.Get k = none
        ∧ (getIndexTweets s req limit offset).err = none
        ∧ ∃ env, d = some env
          ∧ (getIndexTweets s req limit offset).res
            = some { Data := some env, JsonResp := none })
    ∧ (∀ (req : TimelineReq) (limit offset : Int) (e : WebErr),
        (getIndexTweets s req limit offset).err = some e →
        noStore (getIndexTweets s req limit offset).log)
    ∧ (∀ (req : GetUserTweetsReq) (r : Reply GetUserTweetsResp) (k : String)
        (d : Option PageResp) (x : Int),
        GetUserTweets s req = some r → Event.cacheSet k d x ∈ r.log →
        (∃ user, s.RelationTypFrom req.User req.Username = Except.ok user
          ∧ userKey s req user = some k)
        ∧ x = s.userTweetsExpire
        ∧ Event.cacheGet k ∈ r.log
        ∧ s.ac.Get k = none
        ∧ r.err = none
        ∧ ∃ env, d = some env ∧ r.res = some { Data := some env, JsonResp := none })
    ∧ (∀ (req : GetUserTweetsReq) (r : Reply GetUserTweetsResp) (e : WebErr),
        GetUserTweets s req = some r → r.err = some e → noStore r.log) := by
  have hidx : ∀ (req : TimelineReq) (limit offset : Int) (k : String) (d : Option PageResp)
      (x : Int), Event.cacheSet k d x ∈ (getIndexTweets s req limit offset).log →
      k = indexKey s req limit offset ∧ x = s.idxTweetsExpire
      ∧ Event.cacheGet k ∈ (getIndexTweets s req limit offset).log
      ∧ s.ac.Get k = none
      ∧ (getIndexTweets s req limit offset).err = none
      ∧ ∃ env, d = some env
        ∧ (getIndexTweets s req limit offset).res
          = some { Data := some env, JsonResp := none } := by
    intro req limit offset k d x hm
    by_cases hsup : indexStyleSupported req.Style
    · cases hget : s.ac.Get (indexKey s req limit offset) with
      | some data =>
        rw [getIndexTweets_hit s req limit offset data hsup hget] at hm
        simp at hm
      | none =>
        obtain ⟨call, q, _, heq⟩ := getIndexTweets_miss s req limit offset hsup hget
        rw [heq] at hm ⊢
        have h0 : noStore [Event.cacheGet (indexKey s req limit offset)] := by
          intro k d x h
          simp at h
        obtain ⟨_, h2, _, h4⟩ := assemblePosts_store s req.Page req.PageSize req.User
          WebErr.ErrGetPostFailed WebErr.ErrGetPostFailed WebErr.ErrGetPostsFailed
          [Event.cacheGet (indexKey s req limit offset)] call q
          (some (indexKey s req limit offset, s.idxTweetsExpire)) h0
        obtain ⟨hstore, herr, env, hd, hres⟩ := h2 k d x hm
        simp only [Option.some.injEq, Prod.mk.injEq] at hstore
        obtain ⟨hk, hx⟩ := hstore
        refine ⟨hk.symm, hx.symm, ?_, ?_, herr, env, hd, hres⟩
        · rw [← hk]
          exact h4 _ (List.mem_singleton.mpr rfl)
        · rw [← hk]
          exact hget
    · rw [getIndexTweets_unknown s req limit offset hsup] at hm
      simp at hm
  have husr : ∀ (req : GetUserTweetsReq) (r : Reply GetUserTweetsResp) (k : String)
      (d : Option PageResp) (x : Int),
      GetUserTweets s req = some r → Event.cacheSet k d x ∈ r.log →
      (∃ user, s.RelationTypFrom req.User req.Username = Except.ok user
        ∧ userKey s req user = some k)
      ∧ x = s.userTweetsExpire
      ∧ Event.cacheGet k ∈ r.log
      ∧ s.ac.Get k = none
      ∧ r.err = none
      ∧ ∃ env, d = some env ∧ r.res = some { Data := some env, JsonResp := none } := by
    intro req r k d x hr hm
    cases hrel : s.RelationTypFrom req.User req.Username with
    | error e =>
      simp only [GetUserTweets, hrel, Option.some.injEq] at hr
      subst hr
      simp at hm
    | ok user =>
      cases hkey : userKey s req user with
      | none =>
        simp only [GetUserTweets, hrel, userKey_none s req user hkey] at hr
        cases hr
      | some key =>
        cases hget : s.ac.Get key with
        | some data =>
          simp only [GetUserTweets, hrel, userTweetsFromCache_eq s req user key hkey, hget,
            Option.some.injEq] at hr
          subst hr
          simp at hm
        | none =>
          rw [GetUserTweets_miss s req user key hrel hkey hget] at hr
          obtain ⟨hns, hok⟩ := userTweetsDispatch_store s req user
          cases herr : (userTweetsDispatch s req user).err with
          | some e =>
            simp only [herr, Option.some.injEq] at hr
            subst hr
            simp only [List.mem_cons, List.mem_append, List.mem_singleton, reduceCtorEq,
              List.not_mem_nil, or_false, false_or] at hm
            exact absurd hm (hns k d x)
          | none =>
            obtain ⟨env, henv⟩ := hok herr
            simp only [herr, henv, Option.some.injEq] at hr
            subst hr
            simp only [List.mem_cons, List.mem_append, List.mem_singleton, reduceCtorEq,
              List.not_mem_nil, or_false, false_or, Event.cacheSet.injEq] at hm
            rcases hm with hm | ⟨rfl, rfl, rfl⟩
            · exact absurd hm (hns k d x)
            · refine ⟨⟨user, rfl, hkey⟩, rfl, ?_, hget, rfl, env, rfl, rfl⟩
              simp
  refine ⟨hidx, ?_, husr, ?_⟩
  · intro req limit offset e herr k d x hm
    have := (hidx req limit offset k d x hm).2.2.2.2.1
    rw [herr] at this
    cases this
  · intro req r e hr herr k d x hm
    have := (husr req r k d x hr hm).2.2.2.2.1
    rw [herr] at this
    cases this

/-- Witness of C23: the anonymous newest-feed request of the sample deployment ends with
the store request for the looked-up key and the returned envelope. -/
theorem cache_store_only_after_success_witness :
    Event.cacheSet "index:newest:_:0:20" (some (PageRespFrom (PageItems.tweets []) 1 20 0)) 60
        ∈ (getIndexTweets sampleSrv (indexReqOf none StyleTweetsNewest) 20 0).log
    ∧ (getIndexTweets sampleSrv (indexReqOf none StyleTweetsNewest) 20 0).err = none :=
  ⟨by decide,
    ((cache_store_only_after_success sampleSrv).1 (indexReqOf none StyleTweetsNewest) 20 0
      "index:newest:_:0:20" (some (PageRespFrom (PageItems.tweets []) 1 20 0)) 60
      (by decide)).2.2.2.2.1⟩

/-! ## User tweets: the dispatch on style -/

theorem assemblePosts_calls (s : looseSrv) (page pageSize : Int) (viewer : Option User)
    (e1 e2 e3 : WebErr) (call : DsCall) (q : Except DsErr (List Post × Int)) (c : DsCall)
    (hc : c ∈ dsCalls (assemblePosts s page pageSize viewer e1 e2 e3 [] call q none).log) :
    c = call ∨ c = DsCall.MergePosts ∨ c = DsCall.PrepareTweets (viewerId viewer) := by
  obtain ⟨T, _, hmem, hT⟩ := assemblePosts_trace s page pageSize viewer e1 e2 e3 call q
  rw [(hT [] none).1] at hc
  exact hmem c (by simpa [dsCalls] using hc)

theorem listQuery_some (s : looseSrv) (req : GetUserTweetsReq) (user : VistUser)
    (h : req.Style = UserPostsStyleComment ∨ req.Style = UserPostsStyleMedia) :
    ∃ call q, listQuery s req user = some (call, q) := by
  unfold listQuery
  rcases h with h | h
  · exact ⟨_, _, by rw [h]; rfl⟩
  · exact ⟨_, _, by rw [h]; rfl⟩

/-- C24. On the miss path of `GetUserTweets` the result is built from the handler that the
switch on the style selects. `listUserTweets` is selected exactly for the styles
comment and media, and for these its query is defined, so that its unknown-style
error branch is not taken; highlight selects the highlight user-posts query, star
the star handler, and every other style, unknown ones included, the non-highlight
user-posts query; for a style other than comment and media neither query of
`listUserTweets` is issued. -/
theorem GetUserTweets_dispatch (s : looseSrv) (req : GetUserTweetsReq) (user : VistUser)
    (key : String)
    (hrel : s.RelationTypFrom req.User req.Username = Except.ok user)
    (hkey : userKey s req user = some key) (hmiss : s.ac.Get key = none) :
    (∀ e, (userTweetsDispatch s req user).err = some e →
        GetUserTweets s req
          = some { res := (userTweetsDispatch s req user).res, err := some e
                   log := Event.ds DsCall.RelationTypFrom ::
                     ([Event.cacheGet key] ++ (userTweetsDispatch s req user).log) })
    ∧ (∀ resp, (userTweetsDispatch s req user).err = none →
        (userTweetsDispatch s req user).res = some resp →
        GetUserTweets s req
          = some { res := some resp, err := none
                   log := Event.ds DsCall.RelationTypFrom ::
                     ([Event.cacheGet key] ++ (userTweetsDispatch s req user).log) ++
                     [Event.cacheSet key resp.Data s.userTweetsExpire] })
    ∧ (req.Style = UserPostsStyleComment ∨ req.Style = UserPostsStyleMedia →
        userTweetsDispatch s req user = listUserTweets s req user
        ∧ ∃ call q, listQuery s req user = some (call, q)
          ∧ listUserTweets s req user
            = assemblePosts s req.Page req.PageSize req.User WebErr.ErrGetPostsFailed
                WebErr.ErrGetPostsFailed WebErr.ErrGetPostsFailed [] call q none)
    ∧ (¬ (req.Style = UserPostsStyleComment ∨ req.Style = UserPostsStyleMedia) →
        (req.Style = UserPostsStyleHighlight →
          userTweetsDispatch s req user = getUserPostTweets s req user true)
        ∧ (req.Style = UserPostsStyleStar →
          userTweetsDispatch s req user = getUserStarTweets s req user)
        ∧ (req.Style ≠ UserPostsStyleHighlight → req.Style ≠ UserPostsStyleStar →
          userTweetsDispatch s req user = getUserPostTweets s req user false)
        ∧ ∀ l o, DsCall.ListUserCommentTweets l o ∉ dsCalls (userTweetsDispatch s req user).log
          ∧ DsCall.ListUserMediaTweets l o ∉ dsCalls (userTweetsDispatch s req user).log) := by
  have hshape := GetUserTweets_miss s req user key hrel hkey hmiss
  refine ⟨?_, ?_, ?_, ?_⟩
  · intro e herr
    rw [hshape]
    simp only [herr]
  · intro resp herr hres
    rw [hshape]
    simp only [herr, hres]
  · intro hstyle
    have hd : userTweetsDispatch s req user = listUserTweets s req user := by
      unfold userTweetsDispatch
      rw [if_pos hstyle]
    obtain ⟨call, q, hq⟩ := listQuery_some s req user hstyle
    refine ⟨hd, call, q, hq, ?_⟩
    rw [listUserTweets_eq, hq]
  · intro hstyle
    have hstar : ¬ UserPostsStyleStar = UserPostsStyleHighlight := by decide
    have h1 : req.Style = UserPostsStyleHighlight →
        userTweetsDispatch s req user = getUserPostTweets s req user true := by
      intro h
      unfold userTweetsDispatch
      rw [if_neg hstyle, if_pos h]
    have h2 : req.Style = UserPostsStyleStar →
        userTweetsDispatch s req user = getUserStarTweets s req user := by
      intro h
      unfold userTweetsDispatch
      have hne : ¬ req.Style = UserPostsStyleHighlight := by rw [h]; exact hstar
      rw [if_neg hstyle, if_neg hne, if_pos h]
    have h3 : req.Style ≠ UserPostsStyleHighlight → req.Style ≠ UserPostsStyleStar →
        userTweetsDispatch s req user = getUserPostTweets s req user false := by
      intro ha hb
      unfold userTweetsDispatch
      rw [if_neg hstyle, if_neg ha, if_neg hb]
    refine ⟨h1, h2, h3, ?_⟩
    have hcalls : ∀ c, c ∈ dsCalls (userTweetsDispatch s req user).log →
        (∃ a b d l o, c = DsCall.ListUserTweets a b d l o)
        ∨ (∃ l o, c = DsCall.ListUserStarTweets l o)
        ∨ c = DsCall.MergePosts ∨ c = DsCall.PrepareTweets (viewerId req.User) := by
      intro c hc
      by_cases ha : req.Style = UserPostsStyleHighlight
      · rw [h1 ha, getUserPostTweets_eq] at hc
        rcases assemblePosts_calls _ _ _ _ _ _ _ _ _ c hc with h | h | h
        · exact Or.inl ⟨_, _, _, _, _, h⟩
        · exact Or.inr (Or.inr (Or.inl h))
        · exact Or.inr (Or.inr (Or.inr h))
      · by_cases hb : req.Style = UserPostsStyleStar
        · rw [h2 hb, getUserStarTweets_eq] at hc
          rcases assemblePosts_calls _ _ _ _ _ _ _ _ _ c hc with h | h | h
          · exact Or.inr (Or.inl ⟨_, _, h⟩)
          · exact Or.inr (Or.inr (Or.inl h))
          · exact Or.inr (Or.inr (Or.inr h))
        · rw [h3 ha hb, getUserPostTweets_eq] at hc
          rcases assemblePosts_calls _ _ _ _ _ _ _ _ _ c hc with h | h | h
          · exact Or.inl ⟨_, _, _, _, _, h⟩
          · exact Or.inr (Or.inr (Or.inl h))
          · exact Or.inr (Or.inr (Or.inr h))
    intro l o
    constructor
    · intro hin
      rcases hcalls _ hin with ⟨_, _, _, _, _, h⟩ | ⟨_, _, h⟩ | h | h <;> cases h
    · intro hin
      rcases hcalls _ hin with ⟨_, _, _, _, _, h⟩ | ⟨_, _, h⟩ | h | h <;> cases h

/-- Witness of C24: the anonymous request of the sample deployment for the style "bogus"
of user "carol" is served by the non-highlight user-posts query. -/
theorem GetUserTweets_dispatch_witness :
    userTweetsDispatch sampleSrv (userReqOf none "bogus")
        { Username := "carol", UserId := 7, RelTyp := RelationTyp.RelationGuest }
      = getUserPostTweets sampleSrv (userReqOf none "bogus")
        { Username := "carol", UserId := 7, RelTyp := RelationTyp.RelationGuest } false :=
  ((GetUserTweets_dispatch sampleSrv (userReqOf none "bogus")
    { Username := "carol", UserId := 7, RelTyp := RelationTyp.RelationGuest }
    "user:tweets:7:bogus:_:1:20" rfl (by decide) (by decide)).2.2.2 (by decide)).2.2.1
    (by decide) (by decide)

end Paopao
